import Mathlib

/-!
# School content-management backend: database adapter, reorder protocol, unit repository

A shallow embedding of `src/src/database/database.js`, of the handlers of
`src/src/routes/classRoutes.js`, `src/src/routes/unitRoutes.js` and
`src/src/routes/lessonRoutes.js`, of the authentication middleware and of the start-up checks
of `src/server.js`, followed by theorems about them.

JavaScript strings are lists of characters.  The SQL engines are not part of the repository:
they enter as parameters (a query function for the networked dialect, an in-memory table for
the handlers).
-/

namespace SchoolCms

/-! ## Strings and the regular expressions of `database.js` -/

/-- Decimal text of a counter value, as a template literal prints a small integer. -/
def numText (k : Nat) : List Char := Nat.toDigits 10 k

/-- Scan of `sql.replace(/\?/g, () => '$' + paramIndex++)`: `k` is the current `paramIndex`. -/
def replaceQuestionMarks : Nat → List Char → List Char
  | _, [] => []
  | k, c :: cs =>
    if c = '?' then '$' :: (numText k ++ replaceQuestionMarks (k + 1) cs)
    else c :: replaceQuestionMarks k cs

/-- Placeholder rewriting of one call: `let paramIndex = 1` and then the scan. -/
def rewritePlaceholders (sql : List Char) : List Char := replaceQuestionMarks 1 sql

/-- Characters matched by `\s` in a JavaScript regular expression (also those removed by
`String.prototype.trim`). -/
def isJsSpace (c : Char) : Bool :=
  decide (c.toNat = 0x09) || decide (c.toNat = 0x0A) || decide (c.toNat = 0x0B) ||
  decide (c.toNat = 0x0C) || decide (c.toNat = 0x0D) || decide (c.toNat = 0x20) ||
  decide (c.toNat = 0xA0) || decide (c.toNat = 0x1680) ||
  (decide (0x2000 ≤ c.toNat) && decide (c.toNat ≤ 0x200A)) ||
  decide (c.toNat = 0x2028) || decide (c.toNat = 0x2029) || decide (c.toNat = 0x202F) ||
  decide (c.toNat = 0x205F) || decide (c.toNat = 0x3000) || decide (c.toNat = 0xFEFF)

/-- The method `String.prototype.trim`. -/
def jsTrim (s : List Char) : List Char := (s.dropWhile isJsSpace).rdropWhile isJsSpace

/-- Comparison of a pattern letter `k` (an upper-case ASCII letter) with a text character
under the `i` flag: the letter itself or its lower-case form, 32 code points later. -/
def eqIgnoreCase (k c : Char) : Bool :=
  decide (c.toNat = k.toNat) || decide (c.toNat = k.toNat + 32)

/-- Match of an upper-case ASCII keyword under the `i` flag at the head of `s`; the rest of
`s` on success. -/
def stripKeyword : List Char → List Char → Option (List Char)
  | [], s => some s
  | _ :: _, [] => none
  | k :: ks, c :: cs => if eqIgnoreCase k c then stripKeyword ks cs else none

/-- Match of `\s+` at the head of `s` (greedy); the rest of `s` on success. -/
def stripSpaces1 : List Char → Option (List Char)
  | [] => none
  | c :: cs => if isJsSpace c then some (cs.dropWhile isJsSpace) else none

/-- The test `/^\s*INSERT\s+INTO\s+/i.test(s)`. -/
def matchesInsertInto (s : List Char) : Bool :=
  ((stripKeyword ['I', 'N', 'S', 'E', 'R', 'T'] (s.dropWhile isJsSpace)).bind fun r1 =>
    (stripSpaces1 r1).bind fun r2 =>
      (stripKeyword ['I', 'N', 'T', 'O'] r2).bind stripSpaces1).isSome

/-- Match of `RETURNING\s+` under the `i` flag at the head of `s`. -/
def startsReturning (s : List Char) : Bool :=
  match stripKeyword ['R', 'E', 'T', 'U', 'R', 'N', 'I', 'N', 'G'] s with
  | some (c :: _) => isJsSpace c
  | _ => false

/-- The test `/RETURNING\s+/i.test(s)`: a match starting at some position of `s`. -/
def containsReturning : List Char → Bool
  | [] => false
  | c :: cs => startsReturning (c :: cs) || containsReturning cs

/-- The flag `isInsert` of `Database.run`. -/
def isInsert (sql : List Char) : Bool :=
  matchesInsertInto (jsTrim sql) && !containsReturning sql

/-- The replacement `s.replace(/;\s*$/, '')`: the leftmost semicolon followed only by
white space up to the end of the text is cut off together with that white space. -/
def stripTrailingSemicolon : List Char → List Char
  | [] => []
  | c :: cs => if c = ';' ∧ cs.all isJsSpace = true then [] else c :: stripTrailingSemicolon cs

/-- The text appended to an insert, `' RETURNING id'`. -/
def returningId : List Char := " RETURNING id".toList

/-- Statement text that `run` passes to `this.db.query` under the networked dialect. -/
def runStatement (sql : List Char) : List Char :=
  if isInsert sql then stripTrailingSemicolon (rewritePlaceholders sql) ++ returningId
  else rewritePlaceholders sql

/-- Statement text that `get` passes to `this.db.query` under the networked dialect. -/
def getStatement (sql : List Char) : List Char := rewritePlaceholders sql

/-- Statement text that `all` passes to `this.db.query` under the networked dialect. -/
def allStatement (sql : List Char) : List Char := rewritePlaceholders sql

/-! ## The networked dialect of `Database` -/

/-- A column value of a result row. -/
inductive SqlVal where
  | null
  | int (z : Int)
  | text (s : String)
deriving DecidableEq, Repr

/-- A result row: column names with their values. -/
abbrev PgRow := List (String × SqlVal)

/-- Result object of `pool.query`: the rows and `rowCount`. -/
structure PgResult where
  rows : List PgRow
  rowCount : Nat
deriving DecidableEq, Repr

/-- Errors of the adapter: the throw `Database not connected`, or the engine's own error. -/
inductive DbError (ε : Type) where
  | notConnected
  | engine (e : ε)
deriving DecidableEq, Repr

/-- The value `{ id, changes }` resolved by `run`; `id = none` is `undefined`. -/
structure RunResult where
  id : Option SqlVal
  changes : Nat
deriving DecidableEq, Repr

/-- The `Database` object under the networked dialect: `db` is `null` before `connect`,
afterwards the pool, seen as its `query(text, values)` function. -/
structure PgDatabase (π ε : Type) where
  db : Option (List Char → List π → Except ε PgResult)

/-- The expression `(isInsert && result.rows && result.rows[0]) ? result.rows[0].id : undefined`. -/
def insertedId (sql : List Char) (result : PgResult) : Option SqlVal :=
  if isInsert sql then
    match result.rows with
    | row :: _ => row.lookup "id"
    | [] => none
  else none

/-- The method `Database.run`, networked branch. -/
def PgDatabase.run {π ε : Type} (d : PgDatabase π ε) (sql : List Char) (params : List π) :
    Except (DbError ε) RunResult :=
  match d.db with
  | none => .error .notConnected
  | some query =>
    match query (runStatement sql) params with
    | .ok result => .ok { id := insertedId sql result, changes := result.rowCount }
    | .error e => .error (.engine e)

/-- The method `Database.get`, networked branch: `result.rows[0]`, `none` for no row. -/
def PgDatabase.get {π ε : Type} (d : PgDatabase π ε) (sql : List Char) (params : List π) :
    Except (DbError ε) (Option PgRow) :=
  match d.db with
  | none => .error .notConnected
  | some query =>
    match query (getStatement sql) params with
    | .ok result => .ok result.rows.head?
    | .error e => .error (.engine e)

/-- The method `Database.all`, networked branch: `result.rows`. -/
def PgDatabase.all {π ε : Type} (d : PgDatabase π ε) (sql : List Char) (params : List π) :
    Except (DbError ε) (List PgRow) :=
  match d.db with
  | none => .error .notConnected
  | some query =>
    match query (allStatement sql) params with
    | .ok result => .ok result.rows
    | .error e => .error (.engine e)

/-- A pool in front of a table whose next generated key is 7: a statement carrying a
RETURNING clause answers the generated row, any other statement answers no row; one row is
affected either way. -/
def insertingPool (text : List Char) (_params : List String) : Except Unit PgResult :=
  if containsReturning text then .ok { rows := [[("id", .int 7)]], rowCount := 1 }
  else .ok { rows := [], rowCount := 1 }

/-- Text of a statement outside its single-quoted literals; the flag tells whether the scan
is inside a literal. -/
def outsideLiterals : Bool → List Char → List Char
  | _, [] => []
  | inLiteral, c :: cs =>
    if c.toNat = 39 then outsideLiterals (!inLiteral) cs
    else if inLiteral then outsideLiterals inLiteral cs
    else c :: outsideLiterals inLiteral cs

/-- Spec reading of "the statement has a RETURNING clause": the word RETURNING followed by
white space stands in the statement outside every quoted literal. -/
def hasReturningClause (sql : List Char) : Bool :=
  containsReturning (outsideLiterals false sql)

/-! ## Ranked tables and the reorder protocol (`classRoutes.js`, `unitRoutes.js`) -/

/-- A row of a table with a rank column: primary key, `display_order`, `created_at`, and the
remaining columns. -/
structure Row (α : Type) where
  id : Nat
  display_order : Nat
  created_at : Nat
  cols : α
deriving DecidableEq, Repr

/-- Remaining columns of `classes`. -/
structure ClassCols where
  name : List Char
deriving DecidableEq, Repr

/-- Remaining columns of `units`. -/
structure UnitCols where
  class_id : Nat
  title : List Char
  category : List Char
  term : List Char
deriving DecidableEq, Repr

abbrev ClassRow := Row ClassCols

abbrev UnitRow := Row UnitCols

/-- Body of a JSON response. -/
inductive Body (ρ : Type) where
  | error (message : String) (code : Option String)
  | success (message : String)
  | row (r : Option ρ)
  | rows (rs : List ρ)
deriving DecidableEq, Repr

/-- A response: status code and body. -/
structure Response (ρ : Type) where
  status : Nat
  body : Body ρ
deriving DecidableEq, Repr

/-- The statement `UPDATE t SET display_order = ? WHERE id = ?` with `[index, id]`. -/
def setDisplayOrder {α : Type} (index id : Nat) (rows : List (Row α)) : List (Row α) :=
  rows.map fun r => if r.id = id then { r with display_order := index } else r

/-- A list of such updates, each given as `(index, id)`, taking effect one after the other in
the order of the list. -/
def applyUpdates {α : Type} (updates : List (Nat × Nat)) (rows : List (Row α)) :
    List (Row α) :=
  updates.foldl (fun acc u => setDisplayOrder u.1 u.2 acc) rows

/-- The updates issued by `order.map((id, index) => db.run(..., [index, id]))`, taking effect
in the order of issue, when none fails.  The updates are issued together and awaited with
`Promise.all`, so the engine may apply them in another order (`IsReorderOutcome`); for
distinct ids every order gives this table. -/
def reorderRows {α : Type} (order : List Nat) (rows : List (Row α)) : List (Row α) :=
  applyUpdates order.enum rows

/-- The reorder handler over a table.  `order` is `req.body.order`, `none` when it is missing
or not an array; `fails i` tells whether the engine rejects the update issued at position
`i`.  Every update is issued before `Promise.all` waits, so each one the engine accepts is
written; one rejection makes `Promise.all` reject and the handler answers 500.  The accepted
updates take effect here in the order of issue, one of the orders the engine may choose; for
distinct ids the table does not depend on the order. -/
def reorderHandler {α : Type} (okMessage : String) (fails : Nat → Bool)
    (order : Option (List Nat)) (rows : List (Row α)) : Response (Row α) × List (Row α) :=
  match order with
  | none => (⟨400, .error "Invalid order data" none⟩, rows)
  | some order =>
    let written := applyUpdates (order.enum.filter fun u => !fails u.1) rows
    if order.enum.any (fun u => fails u.1) then (⟨500, .error "Server error" none⟩, written)
    else (⟨200, .success okMessage⟩, written)

/-- The handler of `POST /api/classes/reorder`. -/
def reorderClasses (fails : Nat → Bool) (order : Option (List Nat)) (classes : List ClassRow) :
    Response ClassRow × List ClassRow :=
  reorderHandler "Classes reordered successfully" fails order classes

/-- The handler of `POST /api/units/reorder`. -/
def reorderUnits (fails : Nat → Bool) (order : Option (List Nat)) (units : List UnitRow) :
    Response UnitRow × List UnitRow :=
  reorderHandler "Units reordered successfully" fails order units

/-- A table that a reorder call may leave when the engine rejects no update: the updates
`UPDATE t SET display_order = index WHERE id = id` of the call are issued together, and the
engine applies them in an order of its choice. -/
def IsReorderOutcome {α : Type} (order : List Nat) (rows after : List (Row α)) : Prop :=
  ∃ schedule : List (Nat × Nat), schedule.Perm order.enum ∧ after = applyUpdates schedule rows

/-- An engine that rejects no update. -/
def noFailure : Nat → Bool := fun _ => false

/-- Two classes, both with the default rank 0. -/
def demoClasses : List ClassRow :=
  [⟨1, 0, 10, ⟨"أ".toList⟩⟩, ⟨2, 0, 20, ⟨"ب".toList⟩⟩]

/-- Three units: units 1 and 2 in class 1, unit 3 in class 2. -/
def demoUnits : List UnitRow :=
  [⟨1, 0, 10, ⟨1, "أ".toList, "P".toList, "1".toList⟩⟩,
   ⟨2, 0, 20, ⟨1, "ب".toList, "P".toList, "1".toList⟩⟩,
   ⟨3, 0, 30, ⟨2, "أ".toList, "Z".toList, "2".toList⟩⟩]

/-- Value of `display_order` of the row `id` after the updates, when it was `d` before. -/
def rankAfter (updates : List (Nat × Nat)) (id d : Nat) : Nat :=
  updates.foldl (fun acc u => if id = u.2 then u.1 else acc) d

/-- Sort order of `ORDER BY display_order ASC, created_at DESC`. -/
def classBefore (a b : ClassRow) : Prop :=
  a.display_order < b.display_order ∨
    (a.display_order = b.display_order ∧ b.created_at ≤ a.created_at)

/-- Sort order of `ORDER BY display_order ASC, created_at ASC`. -/
def unitBefore (a b : UnitRow) : Prop :=
  a.display_order < b.display_order ∨
    (a.display_order = b.display_order ∧ a.created_at ≤ b.created_at)

instance : DecidableRel classBefore := fun a b => by
  unfold classBefore
  infer_instance

instance : DecidableRel unitBefore := fun a b => by
  unfold unitBefore
  infer_instance

instance : IsTotal ClassRow classBefore := ⟨by
  intro a b
  unfold classBefore
  omega⟩

instance : IsTrans ClassRow classBefore := ⟨by
  intro a b c
  unfold classBefore
  omega⟩

instance : IsTotal UnitRow unitBefore := ⟨by
  intro a b
  unfold unitBefore
  omega⟩

instance : IsTrans UnitRow unitBefore := ⟨by
  intro a b c
  unfold unitBefore
  omega⟩

/-- A possible answer of the engine to `SELECT * FROM classes ORDER BY display_order ASC,
created_at DESC`: the rows of the table, in an order that respects the sort keys (the order
of rows equal on both keys is the engine's choice). -/
def IsClassList (classes result : List ClassRow) : Prop :=
  result.Perm classes ∧ result.Pairwise classBefore

/-- A possible answer of the engine to `SELECT * FROM units WHERE class_id = ? ORDER BY
display_order ASC, created_at ASC`. -/
def IsUnitList (classId : Nat) (units result : List UnitRow) : Prop :=
  result.Perm (units.filter fun u => u.cols.class_id = classId) ∧ result.Pairwise unitBefore

/-- The handler of `GET /api/classes` over an engine that sorts by insertion. -/
def getClasses (classes : List ClassRow) : Response ClassRow :=
  ⟨200, .rows (classes.insertionSort classBefore)⟩

/-- The handler of `GET /api/units/class/:classId` for a well-formed class id, over an engine
that sorts by insertion. -/
def getUnitsOfClass (classId : Nat) (units : List UnitRow) : Response UnitRow :=
  ⟨200, .rows ((units.filter fun u => u.cols.class_id = classId).insertionSort unitBefore)⟩

/-! ## Request values and the unit handlers (`unitRoutes.js`, `validation.js`) -/

/-- A value of a parsed JSON body, or `undefined` for a field that is missing.  Numbers are
the integers; `obj` is a plain object, given by its JSON text. -/
inductive JsVal where
  | undefined
  | null
  | bool (b : Bool)
  | num (z : Int)
  | str (s : List Char)
  | obj (json : List Char)
deriving DecidableEq, Repr

/-- Truthiness, as `!v` and `v || d` see it. -/
def JsVal.truthy : JsVal → Bool
  | .undefined => false
  | .null => false
  | .bool b => b
  | .num z => decide (z ≠ 0)
  | .str s => decide (s ≠ [])
  | .obj _ => true

/-- The expression `v || d`. -/
def jsOr (v d : JsVal) : JsVal := if v.truthy then v else d

/-- The conversion `String(v)`. -/
def jsString : JsVal → List Char
  | .undefined => "undefined".toList
  | .null => "null".toList
  | .bool b => if b then "true".toList else "false".toList
  | .num z => (toString z).toList
  | .str s => s
  | .obj _ => "[object Object]".toList

/-- The comparison `v == '1'`. -/
def looseEqOne : JsVal → Bool
  | .str s => decide (s = ['1'])
  | .num z => decide (z = 1)
  | .bool b => b
  | _ => false

/-- What the handlers use from outside the repository. -/
structure Runtime where
  /-- The integer `Number(s)` of a string, `none` when `Number(s)` is not an integer. -/
  stringToInteger : List Char → Option Int
  /-- Text the driver and engine make of a bound value that is not a string, when it is
  stored in or compared with a TEXT column. -/
  textOfOther : JsVal → List Char

/-- Text of a bound parameter in a TEXT column: a string is bound as it is. -/
def Runtime.textOfParam (rt : Runtime) : JsVal → List Char
  | .str s => s
  | v => rt.textOfOther v

/-- The integer `Number(value)`, `none` when `Number(value)` is not an integer. -/
def Runtime.toInteger (rt : Runtime) : JsVal → Option Int
  | .undefined => none
  | .null => some 0
  | .bool b => some (if b then 1 else 0)
  | .num z => some z
  | .str s => rt.stringToInteger s
  | .obj _ => none

/-- The function `parsePositiveInteger` of `validation.js`; `none` is `{ valid: false }`. -/
def parsePositiveInteger (rt : Runtime) (value : JsVal) : Option Nat :=
  if value = .undefined ∨ value = .null ∨ value = .str [] then none
  else
    match rt.toInteger value with
    | none => none
    | some n => if n < 1 then none else some n.toNat

/-- The test `/^[؀-ۿ\s]+$/.test(s)`. -/
def arabicOnly (s : List Char) : Bool :=
  decide (s ≠ []) && s.all fun c => (decide (0x600 ≤ c.toNat) && decide (c.toNat ≤ 0x6FF)) || isJsSpace c

/-- The tables the unit handlers read and write. -/
structure Store where
  classes : List ClassRow
  units : List UnitRow
deriving DecidableEq, Repr

/-- Body of a create or update request for a unit. -/
structure UnitBody where
  title : JsVal
  class_id : JsVal
  category : JsVal
  term : JsVal
deriving DecidableEq, Repr

/-- The key generated for an inserted unit: one more than the largest key in the table. -/
def nextId (units : List UnitRow) : Nat := (units.map fun u => u.id).foldr max 0 + 1

/-- The name of the term in the duplicate message. -/
def termName (term : JsVal) : String :=
  if looseEqOne term then "الفصل الدراسي الأول" else "الفصل الدراسي الثاني"

/-- The 409 answer of the unit handlers. -/
def duplicateUnitTitle (term : JsVal) : Response UnitRow :=
  ⟨409, .error ("هذا العنوان موجود بالفعل في " ++ termName term ++ " لهذا الصف.")
    (some "DUPLICATE_UNIT_TITLE")⟩

/-- The answer of the `catch` block of the unit create and update handlers. -/
def serverError : Response UnitRow := ⟨500, .error "حدث خطأ في الخادم" none⟩

/-- The column `category` written by the handlers: `category === 'Z' ? 'Z' : 'P'`. -/
def validCategory (category : JsVal) : List Char :=
  if category = .str ['Z'] then ['Z'] else ['P']

/-- The handler of `POST /api/units` behind the authentication middleware, at time `now`. -/
def createUnit (rt : Runtime) (now : Nat) (body : UnitBody) (s : Store) :
    Response UnitRow × Store :=
  match parsePositiveInteger rt body.class_id with
  | none => (⟨400, .error "الصف الدراسي مطلوب" (some "CLASS_ID_REQUIRED")⟩, s)
  | some class_idNum =>
    if !body.title.truthy then
      (⟨400, .error "عنوان الوحدة مطلوب" (some "TITLE_REQUIRED")⟩, s)
    else
      match body.title with
      | .str title =>
        if jsTrim title = [] then
          (⟨400, .error "عنوان الوحدة مطلوب" (some "TITLE_REQUIRED")⟩, s)
        else if !arabicOnly (jsTrim title) then
          (⟨400, .error "عنوان الوحدة يجب أن يحتوي على أحرف عربية فقط"
            (some "INVALID_CHARACTERS")⟩, s)
        else if !s.classes.any (fun cl => cl.id = class_idNum) then
          (⟨404, .error "الصف الدراسي غير موجود" (some "CLASS_NOT_FOUND")⟩, s)
        else if s.units.any (fun u => u.cols.class_id = class_idNum ∧
            u.cols.title = jsTrim title ∧
            u.cols.term = rt.textOfParam (.str (jsString (jsOr body.term (.str ['1']))))) then
          (duplicateUnitTitle (jsOr body.term (.str ['1'])), s)
        else
          let newUnit : UnitRow :=
            { id := nextId s.units, display_order := 0, created_at := now,
              cols := { class_id := class_idNum, title := jsTrim title,
                        category := validCategory body.category,
                        term := rt.textOfParam (jsOr body.term (.str ['1'])) } }
          let units := s.units ++ [newUnit]
          (⟨201, .row (units.find? fun u => u.id = newUnit.id)⟩, { s with units := units })
      | _ => (serverError, s)

/-- The handler of `PUT /api/units/:id` behind the authentication middleware; `idParam` is
`req.params.id`. -/
def updateUnit (rt : Runtime) (idParam : JsVal) (body : UnitBody) (s : Store) :
    Response UnitRow × Store :=
  match parsePositiveInteger rt idParam with
  | none => (⟨400, .error "Invalid unit id" none⟩, s)
  | some id =>
    match parsePositiveInteger rt body.class_id with
    | none => (⟨400, .error "الصف الدراسي مطلوب" (some "CLASS_ID_REQUIRED")⟩, s)
    | some class_idNum =>
      if !body.title.truthy then
        (⟨400, .error "عنوان الوحدة مطلوب" (some "TITLE_REQUIRED")⟩, s)
      else
        match body.title with
        | .str title =>
          if jsTrim title = [] then
            (⟨400, .error "عنوان الوحدة مطلوب" (some "TITLE_REQUIRED")⟩, s)
          else if !arabicOnly (jsTrim title) then
            (⟨400, .error "عنوان الوحدة يجب أن يحتوي على أحرف عربية فقط"
              (some "INVALID_CHARACTERS")⟩, s)
          else if !s.classes.any (fun cl => cl.id = class_idNum) then
            (⟨404, .error "الصف الدراسي غير موجود" (some "CLASS_NOT_FOUND")⟩, s)
          else if s.units.any (fun u => u.cols.class_id = class_idNum ∧
              u.cols.title = jsTrim title ∧
              u.cols.term = rt.textOfParam (jsOr body.term (.str ['1'])) ∧ u.id ≠ id) then
            (duplicateUnitTitle (jsOr body.term (.str ['1'])), s)
          else
            let units := s.units.map fun u =>
              if u.id = id then
                { u with cols := { class_id := class_idNum, title := jsTrim title,
                                   category := validCategory body.category,
                                   term := rt.textOfParam (jsOr body.term (.str ['1'])) } }
              else u
            if (s.units.filter fun u => u.id = id).length = 0 then
              (⟨404, .error "الوحدة غير موجودة" none⟩, { s with units := units })
            else
              (⟨200, .row (units.find? fun u => u.id = id)⟩, { s with units := units })
        | _ => (serverError, s)

/-- The triple `(class_id, title, term)` of a unit. -/
def unitKey (u : UnitRow) : Nat × List Char × List Char :=
  (u.cols.class_id, u.cols.title, u.cols.term)

/-- No two units share the triple `(class_id, title, term)`. -/
def UniqueTriples (units : List UnitRow) : Prop := (units.map unitKey).Nodup

instance (units : List UnitRow) : Decidable (UniqueTriples units) := by
  unfold UniqueTriples
  infer_instance

/-- A request to the unit handlers. -/
inductive UnitRequest where
  | create (now : Nat) (body : UnitBody)
  | update (idParam : JsVal) (body : UnitBody)
deriving DecidableEq, Repr

/-- One request, processed alone. -/
def handleUnitRequest (rt : Runtime) (s : Store) : UnitRequest → Store
  | .create now body => (createUnit rt now body s).2
  | .update idParam body => (updateUnit rt idParam body s).2

/-- A sequence of requests, processed one at a time. -/
def handleUnitRequests (rt : Runtime) (s : Store) (requests : List UnitRequest) : Store :=
  requests.foldl (handleUnitRequest rt) s

/-- Decimal reading of a string of ASCII digits, `none` for any other string: the part of
`Number(s)` that the requests of the examples below need. -/
def digitsToInteger (s : List Char) : Option Int :=
  if s ≠ [] ∧ s.all (fun c => decide (48 ≤ c.toNat) && decide (c.toNat ≤ 57)) = true then
    some (s.foldl (fun acc c => acc * 10 + (c.toNat - 48 : Nat)) (0 : Nat) : Nat)
  else none

/-- A runtime over the embedded engine: its driver binds `true` and `false` as the integers
1 and 0, which a TEXT column holds as `1` and `0`; other values are bound by their `String`
form. -/
def embeddedRuntime : Runtime where
  stringToInteger := digitsToInteger
  textOfOther := fun v =>
    match v with
    | .bool b => if b then ['1'] else ['0']
    | v => jsString v

/-- A runtime over the networked engine: its driver sends a plain object as its JSON text
and every other value by its `String` form. -/
def networkedRuntime : Runtime where
  stringToInteger := digitsToInteger
  textOfOther := fun v =>
    match v with
    | .obj json => json
    | v => jsString v

/-- One class with id 1 and no unit. -/
def oneClassStore : Store := { classes := [⟨1, 0, 10, ⟨"أ".toList⟩⟩], units := [] }

/-- A create request for class 1 with the title `أ` and the given `term`. -/
def unitBodyWithTerm (term : JsVal) : UnitBody :=
  { title := .str "أ".toList, class_id := .num 1, category := .undefined, term := term }

/-- The primary key of `units` is unique and no two units share the triple. -/
def StoreOk (s : Store) : Prop :=
  (s.units.map fun u => u.id).Nodup ∧ UniqueTriples s.units

/-- The term a create request asks for is bound as the text that the duplicate check looked
for (true of every string and of a missing term). -/
def TermBoundAsString (rt : Runtime) : UnitRequest → Prop
  | .create _ body =>
    rt.textOfParam (jsOr body.term (.str ['1'])) = jsString (jsOr body.term (.str ['1']))
  | .update _ _ => True

/-! ## Class handlers (`classRoutes.js`) -/

/-- The key generated for an inserted row, a key that is not in the table: here one more
than the largest key in it. -/
def freshId (ids : List Nat) : Nat := ids.foldr max 0 + 1

/-- The answer of the `catch` block of the class create and update handlers. -/
def classServerError : Response ClassRow := ⟨500, .error "حدث خطأ في الخادم" none⟩

/-- The handler of `POST /api/classes` behind the authentication middleware, at time `now`;
`name` is `req.body.name`. -/
def createClass (now : Nat) (name : JsVal) (classes : List ClassRow) :
    Response ClassRow × List ClassRow :=
  if !name.truthy then
    (⟨400, .error "اسم الصف مطلوب" (some "NAME_REQUIRED")⟩, classes)
  else
    match name with
    | .str text =>
      if jsTrim text = [] then
        (⟨400, .error "اسم الصف مطلوب" (some "NAME_REQUIRED")⟩, classes)
      else if !arabicOnly (jsTrim text) then
        (⟨400, .error "اسم الصف يجب أن يحتوي على أحرف عربية فقط"
          (some "INVALID_CHARACTERS")⟩, classes)
      else if classes.any (fun cl => cl.cols.name = jsTrim text) then
        (⟨409, .error "هذا الاسم موجود بالفعل. يرجى اختيار اسم آخر"
          (some "DUPLICATE_CLASS_NAME")⟩, classes)
      else
        let newClass : ClassRow :=
          { id := freshId (classes.map fun cl => cl.id), display_order := 0,
            created_at := now, cols := { name := jsTrim text } }
        let table := classes ++ [newClass]
        (⟨201, .row (table.find? fun cl => cl.id = newClass.id)⟩, table)
    | _ => (classServerError, classes)

/-- The handler of `PUT /api/classes/:id` behind the authentication middleware; `idParam` is
`req.params.id` and `name` is `req.body.name`. -/
def updateClass (rt : Runtime) (idParam name : JsVal) (classes : List ClassRow) :
    Response ClassRow × List ClassRow :=
  match parsePositiveInteger rt idParam with
  | none => (⟨400, .error "Invalid class id" none⟩, classes)
  | some id =>
    if !name.truthy then
      (⟨400, .error "اسم الصف مطلوب" (some "NAME_REQUIRED")⟩, classes)
    else
      match name with
      | .str text =>
        if jsTrim text = [] then
          (⟨400, .error "اسم الصف مطلوب" (some "NAME_REQUIRED")⟩, classes)
        else if !arabicOnly (jsTrim text) then
          (⟨400, .error "اسم الصف يجب أن يحتوي على أحرف عربية فقط"
            (some "INVALID_CHARACTERS")⟩, classes)
        else if classes.any (fun cl => cl.cols.name = jsTrim text ∧ cl.id ≠ id) then
          (⟨409, .error "هذا الاسم موجود بالفعل. يرجى اختيار اسم آخر"
            (some "DUPLICATE_CLASS_NAME")⟩, classes)
        else
          let table := classes.map fun cl =>
            if cl.id = id then { cl with cols := { name := jsTrim text } } else cl
          if (classes.filter fun cl => cl.id = id).length = 0 then
            (⟨404, .error "الصف غير موجود" none⟩, table)
          else
            (⟨200, .row (table.find? fun cl => cl.id = id)⟩, table)
      | _ => (classServerError, classes)

/-! ## Lessons, media and questions (`lessonRoutes.js`) -/

/-- A row of `lessons`; the legacy columns `video_url`, `video_position`, `video_size` and
`video_explanation` are never written by a handler and are left out. -/
structure LessonRow where
  id : Nat
  unit_id : Nat
  title : List Char
  content : List Char
  created_at : Nat
deriving DecidableEq, Repr

/-- A row of `videos`. -/
structure VideoRow where
  id : Nat
  lesson_id : Nat
  video_url : List Char
  position : List Char
  size : List Char
  explanation : Option (List Char)
  display_order : Nat
  created_at : Nat
deriving DecidableEq, Repr

/-- A row of `images`. -/
structure ImageRow where
  id : Nat
  lesson_id : Nat
  image_path : List Char
  position : List Char
  size : List Char
  caption : Option (List Char)
  display_order : Nat
  created_at : Nat
deriving DecidableEq, Repr

/-- A row of `questions`. -/
structure QuestionRow where
  id : Nat
  lesson_id : Nat
  question_text : List Char
  option_a : List Char
  option_b : List Char
  option_c : List Char
  option_d : List Char
  correct_answer : List Char
  display_order : Nat
  created_at : Nat
deriving DecidableEq, Repr

/-- The six content tables. -/
structure School where
  classes : List ClassRow
  units : List UnitRow
  lessons : List LessonRow
  videos : List VideoRow
  images : List ImageRow
  questions : List QuestionRow
deriving DecidableEq, Repr

/-- An element of `req.body.videos`, an object; a missing field is `undefined`. -/
structure VideoEntry where
  video_url : JsVal
  video_position : JsVal
  video_size : JsVal
  video_explanation : JsVal
deriving DecidableEq, Repr

/-- An element of `req.body.images`, an object; a missing field is `undefined`. -/
structure ImageEntry where
  image_path : JsVal
  image_position : JsVal
  image_size : JsVal
  image_caption : JsVal
deriving DecidableEq, Repr

/-- Body of a create or update request for a lesson; `videos` and `images` are `none` when
the field is missing or not an array. -/
structure LessonBody where
  title : JsVal
  unit_id : JsVal
  content : JsVal
  videos : Option (List VideoEntry)
  images : Option (List ImageEntry)
deriving DecidableEq, Repr

/-- The value `v || null` bound to a nullable TEXT column. -/
def textOrNull (rt : Runtime) (v : JsVal) : Option (List Char) :=
  if v.truthy then some (rt.textOfParam v) else none

/-- The row inserted for the entry at position `i` of `videos`. -/
def videoRowOf (rt : Runtime) (now lessonId id i : Nat) (v : VideoEntry) : VideoRow :=
  { id := id, lesson_id := lessonId, video_url := rt.textOfParam v.video_url,
    position := rt.textOfParam (jsOr v.video_position (.str "bottom".toList)),
    size := rt.textOfParam (jsOr v.video_size (.str "large".toList)),
    explanation := textOrNull rt v.video_explanation, display_order := i, created_at := now }

/-- The row inserted for the entry at position `i` of `images`. -/
def imageRowOf (rt : Runtime) (now lessonId id i : Nat) (img : ImageEntry) : ImageRow :=
  { id := id, lesson_id := lessonId, image_path := rt.textOfParam img.image_path,
    position := rt.textOfParam (jsOr img.image_position (.str "bottom".toList)),
    size := rt.textOfParam (jsOr img.image_size (.str "medium".toList)),
    caption := textOrNull rt img.image_caption, display_order := i, created_at := now }

/-- One turn of the loop over `videos`, at the pair of position and entry: an insert when
`video_url` is truthy. -/
def insertVideoStep (rt : Runtime) (now lessonId : Nat) (table : List VideoRow)
    (p : Nat × VideoEntry) : List VideoRow :=
  if p.2.video_url.truthy then
    table ++ [videoRowOf rt now lessonId (freshId (table.map fun r => r.id)) p.1 p.2]
  else table

/-- The loop `for (let i = 0; i < videos.length; i++)`. -/
def insertVideos (rt : Runtime) (now lessonId : Nat) (entries : List VideoEntry)
    (videos : List VideoRow) : List VideoRow :=
  entries.enum.foldl (insertVideoStep rt now lessonId) videos

/-- One turn of the loop over `images`, at the pair of position and entry: an insert when
`image_path` is truthy. -/
def insertImageStep (rt : Runtime) (now lessonId : Nat) (table : List ImageRow)
    (p : Nat × ImageEntry) : List ImageRow :=
  if p.2.image_path.truthy then
    table ++ [imageRowOf rt now lessonId (freshId (table.map fun r => r.id)) p.1 p.2]
  else table

/-- The loop `for (let i = 0; i < images.length; i++)`. -/
def insertImages (rt : Runtime) (now lessonId : Nat) (entries : List ImageEntry)
    (images : List ImageRow) : List ImageRow :=
  entries.enum.foldl (insertImageStep rt now lessonId) images

/-- Columns of `SELECT id, lesson_id, video_url, position, size, explanation FROM videos`. -/
structure VideoView where
  id : Nat
  lesson_id : Nat
  video_url : List Char
  position : List Char
  size : List Char
  explanation : Option (List Char)
deriving DecidableEq, Repr

/-- Columns of `SELECT id, lesson_id, image_path, position, size, caption FROM images`. -/
structure ImageView where
  id : Nat
  lesson_id : Nat
  image_path : List Char
  position : List Char
  size : List Char
  caption : Option (List Char)
deriving DecidableEq, Repr

/-- The object `{ ...lesson, videos, images }` of the lesson responses. -/
structure LessonView where
  lesson : Option LessonRow
  videos : List VideoView
  images : List ImageView
deriving DecidableEq, Repr

/-- The videos of a lesson, `ORDER BY display_order ASC`. -/
def videosOf (lessonId : Nat) (videos : List VideoRow) : List VideoRow :=
  (videos.filter fun r => r.lesson_id = lessonId).insertionSort
    fun a b => a.display_order ≤ b.display_order

/-- The images of a lesson, `ORDER BY display_order ASC`. -/
def imagesOf (lessonId : Nat) (images : List ImageRow) : List ImageRow :=
  (images.filter fun r => r.lesson_id = lessonId).insertionSort
    fun a b => a.display_order ≤ b.display_order

/-- The three queries that end the lesson create and update handlers. -/
def lessonView (lessonId : Nat) (s : School) : LessonView :=
  { lesson := s.lessons.find? fun l => l.id = lessonId,
    videos := (videosOf lessonId s.videos).map fun r =>
      ⟨r.id, r.lesson_id, r.video_url, r.position, r.size, r.explanation⟩,
    images := (imagesOf lessonId s.images).map fun r =>
      ⟨r.id, r.lesson_id, r.image_path, r.position, r.size, r.caption⟩ }

/-- The handler of `POST /api/lessons` behind the authentication middleware, at time `now`. -/
def createLesson (rt : Runtime) (now : Nat) (body : LessonBody) (s : School) :
    Response LessonView × School :=
  if !body.title.truthy then
    (⟨400, .error "عنوان الدرس مطلوب" (some "TITLE_REQUIRED")⟩, s)
  else
    match body.title with
    | .str title =>
      if jsTrim title = [] then
        (⟨400, .error "عنوان الدرس مطلوب" (some "TITLE_REQUIRED")⟩, s)
      else
        match parsePositiveInteger rt body.unit_id with
        | none => (⟨400, .error "الوحدة الدراسية مطلوبة" (some "UNIT_ID_REQUIRED")⟩, s)
        | some unit_idNum =>
          if !arabicOnly (jsTrim title) then
            (⟨400, .error "عنوان الدرس يجب أن يحتوي على أحرف عربية فقط"
              (some "INVALID_CHARACTERS")⟩, s)
          else if !s.units.any (fun u => u.id = unit_idNum) then
            (⟨404, .error "الوحدة الدراسية غير موجودة" (some "UNIT_NOT_FOUND")⟩, s)
          else if s.lessons.any (fun l => l.unit_id = unit_idNum ∧ l.title = jsTrim title) then
            (⟨409, .error "هذا العنوان موجود بالفعل في هذه الوحدة. يرجى اختيار عنوان آخر"
              (some "DUPLICATE_LESSON_TITLE")⟩, s)
          else
            let id := freshId (s.lessons.map fun l => l.id)
            let newLesson : LessonRow :=
              { id := id, unit_id := unit_idNum, title := jsTrim title,
                content := rt.textOfParam (jsOr body.content (.str [])), created_at := now }
            let lessons := s.lessons ++ [newLesson]
            let videos :=
              match body.videos with
              | some entries => insertVideos rt now id entries s.videos
              | none => s.videos
            let images :=
              match body.images with
              | some entries => insertImages rt now id entries s.images
              | none => s.images
            let s2 : School := { s with lessons := lessons, videos := videos, images := images }
            (⟨201, .row (some (lessonView id s2))⟩, s2)
    | _ => (⟨500, .error "Server error" none⟩, s)

/-- The videos step of the lesson update: for a non-empty array, `DELETE FROM videos WHERE
lesson_id = ?` and then the inserts; otherwise nothing. -/
def replaceVideos (rt : Runtime) (now lessonId : Nat) (videos : Option (List VideoEntry))
    (table : List VideoRow) : List VideoRow :=
  match videos with
  | some entries =>
    if entries.length > 0 then
      insertVideos rt now lessonId entries (table.filter fun r => r.lesson_id ≠ lessonId)
    else table
  | none => table

/-- The images step of the lesson update: for a non-empty array, `DELETE FROM images WHERE
lesson_id = ?` and then the inserts; otherwise nothing. -/
def replaceImages (rt : Runtime) (now lessonId : Nat) (images : Option (List ImageEntry))
    (table : List ImageRow) : List ImageRow :=
  match images with
  | some entries =>
    if entries.length > 0 then
      insertImages rt now lessonId entries (table.filter fun r => r.lesson_id ≠ lessonId)
    else table
  | none => table

/-- The handler of `PUT /api/lessons/:id` behind the authentication middleware, at time
`now`, over an engine that rejects no statement; `idParam` is `req.params.id`. -/
def updateLesson (rt : Runtime) (now : Nat) (idParam : JsVal) (body : LessonBody)
    (s : School) : Response LessonView × School :=
  match parsePositiveInteger rt idParam with
  | none => (⟨400, .error "Invalid lesson id" none⟩, s)
  | some id =>
    match parsePositiveInteger rt body.unit_id with
    | none => (⟨400, .error "الوحدة الدراسية مطلوبة" (some "UNIT_ID_REQUIRED")⟩, s)
    | some unit_idNum =>
      if !body.title.truthy then
        (⟨400, .error "اسم الدرس مطلوب" (some "TITLE_REQUIRED")⟩, s)
      else
        match body.title with
        | .str title =>
          if jsTrim title = [] then
            (⟨400, .error "اسم الدرس مطلوب" (some "TITLE_REQUIRED")⟩, s)
          else if !arabicOnly (jsTrim title) then
            (⟨400, .error "يجب أن يحتوي على أحرف عربية فقط" (some "INVALID_CHARACTERS")⟩, s)
          else if !s.units.any (fun u => u.id = unit_idNum) then
            (⟨404, .error "الوحدة الدراسية غير موجودة" (some "UNIT_NOT_FOUND")⟩, s)
          else if s.lessons.any (fun l => l.unit_id = unit_idNum ∧ l.title = jsTrim title ∧
              l.id ≠ id) then
            (⟨409, .error "هذا الاسم موجود بالفعل" (some "DUPLICATE_LESSON_TITLE")⟩, s)
          else
            let lessons := s.lessons.map fun l =>
              if l.id = id then
                { l with title := jsTrim title, unit_id := unit_idNum,
                         content := rt.textOfParam (jsOr body.content (.str [])) }
              else l
            if (s.lessons.filter fun l => l.id = id).length = 0 then
              (⟨404, .error "الدرس غير موجود" none⟩, { s with lessons := lessons })
            else
              let s2 : School :=
                { s with lessons := lessons,
                         videos := replaceVideos rt now id body.videos s.videos,
                         images := replaceImages rt now id body.images s.images }
              (⟨200, .row (some (lessonView id s2))⟩, s2)
        | _ => (⟨500, .error "حدث خطأ في تحديث الدرس" none⟩, s)

/-- Body of a create or update request for a question. -/
structure QuestionBody where
  question_text : JsVal
  option_a : JsVal
  option_b : JsVal
  option_c : JsVal
  option_d : JsVal
  correct_answer : JsVal
deriving DecidableEq, Repr

/-- The questions of a lesson, `ORDER BY display_order ASC`. -/
def questionsOf (lessonId : Nat) (questions : List QuestionRow) : List QuestionRow :=
  (questions.filter fun q => q.lesson_id = lessonId).insertionSort
    fun a b => a.display_order ≤ b.display_order

/-- The object made of a row by `SELECT id, lesson_id, question_text, option_a, option_b,
option_c, option_d, display_order FROM questions`. -/
def publicQuestion (q : QuestionRow) : PgRow :=
  [("id", .int q.id), ("lesson_id", .int q.lesson_id),
   ("question_text", .text (String.mk q.question_text)),
   ("option_a", .text (String.mk q.option_a)), ("option_b", .text (String.mk q.option_b)),
   ("option_c", .text (String.mk q.option_c)), ("option_d", .text (String.mk q.option_d)),
   ("display_order", .int q.display_order)]

/-- The object made of a row by `SELECT * FROM questions`. -/
def adminQuestion (q : QuestionRow) : PgRow :=
  [("id", .int q.id), ("lesson_id", .int q.lesson_id),
   ("question_text", .text (String.mk q.question_text)),
   ("option_a", .text (String.mk q.option_a)), ("option_b", .text (String.mk q.option_b)),
   ("option_c", .text (String.mk q.option_c)), ("option_d", .text (String.mk q.option_d)),
   ("correct_answer", .text (String.mk q.correct_answer)),
   ("display_order", .int q.display_order), ("created_at", .int q.created_at)]

/-- The handler of `GET /api/lessons/:lessonId/questions`. -/
def getQuestions (rt : Runtime) (lessonIdParam : JsVal) (s : School) : Response PgRow :=
  match parsePositiveInteger rt lessonIdParam with
  | none => ⟨400, .error "Invalid lesson id" none⟩
  | some lessonId => ⟨200, .rows ((questionsOf lessonId s.questions).map publicQuestion)⟩

/-- The handler of `GET /api/lessons/:lessonId/questions/admin` behind the authentication
middleware. -/
def getQuestionsAdmin (rt : Runtime) (lessonIdParam : JsVal) (s : School) : Response PgRow :=
  match parsePositiveInteger rt lessonIdParam with
  | none => ⟨400, .error "Invalid lesson id" none⟩
  | some lessonId => ⟨200, .rows ((questionsOf lessonId s.questions).map adminQuestion)⟩

/-- The handler of `POST /api/lessons/:lessonId/questions` behind the authentication
middleware, at time `now`; `upperCase` is `String.prototype.toUpperCase`. -/
def createQuestion (rt : Runtime) (upperCase : List Char → List Char) (now : Nat)
    (lessonIdParam : JsVal) (body : QuestionBody) (s : School) :
    Response QuestionRow × School :=
  match parsePositiveInteger rt lessonIdParam with
  | none => (⟨400, .error "Invalid lesson id" none⟩, s)
  | some lessonId =>
    if !body.question_text.truthy || !body.option_a.truthy || !body.option_b.truthy ||
        !body.option_c.truthy || !body.option_d.truthy || !body.correct_answer.truthy then
      (⟨400, .error "جميع الحقول مطلوبة" none⟩, s)
    else
      match body.correct_answer with
      | .str answer =>
        if !(["A".toList, "B".toList, "C".toList, "D".toList].contains (upperCase answer)) then
          (⟨400, .error "الإجابة الصحيحة يجب أن تكون A أو B أو C أو D" none⟩, s)
        else
          let displayOrder :=
            ((s.questions.filter fun q => q.lesson_id = lessonId).map
              fun q => q.display_order).foldr max 0 + 1
          let newQuestion : QuestionRow :=
            { id := freshId (s.questions.map fun q => q.id), lesson_id := lessonId,
              question_text := rt.textOfParam body.question_text,
              option_a := rt.textOfParam body.option_a,
              option_b := rt.textOfParam body.option_b,
              option_c := rt.textOfParam body.option_c,
              option_d := rt.textOfParam body.option_d,
              correct_answer := upperCase answer,
              display_order := displayOrder, created_at := now }
          let questions := s.questions ++ [newQuestion]
          (⟨201, .row (questions.find? fun q => q.id = newQuestion.id)⟩,
            { s with questions := questions })
      | _ => (⟨500, .error "Server error" none⟩, s)

/-- The object `{ correct, correctAnswer }` of the answer check. -/
structure CheckResult where
  correct : Bool
  correctAnswer : List Char
deriving DecidableEq, Repr

/-- The handler of `POST /api/lessons/:lessonId/questions/:questionId/check`; `upperCase` is
`String.prototype.toUpperCase`. -/
def checkAnswer (rt : Runtime) (upperCase : List Char → List Char)
    (lessonIdParam questionIdParam answer : JsVal) (s : School) : Response CheckResult :=
  match parsePositiveInteger rt lessonIdParam, parsePositiveInteger rt questionIdParam with
  | some _, some questionId =>
    if answer = .undefined ∨ answer = .null ∨ jsTrim (jsString answer) = [] then
      ⟨400, .error "الإجابة مطلوبة" none⟩
    else
      match s.questions.find? fun q => q.id = questionId with
      | none => ⟨404, .error "السؤال غير موجود" none⟩
      | some question =>
        ⟨200, .row (some
          { correct := decide (upperCase (jsTrim (jsString answer))
              = upperCase question.correct_answer),
            correctAnswer := question.correct_answer })⟩
  | _, _ => ⟨400, .error "Invalid lesson or question id" none⟩

/-- Upper-casing of the ASCII letters of a string. -/
def asciiUpperCase (s : List Char) : List Char :=
  s.map fun c => if 97 ≤ c.toNat ∧ c.toNat ≤ 122 then Char.ofNat (c.toNat - 32) else c

/-! ## Deleting a class (`classRoutes.js`) under the declared schema -/

/-- The content tables. -/
inductive Table where
  | classes
  | units
  | lessons
  | videos
  | images
  | questions
deriving DecidableEq, Repr

/-- The `FOREIGN KEY ... ON DELETE CASCADE` clauses of the `CREATE TABLE` statements of
`initializeDatabase` and `ensureTablesExist`, as pairs (child table, parent table), for the
networked dialect (`isPostgres`) and for the embedded one. -/
def declaredCascades (isPostgres : Bool) : List (Table × Table) :=
  if isPostgres then
    [(.units, .classes), (.lessons, .units)]
  else
    [(.units, .classes), (.lessons, .units), (.videos, .lessons), (.images, .lessons),
     (.questions, .lessons)]

/-- The statement `DELETE FROM classes WHERE id = ?` on an engine that applies exactly the
given cascades: a child row goes when its parent row goes and the cascade is declared. -/
def deleteClassRows (cascades : List (Table × Table)) (id : Nat) (s : School) : School :=
  let goneClasses := (s.classes.filter fun c => c.id = id).map fun c => c.id
  let goneUnits :=
    if (Table.units, Table.classes) ∈ cascades then
      s.units.filter fun u => u.cols.class_id ∈ goneClasses
    else []
  let goneLessons :=
    if (Table.lessons, Table.units) ∈ cascades then
      s.lessons.filter fun l => l.unit_id ∈ goneUnits.map fun u => u.id
    else []
  let goneLessonIds := goneLessons.map fun l => l.id
  { classes := s.classes.filter fun c => c.id ≠ id,
    units := s.units.filter fun u => u ∉ goneUnits,
    lessons := s.lessons.filter fun l => l ∉ goneLessons,
    videos :=
      if (Table.videos, Table.lessons) ∈ cascades then
        s.videos.filter fun r => r.lesson_id ∉ goneLessonIds
      else s.videos,
    images :=
      if (Table.images, Table.lessons) ∈ cascades then
        s.images.filter fun r => r.lesson_id ∉ goneLessonIds
      else s.images,
    questions :=
      if (Table.questions, Table.lessons) ∈ cascades then
        s.questions.filter fun r => r.lesson_id ∉ goneLessonIds
      else s.questions }

/-- The handler of `DELETE /api/classes/:id` behind the authentication middleware, under the
schema declared for the dialect. -/
def deleteClass (rt : Runtime) (isPostgres : Bool) (idParam : JsVal) (s : School) :
    Response ClassRow × School :=
  match parsePositiveInteger rt idParam with
  | none => (⟨400, .error "Invalid class id" none⟩, s)
  | some id =>
    if (s.classes.filter fun c => c.id = id).length = 0 then
      (⟨404, .error "Class not found" none⟩, deleteClassRows (declaredCascades isPostgres) id s)
    else
      (⟨200, .success "Class deleted"⟩, deleteClassRows (declaredCascades isPostgres) id s)

/-- A class with one unit, one lesson, one video, one image and one question. -/
def oneSubtreeSchool : School :=
  { classes := [⟨1, 0, 10, ⟨"أ".toList⟩⟩],
    units := [⟨1, 0, 20, ⟨1, "ب".toList, "P".toList, "1".toList⟩⟩],
    lessons := [⟨1, 1, "ج".toList, [], 30⟩],
    videos := [⟨1, 1, "https://v".toList, "bottom".toList, "large".toList, none, 0, 40⟩],
    images := [⟨1, 1, "https://i".toList, "bottom".toList, "medium".toList, none, 0, 50⟩],
    questions := [⟨1, 1, "س".toList, "أ".toList, "ب".toList, "ج".toList, "د".toList,
      "A".toList, 1, 60⟩] }

/-! ## The authentication gate (`auth.js`, `authRoutes.js`) and the route table -/

/-- A response of the authentication code: status, the `error` text if any, and whether
`res.clearCookie('authToken', ...)` was called. -/
structure AuthReply where
  status : Nat
  error : Option String
  clearsCookie : Bool
deriving DecidableEq, Repr

/-- What `authenticateToken` does: it calls `next()` with `req.admin` set, or it answers. -/
inductive AuthOutcome (α : Type) where
  | next (admin : α)
  | reply (r : AuthReply)
deriving DecidableEq, Repr

/-- The middleware `authenticateToken`; `verify` is `jwt.verify(token, JWT_SECRET)`, `none`
when it throws, and `cookie` is `req.cookies.authToken`. -/
def authenticateToken {α : Type} (verify : List Char → Option α) (cookie : Option (List Char)) :
    AuthOutcome α :=
  match cookie with
  | none => .reply ⟨401, some "Authentication required", false⟩
  | some token =>
    if token = [] then .reply ⟨401, some "Authentication required", false⟩
    else
      match verify token with
      | some decoded => .next decoded
      | none => .reply ⟨403, some "Invalid or expired token", false⟩

/-- The handler of `GET /api/auth/verify`, as status, `error` text and cookie clearing. -/
def verifySession {α : Type} (verify : List Char → Option α) (cookie : Option (List Char)) :
    AuthReply :=
  match cookie with
  | none => ⟨401, none, false⟩
  | some token =>
    if token = [] then ⟨401, none, false⟩
    else
      match verify token with
      | some _ => ⟨200, none, false⟩
      | none => ⟨401, none, true⟩

/-- HTTP methods of the routes. -/
inductive Method where
  | GET
  | POST
  | PUT
  | DELETE
deriving DecidableEq, Repr

/-- A route of a router: method, full path, and whether `authenticateToken` stands before
the handler. -/
structure Route where
  method : Method
  path : String
  gated : Bool
deriving DecidableEq, Repr

/-- The routes of `classRoutes.js`, `unitRoutes.js`, `lessonRoutes.js` and
`settingsRoutes.js`, in the order of the files. -/
def apiRoutes : List Route :=
  [⟨.GET, "/api/classes/dashboard-data", false⟩,
   ⟨.GET, "/api/classes/", false⟩,
   ⟨.GET, "/api/classes/:id", false⟩,
   ⟨.POST, "/api/classes/", true⟩,
   ⟨.PUT, "/api/classes/:id", true⟩,
   ⟨.DELETE, "/api/classes/:id", true⟩,
   ⟨.POST, "/api/classes/reorder", true⟩,
   ⟨.GET, "/api/units/class/:classId", false⟩,
   ⟨.GET, "/api/units/list/all", false⟩,
   ⟨.GET, "/api/units/:id", false⟩,
   ⟨.GET, "/api/units/", true⟩,
   ⟨.POST, "/api/units/", true⟩,
   ⟨.PUT, "/api/units/:id", true⟩,
   ⟨.DELETE, "/api/units/:id", true⟩,
   ⟨.POST, "/api/units/reorder", true⟩,
   ⟨.GET, "/api/lessons/unit/:unitId", false⟩,
   ⟨.GET, "/api/lessons/:id", false⟩,
   ⟨.GET, "/api/lessons/", true⟩,
   ⟨.POST, "/api/lessons/", true⟩,
   ⟨.PUT, "/api/lessons/:id", true⟩,
   ⟨.POST, "/api/lessons/upload-image", true⟩,
   ⟨.DELETE, "/api/lessons/:id", true⟩,
   ⟨.GET, "/api/lessons/:lessonId/questions", false⟩,
   ⟨.POST, "/api/lessons/:lessonId/questions/:questionId/check", false⟩,
   ⟨.GET, "/api/lessons/:lessonId/questions/admin", true⟩,
   ⟨.POST, "/api/lessons/:lessonId/questions", true⟩,
   ⟨.PUT, "/api/lessons/:lessonId/questions/:questionId", true⟩,
   ⟨.DELETE, "/api/lessons/:lessonId/questions/:questionId", true⟩,
   ⟨.GET, "/api/settings/identity", false⟩,
   ⟨.PUT, "/api/settings/identity", true⟩]

/-- The public answer-check route. -/
def checkRoute : Route := ⟨.POST, "/api/lessons/:lessonId/questions/:questionId/check", false⟩

/-- A request served by a route: behind the gate the handler runs only when the middleware
calls `next()`; the answer is the middleware's reply or the handler's response. -/
def serve {α σ β : Type} (route : Route) (verify : List Char → Option α)
    (cookie : Option (List Char)) (handler : σ → β × σ) (s : σ) : (AuthReply ⊕ β) × σ :=
  if route.gated then
    match authenticateToken verify cookie with
    | .next _ => (.inr (handler s).1, (handler s).2)
    | .reply r => (.inl r, s)
  else (.inr (handler s).1, (handler s).2)

/-! ## Start-up checks (`server.js`, `auth.js`) -/

/-- The environment variables the start-up checks read, after `dotenv`. -/
structure Env where
  NODE_ENV : Option (List Char)
  JWT_SECRET : Option (List Char)
deriving DecidableEq, Repr

/-- The default secret shipped in the source. -/
def defaultSecret : List Char := "your-super-secret-jwt-key-change-in-production".toList

/-- The property `length` of a string: its number of UTF-16 code units. -/
def jsLength (s : List Char) : Nat :=
  (s.map fun c => if c.toNat < 0x10000 then 1 else 2).sum

/-- The test `!process.env.JWT_SECRET || process.env.JWT_SECRET === '<default>'`. -/
def secretUnset (env : Env) : Bool :=
  match env.JWT_SECRET with
  | none => true
  | some secret => decide (secret = []) || decide (secret = defaultSecret)

/-- How the start of `server.js` ends, before the database is initialised and the port is
bound: the `throw` of `auth.js` while the modules load, `process.exit(1)`, or the script
goes on, with or without the warning about a short secret. -/
inductive Startup where
  | moduleThrows
  | exits (code : Nat)
  | goesOn (warned : Bool)
deriving DecidableEq, Repr

/-- The start of `server.js`: `auth.js` is loaded through the routers (lines 10-14), then
the security validation runs (lines 22-32). -/
def startup (env : Env) : Startup :=
  if decide (env.NODE_ENV = some "production".toList) && secretUnset env then .moduleThrows
  else if secretUnset env then .exits 1
  else
    match env.JWT_SECRET with
    | some secret =>
      .goesOn (decide (env.NODE_ENV = some "production".toList) && decide (jsLength secret < 32))
    | none => .exits 1

/-- A well-formed question body with the answer `a`. -/
def demoQuestionBody : QuestionBody :=
  { question_text := .str "س".toList, option_a := .str "أ".toList, option_b := .str "ب".toList,
    option_c := .str "ج".toList, option_d := .str "د".toList, correct_answer := .str ['a'] }

/-- A question row with its `correct_answer` blanked. -/
def withoutAnswer (q : QuestionRow) : QuestionRow := { q with correct_answer := [] }

/-- A video row with its generated key blanked. -/
def stripVideoId (r : VideoRow) : VideoRow := { r with id := 0 }

/-- An image row with its generated key blanked. -/
def stripImageId (r : ImageRow) : ImageRow := { r with id := 0 }

/-- A school whose lesson 1 has two videos and two images. -/
def twoVideoSchool : School :=
  { oneSubtreeSchool with
    videos := [⟨1, 1, "https://v1".toList, "bottom".toList, "large".toList, none, 0, 40⟩,
               ⟨2, 1, "https://v2".toList, "bottom".toList, "large".toList, none, 1, 41⟩],
    images := [⟨1, 1, "https://i1".toList, "bottom".toList, "medium".toList, none, 0, 50⟩,
               ⟨2, 1, "https://i2".toList, "bottom".toList, "medium".toList, none, 1, 51⟩] }

/-- A well-formed update body for a lesson of unit 1 with the given media arrays. -/
def lessonBodyWith (videos : Option (List VideoEntry)) (images : Option (List ImageEntry)) :
    LessonBody :=
  { title := .str "ج".toList, unit_id := .num 1, content := .str [], videos := videos,
    images := images }

/-- The codes carried by the 400 answers of the create and update handlers. -/
def validationCodes : List String :=
  ["NAME_REQUIRED", "TITLE_REQUIRED", "CLASS_ID_REQUIRED", "UNIT_ID_REQUIRED",
   "INVALID_CHARACTERS"]

/-- A body `{ error, code }` with one of the validation codes. -/
def HasErrorAndCode {ρ : Type} (b : Body ρ) : Prop :=
  ∃ message code, b = .error message (some code) ∧ code ∈ validationCodes

/-- A body `{ error }` without a `code` field. -/
def HasErrorOnly {ρ : Type} (b : Body ρ) : Prop :=
  ∃ message, b = .error message none

/-! ## The mounted routers of `server.js` and the search router (`searchRoutes.js`) -/

/-- A line `app.use(path, router)` of `server.js`: the mount path and the module of the
router. -/
structure Mount where
  path : String
  router : String
deriving DecidableEq, Repr

/-- The routers mounted by `server.js` (lines 227-231), in the order of the file. -/
def mountedRouters : List Mount :=
  [⟨"/api/auth", "./src/routes/authRoutes"⟩,
   ⟨"/api/classes", "./src/routes/classRoutes"⟩,
   ⟨"/api/units", "./src/routes/unitRoutes"⟩,
   ⟨"/api/lessons", "./src/routes/lessonRoutes"⟩,
   ⟨"/api/settings", "./src/routes/settingsRoutes"⟩]

/-- Lower-case form of an ASCII letter, any other character unchanged. -/
def asciiLowerChar (c : Char) : Char :=
  if 65 ≤ c.toNat ∧ c.toNat ≤ 90 then Char.ofNat (c.toNat + 32) else c

/-- Match of a mount path at the head of a request path, without regard to ASCII case (the
default of Express); the rest of the request path on success. -/
def stripMount : List Char → List Char → Option (List Char)
  | [], p => some p
  | _ :: _, [] => none
  | m :: ms, c :: cs => if asciiLowerChar m = asciiLowerChar c then stripMount ms cs else none

/-- The test of `app.use(mount, ...)` on a request path: the mount path matches at the head
and ends at the end of the request path or before a `/`. -/
def underMount (mount path : List Char) : Option (List Char) :=
  match stripMount mount path with
  | some [] => some []
  | some (c :: rest) => if c = '/' then some (c :: rest) else none
  | none => none

/-- The fallback `app.use('/api', ...)` of `server.js` (lines 234-236). -/
def apiNotFound {ρ : Type} : Response ρ := ⟨404, .error "Resource not found" none⟩

/-- The answer of the application to a request whose path is under `/api` and that the
middleware before the routers lets through.  The mounted routers are tried in order;
`routers module rest` is the answer of the router of that module on the rest of the path,
`none` when no route of it matches and it calls `next()`.  The fallback answers when no
router did. -/
def serveApi {ρ : Type} (routers : String → List Char → Option (Response ρ))
    (path : List Char) : Response ρ :=
  match mountedRouters.findSome? fun m =>
      match underMount m.path.toList path with
      | some rest => routers m.router rest
      | none => none with
  | some response => response
  | none => apiNotFound

/-- What the search handler uses from outside the repository: `String.prototype.toLowerCase`
and the engine's `LOWER` and `LIKE`, the latter as `like text pattern`. -/
structure SearchEngine where
  toLowerCase : List Char → List Char
  lower : List Char → List Char
  like : List Char → List Char → Bool

/-- Sort order of `ORDER BY u.created_at DESC, u.id DESC` on joined unit rows. -/
def unitNewestFirst (a b : UnitRow × ClassRow) : Prop :=
  b.1.created_at < a.1.created_at ∨ (a.1.created_at = b.1.created_at ∧ b.1.id ≤ a.1.id)

/-- Sort order of `ORDER BY l.created_at DESC, l.id DESC` on joined lesson rows. -/
def lessonNewestFirst (a b : LessonRow × UnitRow × ClassRow) : Prop :=
  b.1.created_at < a.1.created_at ∨ (a.1.created_at = b.1.created_at ∧ b.1.id ≤ a.1.id)

instance : DecidableRel unitNewestFirst := fun a b => by
  unfold unitNewestFirst
  infer_instance

instance : DecidableRel lessonNewestFirst := fun a b => by
  unfold lessonNewestFirst
  infer_instance

/-- The rows of `units u JOIN classes c ON u.class_id = c.id`. -/
def joinUnitsClasses (classes : List ClassRow) (units : List UnitRow) :
    List (UnitRow × ClassRow) :=
  units.flatMap fun u => (classes.filter fun c => c.id = u.cols.class_id).map fun c => (u, c)

/-- The rows of `lessons l JOIN units u ON l.unit_id = u.id JOIN classes c ON u.class_id =
c.id`. -/
def joinLessonsUnitsClasses (s : School) : List (LessonRow × UnitRow × ClassRow) :=
  s.lessons.flatMap fun l =>
    ((joinUnitsClasses s.classes s.units).filter fun uc => uc.1.id = l.unit_id).map
      fun uc => (l, uc)

/-- The object `{ classes, units, lessons }` of the search handler. -/
structure SearchResult where
  classes : List ClassRow
  units : List (UnitRow × ClassRow)
  lessons : List (LessonRow × UnitRow × ClassRow)
deriving DecidableEq, Repr

/-- The handler `GET /` of `searchRoutes.js` for the query parameter `q` (`undefined` when
it is missing), over an engine that sorts by insertion and rejects no statement.  A
parameter that is not a string has no `trim` method, and the `catch` answers.  The rows are
given whole, the handler selects some of their columns. -/
def search (engine : SearchEngine) (q : JsVal) (s : School) : Response SearchResult :=
  match jsOr q (.str []) with
  | .str raw =>
    let rawQuery := jsTrim raw
    if rawQuery = [] ∨ jsLength rawQuery < 2 then ⟨200, .row (some ⟨[], [], []⟩)⟩
    else
      let likeQuery := '%' :: engine.toLowerCase rawQuery ++ ['%']
      let hit := fun (text : List Char) => engine.like (engine.lower text) likeQuery
      let classes := ((s.classes.filter fun c => hit c.cols.name).insertionSort
        classBefore).take 20
      let units := (((joinUnitsClasses s.classes s.units).filter fun uc =>
        hit uc.1.cols.title || hit uc.2.cols.name).insertionSort unitNewestFirst).take 20
      let lessons := (((joinLessonsUnitsClasses s).filter fun luc =>
        hit luc.1.title || hit luc.2.1.cols.title || hit luc.2.2.cols.name).insertionSort
          lessonNewestFirst).take 20
      ⟨200, .row (some ⟨classes, units, lessons⟩)⟩
  | _ => ⟨500, .error "Server error" none⟩

/-! ## The list queries of classes and units (`classRoutes.js`, `unitRoutes.js`) -/

/-- The columns `id, class_id` of a unit row. -/
def unitIdAndClass (u : UnitRow) : Nat × Nat := (u.id, u.cols.class_id)

/-- The object `{ classes, units }` of the dashboard. -/
structure DashboardData where
  classes : List ClassRow
  units : List (Nat × Nat)
deriving DecidableEq, Repr

/-- The handler of `GET /api/classes/dashboard-data`, over an engine that sorts by
insertion. -/
def getDashboardData (s : Store) : Response DashboardData :=
  ⟨200, .row (some ⟨s.classes.insertionSort classBefore,
    (s.units.insertionSort unitBefore).map unitIdAndClass⟩)⟩

/-- The handler of `GET /api/units/list/all`, over an engine that sorts by insertion. -/
def getUnitsList (units : List UnitRow) : Response (Nat × Nat) :=
  ⟨200, .rows ((units.insertionSort unitBefore).map unitIdAndClass)⟩

/-- Sort order of `ORDER BY c.display_order ASC, u.display_order ASC` on joined unit rows. -/
def adminUnitBefore (a b : UnitRow × ClassRow) : Prop :=
  a.2.display_order < b.2.display_order ∨
    (a.2.display_order = b.2.display_order ∧ a.1.display_order ≤ b.1.display_order)

instance : DecidableRel adminUnitBefore := fun a b => by
  unfold adminUnitBefore
  infer_instance

instance : IsTotal (UnitRow × ClassRow) adminUnitBefore := ⟨by
  intro a b
  unfold adminUnitBefore
  omega⟩

instance : IsTrans (UnitRow × ClassRow) adminUnitBefore := ⟨by
  intro a b c
  unfold adminUnitBefore
  omega⟩

/-- A possible answer of the engine to the query of the admin unit list, `SELECT u.*, c.name
as class_name FROM units u JOIN classes c ON u.class_id = c.id ORDER BY c.display_order ASC,
u.display_order ASC`: the joined rows in an order that respects the two sort keys. -/
def IsAdminUnitList (s : Store) (result : List (UnitRow × ClassRow)) : Prop :=
  result.Perm (joinUnitsClasses s.classes s.units) ∧ result.Pairwise adminUnitBefore

/-- The handler of the admin `GET /api/units` behind the authentication middleware, over an
engine that sorts by insertion; a row of the answer is the unit with the class that gives
it `class_name`. -/
def getAllUnits (s : Store) : Response (UnitRow × ClassRow) :=
  ⟨200, .rows ((joinUnitsClasses s.classes s.units).insertionSort adminUnitBefore)⟩

/-- Two classes and one unit in each: the units have the same `display_order`, the older
unit belongs to the class that is ranked second. -/
def twoClassStore : Store :=
  { classes := [⟨1, 2, 10, ⟨"أ".toList⟩⟩, ⟨2, 1, 11, ⟨"ب".toList⟩⟩],
    units := [⟨1, 0, 20, ⟨1, "س".toList, "P".toList, "1".toList⟩⟩,
              ⟨2, 0, 21, ⟨2, "ص".toList, "P".toList, "1".toList⟩⟩] }

/-! ## Identity settings (`settingsRoutes.js`, `initDatabase.js`) -/

/-- A row of `identity_settings`. -/
structure IdentityRow where
  id : Nat
  school_name : List Char
  platform_label : List Char
  admin_name : List Char
  admin_role : List Char
  created_at : Nat
  updated_at : Nat
deriving DecidableEq, Repr

/-- The fields of `req.body` that the identity handler reads; a missing field is
`undefined`. -/
structure IdentityBody where
  schoolName : JsVal
  platformLabel : JsVal
  adminName : JsVal
  adminRole : JsVal
deriving DecidableEq, Repr

/-- The object `{ schoolName, platformLabel, adminName, adminRole }` of the response. -/
structure Identity where
  schoolName : List Char
  platformLabel : List Char
  adminName : List Char
  adminRole : List Char
deriving DecidableEq, Repr

/-- The function `normalize` of the identity handler: `typeof v === 'string' ? v.trim() :
''`. -/
def normalize : JsVal → List Char
  | .str s => jsTrim s
  | _ => []

/-- The statement `INSERT INTO identity_settings (school_name, platform_label, admin_name,
admin_role) VALUES (?, ?, ?, ?)` at time `now`. -/
def insertIdentity (now : Nat) (v : Identity) (rows : List IdentityRow) : List IdentityRow :=
  rows ++ [{ id := freshId (rows.map fun r => r.id), school_name := v.schoolName,
             platform_label := v.platformLabel, admin_name := v.adminName,
             admin_role := v.adminRole, created_at := now, updated_at := now }]

/-- The statement `UPDATE identity_settings SET school_name = ?, platform_label = ?,
admin_name = ?, admin_role = ?, updated_at = CURRENT_TIMESTAMP WHERE id = ?` at time
`now`. -/
def updateIdentity (now : Nat) (v : Identity) (id : Nat) (rows : List IdentityRow) :
    List IdentityRow :=
  rows.map fun r =>
    if r.id = id then
      { r with school_name := v.schoolName, platform_label := v.platformLabel,
               admin_name := v.adminName, admin_role := v.adminRole, updated_at := now }
    else r

/-- The handler of `PUT /api/settings/identity` behind the authentication middleware, at
time `now`, over an engine that rejects no statement; the table is given in the order in
which the engine scans it, so that `LIMIT 1` answers its head. -/
def putIdentity (now : Nat) (body : IdentityBody) (rows : List IdentityRow) :
    Response Identity × List IdentityRow :=
  let schoolName := normalize body.schoolName
  let platformLabel := normalize body.platformLabel
  let adminName := normalize body.adminName
  let adminRole := normalize body.adminRole
  if schoolName = [] ∨ platformLabel = [] ∨ adminName = [] ∨ adminRole = [] then
    (⟨400, .error "جميع الحقول مطلوبة: اسم المدرسة، اسم المنصة، جهة الإدارة، وصف جهة الإدارة"
      none⟩, rows)
  else if 150 < jsLength schoolName ∨ 150 < jsLength platformLabel ∨
      150 < jsLength adminName ∨ 150 < jsLength adminRole then
    (⟨400, .error "يجب ألا يتجاوز كل حقل 150 حرفًا" none⟩, rows)
  else
    let identity : Identity := ⟨schoolName, platformLabel, adminName, adminRole⟩
    match rows.head? with
    | none => (⟨200, .row (some identity)⟩, insertIdentity now identity rows)
    | some existing =>
      (⟨200, .row (some identity)⟩, updateIdentity now identity existing.id rows)

/-- The default identity of `initDatabase.js`. -/
def defaultIdentity : Identity :=
  ⟨"مدرسة أبو فراس الحمداني للتعليم الأساسي".toList, "المنصة التعليمية".toList,
    "إدارة المدرسة".toList, "مسؤول النظام التعليمي".toList⟩

/-- The last step of `initializeDatabase`, at time `now`: the default row is inserted when
`SELECT * FROM identity_settings LIMIT 1` answers no row. -/
def initIdentity (now : Nat) (rows : List IdentityRow) : List IdentityRow :=
  match rows.head? with
  | none => insertIdentity now defaultIdentity rows
  | some _ => rows

/-- The four values the identity handler works with after `normalize`. -/
def identityOf (body : IdentityBody) : Identity :=
  ⟨normalize body.schoolName, normalize body.platformLabel, normalize body.adminName,
    normalize body.adminRole⟩

/-- A valid body of the identity update: the four fields are strings, each of them non-empty
after trimming and then of at most 150 code units. -/
def ValidIdentity (body : IdentityBody) : Prop :=
  ∃ a b c d, body = ⟨.str a, .str b, .str c, .str d⟩ ∧
    jsTrim a ≠ [] ∧ jsTrim b ≠ [] ∧ jsTrim c ≠ [] ∧ jsTrim d ≠ [] ∧
    jsLength (jsTrim a) ≤ 150 ∧ jsLength (jsTrim b) ≤ 150 ∧
    jsLength (jsTrim c) ≤ 150 ∧ jsLength (jsTrim d) ≤ 150

/-- The four display strings of a row. -/
def IdentityRow.identity (r : IdentityRow) : Identity :=
  ⟨r.school_name, r.platform_label, r.admin_name, r.admin_role⟩

/-- A body whose four fields are strings. -/
def identityBodyOf (a b c d : String) : IdentityBody :=
  ⟨.str a.toList, .str b.toList, .str c.toList, .str d.toList⟩

/-! ## The embedded dialect of `Database` and the choice of the dialect -/

/-- The driver object of the embedded dialect, seen through what its callbacks receive:
an error, or `this.lastID` and `this.changes` for `run`, the row for `get`, the rows for
`all`. -/
structure SqliteDriver (π ε : Type) where
  run : List Char → List π → Except ε (Nat × Nat)
  get : List Char → List π → Except ε (Option PgRow)
  all : List Char → List π → Except ε (List PgRow)

/-- The `Database` object under the embedded dialect: `db` is `null` before `connect`. -/
structure SqliteDatabase (π ε : Type) where
  db : Option (SqliteDriver π ε)

/-- The method `Database.run`, embedded branch. -/
def SqliteDatabase.run {π ε : Type} (d : SqliteDatabase π ε) (sql : List Char)
    (params : List π) : Except (DbError ε) RunResult :=
  match d.db with
  | none => .error .notConnected
  | some driver =>
    match driver.run sql params with
    | .ok (lastID, changes) => .ok { id := some (.int lastID), changes := changes }
    | .error err => .error (.engine err)

/-- The method `Database.get`, embedded branch. -/
def SqliteDatabase.get {π ε : Type} (d : SqliteDatabase π ε) (sql : List Char)
    (params : List π) : Except (DbError ε) (Option PgRow) :=
  match d.db with
  | none => .error .notConnected
  | some driver =>
    match driver.get sql params with
    | .ok row => .ok row
    | .error err => .error (.engine err)

/-- The method `Database.all`, embedded branch. -/
def SqliteDatabase.all {π ε : Type} (d : SqliteDatabase π ε) (sql : List Char)
    (params : List π) : Except (DbError ε) (List PgRow) :=
  match d.db with
  | none => .error .notConnected
  | some driver =>
    match driver.all sql params with
    | .ok rows => .ok rows
    | .error err => .error (.engine err)

/-- The `Database` object: the flag `isPostgres` chooses the branch of every method. -/
inductive Database (π ε : Type) where
  | postgres (d : PgDatabase π ε)
  | sqlite (d : SqliteDatabase π ε)

/-- The method `Database.run`. -/
def Database.run {π ε : Type} (d : Database π ε) (sql : List Char) (params : List π) :
    Except (DbError ε) RunResult :=
  match d with
  | .postgres d => d.run sql params
  | .sqlite d => d.run sql params

/-- The method `Database.get`. -/
def Database.get {π ε : Type} (d : Database π ε) (sql : List Char) (params : List π) :
    Except (DbError ε) (Option PgRow) :=
  match d with
  | .postgres d => d.get sql params
  | .sqlite d => d.get sql params

/-- The method `Database.all`. -/
def Database.all {π ε : Type} (d : Database π ε) (sql : List Char) (params : List π) :
    Except (DbError ε) (List PgRow) :=
  match d with
  | .postgres d => d.all sql params
  | .sqlite d => d.all sql params

/-! ## The global error handler (`server.js`) -/

/-- What the error handler reads of the value handed to it; a property that is missing is
`undefined`. -/
structure JsError where
  status : JsVal
  statusCode : JsVal
  message : JsVal
  stack : JsVal
deriving DecidableEq, Repr

/-- The object `errorResponse`; `stack = none` when the property was not set. -/
structure ErrorBody where
  error : JsVal
  stack : Option JsVal
deriving DecidableEq, Repr

/-- The text answered in production. -/
def genericError : List Char := "حدث خطأ في الخادم".toList

/-- The global error handling middleware of `server.js`: the value handed to `res.status`
and the object handed to `json`. -/
def errorHandler (isProd : Bool) (err : JsError) : JsVal × ErrorBody :=
  let status := jsOr (jsOr err.status err.statusCode) (.num 500)
  let error := if isProd then JsVal.str genericError else err.message
  let stack := if !isProd && err.stack.truthy then some err.stack else none
  (status, ⟨error, stack⟩)

/-! ## Login (`authRoutes.js`) -/

/-- A row of `admins`. -/
structure AdminRow where
  id : Nat
  username : List Char
  password_hash : List Char
deriving DecidableEq, Repr

/-- What the login handler uses from outside the repository. -/
structure AuthLib where
  /-- The call `bcrypt.compare(data, hash)`: the verdict, `none` when the promise is
  rejected. -/
  compare : JsVal → List Char → Option Bool
  /-- The call `jwt.sign` on the payload `{ id, username }` with the secret and the
  expiry. -/
  sign : Nat → List Char → List Char

/-- The object `admin` of the body `{ success: true, admin: { id, username } }`. -/
structure LoginAdmin where
  id : Nat
  username : List Char
deriving DecidableEq, Repr

/-- What a login attempt is answered: the response, and the value of the cookie `authToken`
when `res.cookie` was called. -/
structure LoginReply where
  response : Response LoginAdmin
  cookie : Option (List Char)
deriving DecidableEq, Repr

/-- The handler of `POST /api/auth/login` for the fields `username` and `password` of the
body (`undefined` when missing), over an engine that rejects no statement. -/
def login (lib : AuthLib) (username password : JsVal) (admins : List AdminRow) : LoginReply :=
  if !username.truthy || !password.truthy then
    ⟨⟨400, .error "Username and password required" none⟩, none⟩
  else
    let trimmedUsername := jsTrim (jsString username)
    if trimmedUsername = [] then ⟨⟨400, .error "Username and password required" none⟩, none⟩
    else
      match admins.find? fun a => a.username = trimmedUsername with
      | none => ⟨⟨401, .error "Invalid credentials" none⟩, none⟩
      | some admin =>
        match lib.compare password admin.password_hash with
        | none => ⟨⟨500, .error "Server error" none⟩, none⟩
        | some false => ⟨⟨401, .error "Invalid credentials" none⟩, none⟩
        | some true =>
          ⟨⟨200, .row (some ⟨admin.id, admin.username⟩)⟩,
            some (lib.sign admin.id admin.username)⟩

/-- A library for the examples.  Like `bcrypt.compare`, the comparison is rejected for data
that is not a string; the hash of a password is taken to be the password itself and the
token of an admin to be the username. -/
def demoAuthLib : AuthLib where
  compare := fun data hash =>
    match data with
    | .str p => some (decide (p = hash))
    | _ => none
  sign := fun _ username => username

/-- One admin, `admin`, whose password is `secret`. -/
def oneAdmin : List AdminRow := [⟨1, "admin".toList, "secret".toList⟩]

/-! ## Escaping in the public frontend (`public/app.js`) -/

/-- The call `s.replace(/c/g, entity)` for a pattern that is the single character `c` and a
replacement text without `$`. -/
def replaceChar (c : Char) (entity : List Char) (s : List Char) : List Char :=
  s.flatMap fun x => if x = c then entity else [x]

/-- The character U+0027. -/
def apostrophe : Char := Char.ofNat 39

/-- The character U+0022. -/
def doubleQuote : Char := Char.ofNat 34

/-- The function `escapeHtml` of `public/app.js` on a string: the empty string is falsy and
answered at once, any other string goes through the five replacements in turn. -/
def escapeHtml (s : List Char) : List Char :=
  if s = [] then []
  else
    replaceChar apostrophe "&#039;".toList
      (replaceChar doubleQuote "&quot;".toList
        (replaceChar '>' "&gt;".toList
          (replaceChar '<' "&lt;".toList
            (replaceChar '&' "&amp;".toList s))))

/-- What the five replacements make of a single character. -/
def entityOf (c : Char) : List Char :=
  if c = '&' then "&amp;".toList
  else if c = '<' then "&lt;".toList
  else if c = '>' then "&gt;".toList
  else if c = doubleQuote then "&quot;".toList
  else if c = apostrophe then "&#039;".toList
  else [c]

/-- The five entities, each with the character it stands for. -/
def entities : List (List Char × Char) :=
  [("&amp;".toList, '&'), ("&lt;".toList, '<'), ("&gt;".toList, '>'),
   ("&quot;".toList, doubleQuote), ("&#039;".toList, apostrophe)]

/-- Every `&` of a text starts one of the five entities. -/
def AmpersandsStartEntities (out : List Char) : Prop :=
  ∀ i, out[i]? = some '&' → ∃ e ∈ entities, e.1 <+: out.drop i

/-- The entity that starts a text, if one does: its character and the text after it. -/
def entityAt (s : List Char) : Option (Char × List Char) :=
  entities.findSome? fun e => if e.1.isPrefixOf s then some (e.2, s.drop e.1.length) else none

/-- Reading of the specification, `replacing those five entities back by their characters`:
one pass from left to right over at most `fuel` positions, an entity that starts at the
position is replaced by its character, any other character is kept. -/
def unescapeHtmlFuel : Nat → List Char → List Char
  | 0, _ => []
  | _ + 1, [] => []
  | fuel + 1, c :: rest =>
    match entityAt (c :: rest) with
    | some (ch, after) => ch :: unescapeHtmlFuel fuel after
    | none => c :: unescapeHtmlFuel fuel rest

/-- Reading of the specification, `replacing those five entities back by their characters`,
on a whole text: every position of the text is within the fuel. -/
def unescapeHtml (s : List Char) : List Char := unescapeHtmlFuel s.length s

/-! ## Reading of the placeholder contract -/

/-- A statement text written out from its pieces: `seg0`, then for each later piece a
question mark followed by that piece. -/
def withQuestionMarks (seg0 : List Char) (rest : List (List Char)) : List Char :=
  seg0 ++ (rest.map fun seg => '?' :: seg).flatten

/-- The same pieces with the k-th question mark replaced by a dollar sign and the decimal
digits of `k`, counting from `first`. -/
def withDollarNumbers (first : Nat) (seg0 : List Char) (rest : List (List Char)) : List Char :=
  seg0 ++ ((rest.enumFrom first).map fun p => '$' :: (numText p.1 ++ p.2)).flatten

/-- A text `t` spells the keyword `kw` letter by letter, in either case. -/
def Spells (kw t : List Char) : Prop :=
  List.Forall₂ (fun k c => eqIgnoreCase k c = true) kw t

/-- Every character of `ws` is white space. -/
def AllSpace (ws : List Char) : Prop := ∀ c ∈ ws, isJsSpace c = true

instance (ws : List Char) : Decidable (AllSpace ws) := by
  unfold AllSpace
  infer_instance

/-- Shape accepted by `/^\s*INSERT\s+INTO\s+/i`: optional white space, the word INSERT,
white space, the word INTO, white space, then anything. -/
def InsertIntoShape (s : List Char) : Prop :=
  ∃ ws ins sp1 into sp2 rest, s = ws ++ (ins ++ (sp1 ++ (into ++ (sp2 ++ rest)))) ∧
    AllSpace ws ∧ Spells ['I', 'N', 'S', 'E', 'R', 'T'] ins ∧ sp1 ≠ [] ∧ AllSpace sp1 ∧
    Spells ['I', 'N', 'T', 'O'] into ∧ sp2 ≠ [] ∧ AllSpace sp2

/-- Shape accepted by `/RETURNING\s+/i`: somewhere in the text the word RETURNING directly
followed by a white-space character. -/
def ReturningShape (s : List Char) : Prop :=
  ∃ pre kw c post, s = pre ++ (kw ++ c :: post) ∧
    Spells ['R', 'E', 'T', 'U', 'R', 'N', 'I', 'N', 'G'] kw ∧ isJsSpace c = true

/-- Shape accepted by `/;\s*$/`: a semicolon followed by nothing but white space. -/
def TrailingSemicolon (s body : List Char) : Prop :=
  ∃ ws, s = body ++ ';' :: ws ∧ AllSpace ws

/-! # Theorems -/

theorem replaceQuestionMarks_append_of_not_mem (k : Nat) (seg t : List Char)
    (h : '?' ∉ seg) :
    replaceQuestionMarks k (seg ++ t) = seg ++ replaceQuestionMarks k t := by
  induction seg with
  | nil => rfl
  | cons c cs ih =>
    have hc : c ≠ '?' := fun e => h (by simp [e])
    have hcs : '?' ∉ cs := fun e => h (List.mem_cons_of_mem _ e)
    simp [replaceQuestionMarks, hc, ih hcs]

theorem replaceQuestionMarks_qmark (k : Nat) (t : List Char) :
    replaceQuestionMarks k ('?' :: t) = '$' :: (numText k ++ replaceQuestionMarks (k + 1) t) := by
  simp [replaceQuestionMarks]

theorem replaceQuestionMarks_pieces (rest : List (List Char)) :
    ∀ (k : Nat) (seg0 : List Char), '?' ∉ seg0 → (∀ seg ∈ rest, '?' ∉ seg) →
      replaceQuestionMarks k (withQuestionMarks seg0 rest) = withDollarNumbers k seg0 rest := by
  induction rest with
  | nil =>
    intro k seg0 h0 _
    have := replaceQuestionMarks_append_of_not_mem k seg0 [] h0
    simpa [withQuestionMarks, withDollarNumbers, replaceQuestionMarks] using this
  | cons seg rest ih =>
    intro k seg0 h0 hrest
    have h1 : '?' ∉ seg := hrest seg (List.mem_cons_self _ _)
    have h2 : ∀ s ∈ rest, '?' ∉ s := fun s hs => hrest s (List.mem_cons_of_mem _ hs)
    have step := ih (k + 1) seg h1 h2
    simp only [withQuestionMarks, withDollarNumbers, List.map_cons, List.flatten_cons,
      List.enumFrom_cons] at step ⊢
    rw [replaceQuestionMarks_append_of_not_mem k seg0 _ h0, List.cons_append,
      replaceQuestionMarks_qmark, step]
    simp

theorem exists_pieces (sql : List Char) :
    ∃ (seg0 : List Char) (rest : List (List Char)), '?' ∉ seg0 ∧ (∀ seg ∈ rest, '?' ∉ seg) ∧
      sql = withQuestionMarks seg0 rest ∧ rest.length = sql.count '?' := by
  induction sql with
  | nil => exact ⟨[], [], by simp, by simp, rfl, rfl⟩
  | cons c cs ih =>
    obtain ⟨seg0, rest, h0, hr, heq, hlen⟩ := ih
    by_cases hc : c = '?'
    · refine ⟨[], seg0 :: rest, by simp, ?_, ?_, ?_⟩
      · intro seg hseg
        rcases List.mem_cons.1 hseg with h | h
        · exact h ▸ h0
        · exact hr seg h
      · simp [withQuestionMarks, hc, heq]
      · simp [hc, hlen]
    · refine ⟨c :: seg0, rest, ?_, hr, ?_, ?_⟩
      · intro hmem
        rcases List.mem_cons.1 hmem with h | h
        · exact hc h.symm
        · exact h0 h
      · simp [withQuestionMarks, heq]
      · rw [List.count_cons_of_ne (Ne.symm hc)]
        exact hlen

/-! ## The regular expressions, declaratively -/

theorem stripKeyword_eq_some (kw : List Char) :
    ∀ (s r : List Char), stripKeyword kw s = some r ↔ ∃ t, s = t ++ r ∧ Spells kw t := by
  induction kw with
  | nil =>
    intro s r
    constructor
    · intro h
      refine ⟨[], ?_, List.Forall₂.nil⟩
      simpa [stripKeyword] using h
    · rintro ⟨t, rfl, ht⟩
      cases ht
      simp [stripKeyword]
  | cons k ks ih =>
    intro s r
    cases s with
    | nil =>
      constructor
      · intro h
        simp [stripKeyword] at h
      · rintro ⟨t, ht, hsp⟩
        cases hsp
        simp at ht
    | cons c cs =>
      constructor
      · intro h
        by_cases hk : eqIgnoreCase k c = true
        · simp only [stripKeyword, hk, if_true] at h
          obtain ⟨t, rfl, ht⟩ := (ih cs r).1 h
          exact ⟨c :: t, rfl, List.Forall₂.cons hk ht⟩
        · simp [stripKeyword, hk] at h
      · rintro ⟨t, ht, hsp⟩
        cases hsp with
        | cons hk hrest =>
          rename_i c2 t2
          simp only [List.cons_append, List.cons.injEq] at ht
          obtain ⟨rfl, rfl⟩ := ht
          simp only [stripKeyword, hk, if_true]
          exact (ih _ r).2 ⟨t2, rfl, hrest⟩

theorem isJsSpace_false_of_eqIgnoreCase {k c : Char} (hk : 65 ≤ k.toNat ∧ k.toNat ≤ 90)
    (h : eqIgnoreCase k c = true) : isJsSpace c = false := by
  simp only [eqIgnoreCase, Bool.or_eq_true, decide_eq_true_eq] at h
  have hc : 65 ≤ c.toNat ∧ c.toNat ≤ 122 := by omega
  simp only [isJsSpace, Bool.or_eq_false_iff, Bool.and_eq_false_imp, decide_eq_false_iff_not,
    decide_eq_true_eq]
  omega

theorem dropWhile_space_append (ws t : List Char) (hws : AllSpace ws)
    (ht : ∀ c ∈ t.head?, isJsSpace c = false) :
    (ws ++ t).dropWhile isJsSpace = t := by
  induction ws with
  | nil =>
    cases t with
    | nil => rfl
    | cons c cs =>
      have := ht c (by simp)
      simp [List.dropWhile, this]
  | cons w ws ih =>
    have hw : isJsSpace w = true := hws w (List.mem_cons_self _ _)
    have := ih (fun c hc => hws c (List.mem_cons_of_mem _ hc))
    simp [List.dropWhile, hw, this]

theorem allSpace_takeWhile (s : List Char) : AllSpace (s.takeWhile isJsSpace) := by
  intro c hc
  exact (List.mem_takeWhile_imp hc)

theorem stripSpaces1_eq_some {s r : List Char} (h : stripSpaces1 s = some r) :
    ∃ ws, ws ≠ [] ∧ AllSpace ws ∧ s = ws ++ r := by
  cases s with
  | nil => simp [stripSpaces1] at h
  | cons c cs =>
    by_cases hc : isJsSpace c = true
    · simp only [stripSpaces1, hc, if_true, Option.some.injEq] at h
      refine ⟨c :: cs.takeWhile isJsSpace, by simp, ?_, ?_⟩
      · intro x hx
        rcases List.mem_cons.1 hx with rfl | hx
        · exact hc
        · exact allSpace_takeWhile cs x hx
      · rw [← h, List.cons_append, List.takeWhile_append_dropWhile]
    · simp [stripSpaces1, hc] at h

theorem stripSpaces1_append_isSome (ws t : List Char) (hne : ws ≠ []) (hws : AllSpace ws) :
    (stripSpaces1 (ws ++ t)).isSome = true := by
  cases ws with
  | nil => exact absurd rfl hne
  | cons w ws =>
    have hw : isJsSpace w = true := hws w (List.mem_cons_self _ _)
    simp [stripSpaces1, hw]

theorem stripSpaces1_append (ws t : List Char) (hne : ws ≠ []) (hws : AllSpace ws)
    (ht : ∀ c ∈ t.head?, isJsSpace c = false) : stripSpaces1 (ws ++ t) = some t := by
  cases ws with
  | nil => exact absurd rfl hne
  | cons w ws =>
    have hw : isJsSpace w = true := hws w (List.mem_cons_self _ _)
    have := dropWhile_space_append ws t (fun c hc => hws c (List.mem_cons_of_mem _ hc)) ht
    simp [stripSpaces1, hw, this]

theorem head_not_space_of_spells {k : Char} {ks t rest : List Char}
    (hk : 65 ≤ k.toNat ∧ k.toNat ≤ 90) (h : Spells (k :: ks) t) :
    ∀ c ∈ (t ++ rest).head?, isJsSpace c = false := by
  cases h with
  | cons hkc _ =>
    intro c hc
    simp only [List.cons_append, List.head?_cons, Option.mem_def, Option.some.injEq] at hc
    subst hc
    exact isJsSpace_false_of_eqIgnoreCase hk hkc

theorem matchesInsertInto_iff (s : List Char) :
    matchesInsertInto s = true ↔ InsertIntoShape s := by
  constructor
  · intro h
    unfold matchesInsertInto at h
    rw [Option.isSome_iff_exists] at h
    obtain ⟨r4, h⟩ := h
    obtain ⟨r1, h1, h⟩ := Option.bind_eq_some.1 h
    obtain ⟨r2, h2, h⟩ := Option.bind_eq_some.1 h
    obtain ⟨r3, h3, h4⟩ := Option.bind_eq_some.1 h
    obtain ⟨ins, e1, hins⟩ := (stripKeyword_eq_some _ _ _).1 h1
    obtain ⟨sp1, hne1, hsp1, e2⟩ := stripSpaces1_eq_some h2
    obtain ⟨into, e3, hinto⟩ := (stripKeyword_eq_some _ _ _).1 h3
    obtain ⟨sp2, hne2, hsp2, e4⟩ := stripSpaces1_eq_some h4
    refine ⟨s.takeWhile isJsSpace, ins, sp1, into, sp2, r4, ?_, allSpace_takeWhile s, hins,
      hne1, hsp1, hinto, hne2, hsp2⟩
    rw [← e4, ← e3, ← e2, ← e1, List.takeWhile_append_dropWhile]
  · rintro ⟨ws, ins, sp1, into, sp2, rest, rfl, hws, hins, hne1, hsp1, hinto, hne2, hsp2⟩
    unfold matchesInsertInto
    rw [dropWhile_space_append ws _ hws (head_not_space_of_spells (by decide) hins)]
    rw [(stripKeyword_eq_some _ _ _).2 ⟨ins, rfl, hins⟩]
    simp only [Option.some_bind]
    rw [stripSpaces1_append sp1 _ hne1 hsp1 (head_not_space_of_spells (by decide) hinto)]
    simp only [Option.some_bind]
    rw [(stripKeyword_eq_some _ _ _).2 ⟨into, rfl, hinto⟩]
    simp only [Option.some_bind]
    exact stripSpaces1_append_isSome sp2 rest hne2 hsp2

theorem startsReturning_iff (s : List Char) :
    startsReturning s = true ↔ ∃ kw c post, s = kw ++ c :: post ∧
      Spells ['R', 'E', 'T', 'U', 'R', 'N', 'I', 'N', 'G'] kw ∧ isJsSpace c = true := by
  unfold startsReturning
  constructor
  · intro h
    split at h
    · rename_i c r hr
      obtain ⟨kw, e, hkw⟩ := (stripKeyword_eq_some _ _ _).1 hr
      exact ⟨kw, c, r, e, hkw, h⟩
    · exact absurd h (by simp)
  · rintro ⟨kw, c, post, rfl, hkw, hc⟩
    rw [(stripKeyword_eq_some _ _ _).2 ⟨kw, rfl, hkw⟩]
    exact hc

theorem containsReturning_iff (s : List Char) :
    containsReturning s = true ↔ ReturningShape s := by
  induction s with
  | nil =>
    constructor
    · intro h
      simp [containsReturning] at h
    · rintro ⟨pre, kw, c, post, e, _, _⟩
      have := congrArg List.length e
      simp at this
      omega
  | cons a t ih =>
    simp only [containsReturning, Bool.or_eq_true]
    constructor
    · rintro (h | h)
      · obtain ⟨kw, c, post, e, hkw, hc⟩ := (startsReturning_iff _).1 h
        exact ⟨[], kw, c, post, by simpa using e, hkw, hc⟩
      · obtain ⟨pre, kw, c, post, e, hkw, hc⟩ := ih.1 h
        exact ⟨a :: pre, kw, c, post, by simp [e], hkw, hc⟩
    · rintro ⟨pre, kw, c, post, e, hkw, hc⟩
      cases pre with
      | nil =>
        left
        exact (startsReturning_iff _).2 ⟨kw, c, post, by simpa using e, hkw, hc⟩
      | cons p pre =>
        right
        simp only [List.cons_append, List.cons.injEq] at e
        exact ih.2 ⟨pre, kw, c, post, e.2, hkw, hc⟩

theorem stripTrailingSemicolon_cons (c : Char) (cs : List Char) :
    stripTrailingSemicolon (c :: cs)
      = if c = ';' ∧ cs.all isJsSpace = true then [] else c :: stripTrailingSemicolon cs := rfl

theorem stripTrailingSemicolon_of_split (body ws : List Char) (hws : AllSpace ws) :
    stripTrailingSemicolon (body ++ ';' :: ws) = body := by
  induction body with
  | nil =>
    have : ws.all isJsSpace = true := List.all_eq_true.2 hws
    simp [stripTrailingSemicolon, this]
  | cons b body ih =>
    have : ¬ (b = ';' ∧ (body ++ ';' :: ws).all isJsSpace = true) := by
      rintro ⟨_, h⟩
      have := List.all_eq_true.1 h ';' (by simp)
      exact absurd this (by decide)
    rw [List.cons_append, stripTrailingSemicolon_cons, if_neg this, ih]

theorem stripTrailingSemicolon_of_no_split (s : List Char)
    (h : ∀ body, ¬ TrailingSemicolon s body) : stripTrailingSemicolon s = s := by
  induction s with
  | nil => rfl
  | cons c cs ih =>
    have h1 : ¬ (c = ';' ∧ cs.all isJsSpace = true) := by
      rintro ⟨rfl, hall⟩
      exact h [] ⟨cs, rfl, List.all_eq_true.1 hall⟩
    have h2 : ∀ body, ¬ TrailingSemicolon cs body := by
      rintro body ⟨ws, e, hws⟩
      exact h (c :: body) ⟨ws, by simp [e], hws⟩
    rw [stripTrailingSemicolon_cons, if_neg h1, ih h2]

theorem stripTrailingSemicolon_cases (s : List Char) :
    (∃ body, TrailingSemicolon s body ∧ stripTrailingSemicolon s = body) ∨
      ((∀ body, ¬ TrailingSemicolon s body) ∧ stripTrailingSemicolon s = s) := by
  by_cases h : ∃ body, TrailingSemicolon s body
  · obtain ⟨body, ws, e, hws⟩ := h
    exact Or.inl ⟨body, ⟨ws, e, hws⟩, e ▸ stripTrailingSemicolon_of_split body ws hws⟩
  · have h2 : ∀ body, ¬ TrailingSemicolon s body := fun body hb => h ⟨body, hb⟩
    exact Or.inr ⟨h2, stripTrailingSemicolon_of_no_split s h2⟩

theorem stripTrailingSemicolon_prefix (s : List Char) : stripTrailingSemicolon s <+: s := by
  rcases stripTrailingSemicolon_cases s with ⟨body, ⟨ws, e, _⟩, h⟩ | ⟨_, h⟩
  · rw [h, e]
    exact List.prefix_append _ _
  · rw [h]

theorem isInsert_iff (sql : List Char) :
    isInsert sql = true ↔ InsertIntoShape (jsTrim sql) ∧ ¬ ReturningShape sql := by
  unfold isInsert
  rw [Bool.and_eq_true, matchesInsertInto_iff, ← containsReturning_iff]
  simp

/-! ## Placeholder rewriting (C1) -/

/-- C1, counterexample: the text `INSERT INTO t (a) VALUES (?)` has one question mark, between
the pieces `INSERT INTO t (a) VALUES (` and `)`.  The statement `run` sends for it is not the
text with that question mark replaced by `$1` and every other character unchanged: it is
`INSERT INTO t (a) VALUES ($1) RETURNING id`. -/
theorem run_statement_not_plain_rewrite :
    runStatement (withQuestionMarks "INSERT INTO t (a) VALUES (".toList [")".toList])
        = "INSERT INTO t (a) VALUES ($1) RETURNING id".toList ∧
      runStatement (withQuestionMarks "INSERT INTO t (a) VALUES (".toList [")".toList])
        ≠ withDollarNumbers 1 "INSERT INTO t (a) VALUES (".toList [")".toList] := by
  decide

/-- C1 (amended): every SQL text splits into pieces free of question marks, one more piece
than it has question marks, and under the networked dialect `get` and `all` send those pieces
rejoined with `$1`, `$2`, ... in place of the question marks, numbered from 1 on every call;
`run` sends the same text when `isInsert` is false, and otherwise that text cut before a
trailing semicolon and followed by ` RETURNING id`.  The parameter list reaches the pool as
it was given. -/
theorem placeholders_numbered (sql : List Char) :
    ∃ (seg0 : List Char) (rest : List (List Char)),
      '?' ∉ seg0 ∧ (∀ seg ∈ rest, '?' ∉ seg) ∧
      sql = withQuestionMarks seg0 rest ∧ rest.length = sql.count '?' ∧
      getStatement sql = withDollarNumbers 1 seg0 rest ∧
      allStatement sql = withDollarNumbers 1 seg0 rest ∧
      (isInsert sql = false → runStatement sql = withDollarNumbers 1 seg0 rest) ∧
      (isInsert sql = true → runStatement sql
          = stripTrailingSemicolon (withDollarNumbers 1 seg0 rest) ++ returningId ∧
        stripTrailingSemicolon (withDollarNumbers 1 seg0 rest)
          <+: withDollarNumbers 1 seg0 rest) ∧
      (∀ (π ε : Type) (query : List Char → List π → Except ε PgResult) (params : List π),
        PgDatabase.get ⟨some query⟩ sql params
            = (match query (withDollarNumbers 1 seg0 rest) params with
              | .ok result => .ok result.rows.head?
              | .error e => .error (.engine e)) ∧
        PgDatabase.all ⟨some query⟩ sql params
            = (match query (withDollarNumbers 1 seg0 rest) params with
              | .ok result => .ok result.rows
              | .error e => .error (.engine e)) ∧
        PgDatabase.run ⟨some query⟩ sql params
            = (match query (runStatement sql) params with
              | .ok result => .ok { id := insertedId sql result, changes := result.rowCount }
              | .error e => .error (.engine e))) := by
  obtain ⟨seg0, rest, h0, hrest, heq, hlen⟩ := exists_pieces sql
  have hrw : rewritePlaceholders sql = withDollarNumbers 1 seg0 rest := by
    rw [heq]
    exact replaceQuestionMarks_pieces rest 1 seg0 h0 hrest
  refine ⟨seg0, rest, h0, hrest, heq, hlen, hrw, hrw, ?_, ?_, ?_⟩
  · intro hi
    simp [runStatement, hi, hrw]
  · intro hi
    refine ⟨by simp [runStatement, hi, hrw], stripTrailingSemicolon_prefix _⟩
  · intro π ε query params
    refine ⟨?_, ?_, rfl⟩
    · simp only [PgDatabase.get, getStatement, hrw]
    · simp only [PgDatabase.all, allStatement, hrw]

/-! ## The RETURNING clause of inserts (C2) -/

/-- C2, counterexample: `INSERT INTO notes (body) VALUES ('RETURNING soon')` is an INSERT INTO
statement and has no RETURNING clause (the word stands inside a quoted literal only), yet
`run` appends nothing: it sends the text as it is. -/
theorem insert_without_clause_not_extended :
    matchesInsertInto (jsTrim "INSERT INTO notes (body) VALUES ('RETURNING soon')".toList) = true ∧
      hasReturningClause "INSERT INTO notes (body) VALUES ('RETURNING soon')".toList = false ∧
      runStatement "INSERT INTO notes (body) VALUES ('RETURNING soon')".toList
        = "INSERT INTO notes (body) VALUES ('RETURNING soon')".toList ∧
      runStatement "INSERT INTO notes (body) VALUES ('RETURNING soon')".toList
        ≠ stripTrailingSemicolon
            (rewritePlaceholders "INSERT INTO notes (body) VALUES ('RETURNING soon')".toList)
          ++ returningId := by
  decide

/-- C2 (amended): under the networked dialect `run` appends ` RETURNING id` exactly when the
trimmed text starts with the words INSERT and INTO, each followed by white space, and the
word RETURNING followed by white space occurs nowhere in the text (letters in either case).
Then the statement sent is the placeholder-rewritten text, cut before a semicolon that only
white space follows, with ` RETURNING id` after it.  In every other case the
placeholder-rewritten text is sent as it is. -/
theorem returning_appended (sql : List Char) :
    (isInsert sql = true ↔ InsertIntoShape (jsTrim sql) ∧ ¬ ReturningShape sql) ∧
      (isInsert sql = true →
        (∀ body, TrailingSemicolon (rewritePlaceholders sql) body →
          runStatement sql = body ++ returningId) ∧
        ((∀ body, ¬ TrailingSemicolon (rewritePlaceholders sql) body) →
          runStatement sql = rewritePlaceholders sql ++ returningId)) ∧
      (isInsert sql = false → runStatement sql = rewritePlaceholders sql) := by
  refine ⟨isInsert_iff sql, ?_, ?_⟩
  · intro hi
    constructor
    · rintro body ⟨ws, e, hws⟩
      simp only [runStatement, hi, if_true]
      rw [e, stripTrailingSemicolon_of_split body ws hws]
    · intro hno
      simp only [runStatement, hi, if_true]
      rw [stripTrailingSemicolon_of_no_split _ hno]
  · intro hi
    simp [runStatement, hi]

/-- C2, the amended statement at `INSERT INTO t (a) VALUES (?);` followed by a blank: the
text sent ends the rewritten statement before the semicolon. -/
theorem returning_appended_witness :
    isInsert "INSERT INTO t (a) VALUES (?); ".toList = true ∧
      runStatement "INSERT INTO t (a) VALUES (?); ".toList
        = "INSERT INTO t (a) VALUES ($1)".toList ++ returningId :=
  ⟨by decide,
    ((returning_appended "INSERT INTO t (a) VALUES (?); ".toList).2.1 (by decide)).1
      "INSERT INTO t (a) VALUES ($1)".toList ⟨[' '], by decide, by decide⟩⟩

/-! ## The id of an insert (C3) -/

/-- C3, the code at the failing input: with a pool that answers the generated key 7 for an
insert carrying a RETURNING clause, `run` on `INSERT INTO classes (name) VALUES (?)` resolves
`id = 7`, and `run` on the same insert written with its own `RETURNING id` reaches the pool
unchanged but for the placeholder, is answered the row with `id = 7`, and resolves with `id`
undefined. -/
theorem run_drops_id_of_own_returning :
    PgDatabase.run ⟨some insertingPool⟩ "INSERT INTO classes (name) VALUES (?)".toList ["x"]
        = .ok { id := some (.int 7), changes := 1 } ∧
      runStatement "INSERT INTO classes (name) VALUES (?) RETURNING id".toList
        = "INSERT INTO classes (name) VALUES ($1) RETURNING id".toList ∧
      insertingPool "INSERT INTO classes (name) VALUES ($1) RETURNING id".toList ["x"]
        = .ok { rows := [[("id", .int 7)]], rowCount := 1 } ∧
      PgDatabase.run ⟨some insertingPool⟩
          "INSERT INTO classes (name) VALUES (?) RETURNING id".toList ["x"]
        = .ok { id := none, changes := 1 } :=
  ⟨rfl, by decide, rfl, rfl⟩

theorem run_changes {π ε : Type} (query : List Char → List π → Except ε PgResult)
    (sql : List Char) (params : List π) (result : PgResult)
    (h : query (runStatement sql) params = .ok result) :
    ∃ id, PgDatabase.run ⟨some query⟩ sql params = .ok { id := id, changes := result.rowCount } ∧
      (isInsert sql = false → id = none) ∧
      (isInsert sql = true → id = result.rows.head?.bind fun row => row.lookup "id") := by
  refine ⟨insertedId sql result, by simp [PgDatabase.run, h], ?_, ?_⟩
  · intro hi
    simp [insertedId, hi]
  · intro hi
    cases hr : result.rows <;> simp [insertedId, hi, hr]

/-! ## Reorder: what the updates write -/

theorem setDisplayOrder_eq_map {α : Type} (index id : Nat) (rows : List (Row α)) :
    setDisplayOrder index id rows
      = rows.map fun r => { r with display_order := rankAfter [(index, id)] r.id r.display_order } := by
  unfold setDisplayOrder
  apply List.map_congr_left
  intro r _
  by_cases h : r.id = id <;> simp [rankAfter, h]

theorem applyUpdates_eq_map {α : Type} (updates : List (Nat × Nat)) :
    ∀ rows : List (Row α), applyUpdates updates rows
      = rows.map fun r => { r with display_order := rankAfter updates r.id r.display_order } := by
  induction updates with
  | nil =>
    intro rows
    simp [applyUpdates, rankAfter]
  | cons u us ih =>
    intro rows
    have step : applyUpdates (u :: us) rows = applyUpdates us (setDisplayOrder u.1 u.2 rows) := rfl
    rw [step, ih, setDisplayOrder_eq_map, List.map_map]
    apply List.map_congr_left
    intro r _
    simp [rankAfter]

theorem rankAfter_of_not_mem (updates : List (Nat × Nat)) (id : Nat) :
    ∀ d, id ∉ updates.map Prod.snd → rankAfter updates id d = d := by
  induction updates with
  | nil => intro d _; rfl
  | cons u us ih =>
    intro d h
    have h1 : id ≠ u.2 := fun e => h (by simp [e])
    have h2 : id ∉ us.map Prod.snd := fun e => h (by simp at e ⊢; exact Or.inr e)
    have := ih d h2
    simpa [rankAfter, h1] using this

theorem rankAfter_of_mem (updates : List (Nat × Nat)) (i id : Nat) :
    ∀ d, (updates.map Prod.snd).Nodup → (i, id) ∈ updates → rankAfter updates id d = i := by
  induction updates with
  | nil => intro d _ h; simp at h
  | cons u us ih =>
    intro d hnd hmem
    rw [List.map_cons, List.nodup_cons] at hnd
    rcases List.mem_cons.1 hmem with h | h
    · subst h
      have := rankAfter_of_not_mem us id i hnd.1
      simpa [rankAfter] using this
    · have hne : id ≠ u.2 := by
        intro e
        apply hnd.1
        rw [← e]
        exact List.mem_map.2 ⟨(i, id), h, rfl⟩
      have := ih d hnd.2 h
      simpa [rankAfter, hne] using this

theorem rankAfter_mem_cases (updates : List (Nat × Nat)) (id : Nat) :
    ∀ d, (id ∉ updates.map Prod.snd ∧ rankAfter updates id d = d) ∨
      (∃ i, (i, id) ∈ updates ∧ ∀ d2, rankAfter updates id d2 = i) := by
  induction updates using List.reverseRecOn with
  | nil => intro d; exact Or.inl ⟨by simp, rfl⟩
  | append_singleton us u ih =>
    intro d
    by_cases h : id = u.2
    · refine Or.inr ⟨u.1, ?_, ?_⟩
      · simp [h]
      · intro d2
        simp [rankAfter, List.foldl_append, h]
    · rcases ih d with ⟨hn, he⟩ | ⟨i, hi, he⟩
      · refine Or.inl ⟨?_, ?_⟩
        · simpa [h] using hn
        · have : rankAfter (us ++ [u]) id d = rankAfter us id d := by
            simp [rankAfter, List.foldl_append, h]
          rw [this, he]
      · refine Or.inr ⟨i, by simp [hi], ?_⟩
        intro d2
        have : rankAfter (us ++ [u]) id d2 = rankAfter us id d2 := by
          simp [rankAfter, List.foldl_append, h]
        rw [this, he]

theorem rankAfter_idem (updates : List (Nat × Nat)) (id d : Nat) :
    rankAfter updates id (rankAfter updates id d) = rankAfter updates id d := by
  rcases rankAfter_mem_cases updates id d with ⟨_, he⟩ | ⟨i, _, he⟩
  · rw [he, he]
  · rw [he, he]

theorem applyUpdates_idem {α : Type} (updates : List (Nat × Nat)) (rows : List (Row α)) :
    applyUpdates updates (applyUpdates updates rows) = applyUpdates updates rows := by
  rw [applyUpdates_eq_map, applyUpdates_eq_map, List.map_map]
  apply List.map_congr_left
  intro r _
  simp [rankAfter_idem]

theorem applyUpdates_perm {α : Type} (updates issued : List (Nat × Nat)) (rows : List (Row α))
    (hnd : (issued.map Prod.snd).Nodup) (hperm : updates.Perm issued) :
    applyUpdates updates rows = applyUpdates issued rows := by
  rw [applyUpdates_eq_map, applyUpdates_eq_map]
  apply List.map_congr_left
  intro r _
  have hnd2 : (updates.map Prod.snd).Nodup := (hperm.map Prod.snd).nodup_iff.2 hnd
  rcases rankAfter_mem_cases issued r.id r.display_order with ⟨hn, he⟩ | ⟨i, hi, he⟩
  · have hn2 : r.id ∉ updates.map Prod.snd := fun h => hn ((hperm.map Prod.snd).mem_iff.1 h)
    rw [he, rankAfter_of_not_mem updates r.id _ hn2]
  · rw [he, rankAfter_of_mem updates i r.id _ hnd2 (hperm.mem_iff.2 hi)]

theorem reorderHandler_snd {α : Type} (msg : String) (fails : Nat → Bool) (order : List Nat)
    (rows : List (Row α)) :
    (reorderHandler msg fails (some order) rows).2
      = applyUpdates (order.enum.filter fun u => !fails u.1) rows := by
  simp only [reorderHandler]
  split <;> rfl

theorem reorderHandler_noFailure {α : Type} (msg : String) (order : List Nat)
    (rows : List (Row α)) :
    reorderHandler msg noFailure (some order) rows
      = (⟨200, .success msg⟩, reorderRows order rows) := by
  simp [reorderHandler, noFailure, reorderRows]

theorem reorderRows_position {α : Type} (order : List Nat) (hnd : order.Nodup)
    (rows : List (Row α)) (i : Nat) (r : Row α) (hr : r ∈ reorderRows order rows)
    (hi : order[i]? = some r.id) : r.display_order = i := by
  unfold reorderRows at hr
  rw [applyUpdates_eq_map] at hr
  obtain ⟨r0, _, rfl⟩ := List.mem_map.1 hr
  have hmem : (i, r0.id) ∈ order.enum := List.mk_mem_enum_iff_getElem?.2 hi
  have hnd2 : (order.enum.map Prod.snd).Nodup := by rw [List.enum_map_snd]; exact hnd
  exact rankAfter_of_mem order.enum i r0.id _ hnd2 hmem

theorem map_rankAfter_eq_range (order : List Nat) (hnd : order.Nodup) :
    order.map (fun id => rankAfter order.enum id 0) = List.range order.length := by
  apply List.ext_getElem
  · simp
  · intro i h1 h2
    have hi : i < order.length := by simpa using h1
    have hnd2 : (order.enum.map Prod.snd).Nodup := by rw [List.enum_map_snd]; exact hnd
    have hmem : (i, order[i]) ∈ order.enum :=
      List.mk_mem_enum_iff_getElem?.2 (List.getElem?_eq_getElem hi)
    simp only [List.getElem_map, List.getElem_range]
    exact rankAfter_of_mem order.enum i _ 0 hnd2 hmem

theorem reorderRows_dense {α : Type} (order : List Nat) (hnd : order.Nodup)
    (rows : List (Row α)) (sib : α → Bool)
    (hperm : ((rows.filter fun r => sib r.cols).map fun r => r.id).Perm order) :
    (((reorderRows order rows).filter fun r => sib r.cols).map fun r => r.display_order).Perm
      (List.range order.length) := by
  unfold reorderRows
  rw [applyUpdates_eq_map, List.filter_map, List.map_map]
  have hfilter : (rows.filter ((fun r : Row α => sib r.cols) ∘ fun r =>
      { r with display_order := rankAfter order.enum r.id r.display_order }))
      = rows.filter fun r => sib r.cols := by
    apply List.filter_congr
    intro r _
    rfl
  rw [hfilter]
  have hmap : (rows.filter fun r => sib r.cols).map
      ((fun r : Row α => r.display_order) ∘ fun r =>
        { r with display_order := rankAfter order.enum r.id r.display_order })
      = ((rows.filter fun r => sib r.cols).map fun r => r.id).map
          (fun id => rankAfter order.enum id 0) := by
    rw [List.map_map]
    apply List.map_congr_left
    intro r hr
    have hin : r.id ∈ order := hperm.mem_iff.1 (List.mem_map.2 ⟨r, hr, rfl⟩)
    rcases rankAfter_mem_cases order.enum r.id r.display_order with ⟨hn, _⟩ | ⟨i, _, he⟩
    · rw [List.enum_map_snd] at hn
      exact absurd hin hn
    · simp only [Function.comp]
      rw [he, he]
  rw [hmap, ← map_rankAfter_eq_range order hnd]
  exact hperm.map _

theorem reorderHandler_frame {α : Type} (msg : String) (fails : Nat → Bool) (order : List Nat)
    (rows : List (Row α)) :
    List.Forall₂ (fun r r2 => r2.id = r.id ∧ r2.cols = r.cols ∧ r2.created_at = r.created_at ∧
        (r.id ∉ order → r2.display_order = r.display_order))
      rows (reorderHandler msg fails (some order) rows).2 := by
  rw [reorderHandler_snd, applyUpdates_eq_map, List.forall₂_map_right_iff, List.forall₂_same]
  intro r _
  refine ⟨rfl, rfl, rfl, ?_⟩
  intro hnot
  apply rankAfter_of_not_mem
  intro hmem
  obtain ⟨u, hu, hsnd⟩ := List.mem_map.1 hmem
  have := List.snd_mem_of_mem_enum (List.mem_of_mem_filter hu)
  rw [hsnd] at this
  exact hnot this

theorem reorderHandler_listed {α : Type} (msg : String) (order : List Nat)
    (rows : List (Row α)) :
    List.Forall₂ (fun r r2 => r.id ∈ order →
        ∃ i, order[i]? = some r.id ∧ r2.display_order = i)
      rows (reorderHandler msg noFailure (some order) rows).2 := by
  rw [reorderHandler_noFailure]
  unfold reorderRows
  rw [applyUpdates_eq_map, List.forall₂_map_right_iff, List.forall₂_same]
  intro r _ hin
  rcases rankAfter_mem_cases order.enum r.id r.display_order with ⟨hn, _⟩ | ⟨i, hi, he⟩
  · rw [List.enum_map_snd] at hn
    exact absurd hin hn
  · exact ⟨i, List.mk_mem_enum_iff_getElem?.1 hi, he _⟩

/-! ## Reorder: positions (C4) -/

/-- C4: for every list of distinct ids, after the class (resp. unit) reorder endpoint has
answered 200, each row whose id stands at position `i` of the list has `display_order = i`;
when the list is a permutation of all class ids (resp. of the ids of the units of one class)
the `display_order` values of those rows are a permutation of `0 .. n-1`. -/
theorem reorder_assigns_positions (order : List Nat) (hnd : order.Nodup)
    (classes : List ClassRow) (units : List UnitRow) :
    ((reorderClasses noFailure (some order) classes).1.status = 200 ∧
      (∀ i r, r ∈ (reorderClasses noFailure (some order) classes).2 →
        order[i]? = some r.id → r.display_order = i) ∧
      ((classes.map fun r => r.id).Perm order →
        ((reorderClasses noFailure (some order) classes).2.map fun r => r.display_order).Perm
          (List.range order.length))) ∧
    ((reorderUnits noFailure (some order) units).1.status = 200 ∧
      (∀ i r, r ∈ (reorderUnits noFailure (some order) units).2 →
        order[i]? = some r.id → r.display_order = i) ∧
      (∀ c, ((units.filter fun u => u.cols.class_id = c).map fun r => r.id).Perm order →
        (((reorderUnits noFailure (some order) units).2.filter
            fun u => u.cols.class_id = c).map fun r => r.display_order).Perm
          (List.range order.length))) := by
  unfold reorderClasses reorderUnits
  rw [reorderHandler_noFailure, reorderHandler_noFailure]
  refine ⟨⟨rfl, ?_, ?_⟩, ⟨rfl, ?_, ?_⟩⟩
  · intro i r hr hi
    exact reorderRows_position order hnd classes i r hr hi
  · intro hperm
    have := reorderRows_dense order hnd classes (fun _ => true) (by simpa using hperm)
    simpa using this
  · intro i r hr hi
    exact reorderRows_position order hnd units i r hr hi
  · intro c hperm
    exact reorderRows_dense order hnd units (fun cols => decide (cols.class_id = c)) hperm

/-- C4 at the list `[2, 1]` over two classes: the ranks written are a permutation of 0, 1. -/
theorem reorder_assigns_positions_witness :
    [2, 1].Nodup ∧
      ((reorderClasses noFailure (some [2, 1]) demoClasses).2.map fun r => r.display_order).Perm
        (List.range [2, 1].length) :=
  ⟨by decide,
    (reorder_assigns_positions [2, 1] (by decide) demoClasses demoUnits).1.2.2
      (List.Perm.swap 2 1 [])⟩

/-! ## Reorder: idempotence (C6) -/

theorem reorderRows_isOutcome {α : Type} (order : List Nat) (rows : List (Row α)) :
    IsReorderOutcome order rows (reorderRows order rows) :=
  ⟨order.enum, List.Perm.refl _, rfl⟩

theorem outcome_of_distinct {α : Type} (order : List Nat) (hnd : order.Nodup)
    (rows after : List (Row α)) (h : IsReorderOutcome order rows after) :
    after = reorderRows order rows := by
  obtain ⟨schedule, hperm, rfl⟩ := h
  exact applyUpdates_perm schedule order.enum rows (by rw [List.enum_map_snd]; exact hnd) hperm

/-- C6, counterexample: the list `[1, 1]` names class 1 twice, so a call issues the updates
`display_order = 0` and `display_order = 1` for the same row together.  When the first call
applies them in the order of issue, class 1 is left with rank 1; when the second call, with
the same list, applies them in the other order, class 1 is left with rank 0: the table after
the second call differs from the table after the first. -/
theorem repeated_id_not_idempotent :
    IsReorderOutcome [1, 1] demoClasses (reorderClasses noFailure (some [1, 1]) demoClasses).2 ∧
      IsReorderOutcome [1, 1] (reorderClasses noFailure (some [1, 1]) demoClasses).2
        (applyUpdates [(1, 1), (0, 1)] (reorderClasses noFailure (some [1, 1]) demoClasses).2) ∧
      ((reorderClasses noFailure (some [1, 1]) demoClasses).2.map
        fun r => (r.id, r.display_order)) = [(1, 1), (2, 0)] ∧
      ((applyUpdates [(1, 1), (0, 1)]
        (reorderClasses noFailure (some [1, 1]) demoClasses).2).map
          fun r => (r.id, r.display_order)) = [(1, 0), (2, 0)] ∧
      applyUpdates [(1, 1), (0, 1)] (reorderClasses noFailure (some [1, 1]) demoClasses).2
        ≠ (reorderClasses noFailure (some [1, 1]) demoClasses).2 :=
  ⟨⟨[(0, 1), (1, 1)], List.Perm.refl _, by decide⟩,
    ⟨[(1, 1), (0, 1)], List.Perm.swap _ _ _, rfl⟩, by decide, by decide, by decide⟩

/-- C6 (amended): for every table state and every list of distinct ids (unknown ids
included), in whatever order the engine applies the updates of each call, every table that a
second reorder call with the same list may leave is the table the first call left, for
classes and for units; that table is the one of the handler, whose second application gives
the same answer and the same table as the first. -/
theorem reorder_idempotent_distinct (order : List Nat) (hnd : order.Nodup)
    (classes : List ClassRow) (units : List UnitRow) :
    (∀ first second, IsReorderOutcome order classes first →
        IsReorderOutcome order first second →
          second = first ∧ first = (reorderClasses noFailure (some order) classes).2) ∧
      (∀ first second, IsReorderOutcome order units first →
        IsReorderOutcome order first second →
          second = first ∧ first = (reorderUnits noFailure (some order) units).2) ∧
      reorderClasses noFailure (some order) (reorderClasses noFailure (some order) classes).2
        = reorderClasses noFailure (some order) classes ∧
      reorderUnits noFailure (some order) (reorderUnits noFailure (some order) units).2
        = reorderUnits noFailure (some order) units := by
  refine ⟨?_, ?_, ?_, ?_⟩
  · intro first second h1 h2
    have e1 := outcome_of_distinct order hnd classes first h1
    have e2 := outcome_of_distinct order hnd first second h2
    refine ⟨?_, ?_⟩
    · rw [e2, e1]
      exact applyUpdates_idem _ _
    · rw [e1]
      unfold reorderClasses
      rw [reorderHandler_noFailure]
  · intro first second h1 h2
    have e1 := outcome_of_distinct order hnd units first h1
    have e2 := outcome_of_distinct order hnd first second h2
    refine ⟨?_, ?_⟩
    · rw [e2, e1]
      exact applyUpdates_idem _ _
    · rw [e1]
      unfold reorderUnits
      rw [reorderHandler_noFailure]
  · unfold reorderClasses
    simp only [reorderHandler_noFailure, reorderRows, applyUpdates_idem]
  · unfold reorderUnits
    simp only [reorderHandler_noFailure, reorderRows, applyUpdates_idem]

/-- C6 (amended) at the list `[2, 99, 1]` over two classes and three units, where no row has
the id 99: a second call leaves what the first call left. -/
theorem reorder_idempotent_distinct_witness :
    [2, 99, 1].Nodup ∧
      (∀ first second, IsReorderOutcome [2, 99, 1] demoClasses first →
        IsReorderOutcome [2, 99, 1] first second →
          second = first ∧
            first = (reorderClasses noFailure (some [2, 99, 1]) demoClasses).2) ∧
      ((reorderClasses noFailure (some [2, 99, 1]) demoClasses).2.map
        fun r => (r.id, r.display_order)) = [(1, 2), (2, 0)] :=
  ⟨by decide, (reorder_idempotent_distinct [2, 99, 1] (by decide) demoClasses demoUnits).1,
    by decide⟩

/-! ## Reorder: frame (C7) -/

/-- C7: a reorder call keeps the rows of the table in place, one for one: every row keeps its
id, its creation time and its other columns, and a row whose id is not in the submitted list
keeps its `display_order` (also when some update fails); a call without an array changes
nothing; and when no update fails every unit whose id is listed gets the position of one of
its occurrences as `display_order`, whatever its `class_id`. -/
theorem reorder_frame (fails : Nat → Bool) (order : List Nat) (classes : List ClassRow)
    (units : List UnitRow) :
    List.Forall₂ (fun r r2 => r2.id = r.id ∧ r2.cols = r.cols ∧ r2.created_at = r.created_at ∧
        (r.id ∉ order → r2.display_order = r.display_order))
      classes (reorderClasses fails (some order) classes).2 ∧
    List.Forall₂ (fun r r2 => r2.id = r.id ∧ r2.cols = r.cols ∧ r2.created_at = r.created_at ∧
        (r.id ∉ order → r2.display_order = r.display_order))
      units (reorderUnits fails (some order) units).2 ∧
    (reorderClasses fails none classes).2 = classes ∧
    (reorderUnits fails none units).2 = units ∧
    List.Forall₂ (fun r r2 => r.id ∈ order →
        ∃ i, order[i]? = some r.id ∧ r2.display_order = i)
      units (reorderUnits noFailure (some order) units).2 :=
  ⟨reorderHandler_frame _ fails order classes, reorderHandler_frame _ fails order units,
    rfl, rfl, reorderHandler_listed _ order units⟩

/-! ## Reorder: no rollback (C8) -/

/-- C8: there are a table, an id list and a single failing update for which the class
(resp. unit) reorder endpoint answers 500 and the table is not what it was before the call:
the rank written by the update that went through is in it. -/
theorem reorder_not_atomic :
    (∃ (classes : List ClassRow) (order : List Nat) (fails : Nat → Bool),
      (order.enum.filter fun u => fails u.1).length = 1 ∧
      (reorderClasses fails (some order) classes).1.status = 500 ∧
      (reorderClasses fails (some order) classes).2 ≠ classes ∧
      (reorderClasses fails (some order) classes).2
        = applyUpdates (order.enum.filter fun u => !fails u.1) classes) ∧
    (∃ (units : List UnitRow) (order : List Nat) (fails : Nat → Bool),
      (order.enum.filter fun u => fails u.1).length = 1 ∧
      (reorderUnits fails (some order) units).1.status = 500 ∧
      (reorderUnits fails (some order) units).2 ≠ units ∧
      (reorderUnits fails (some order) units).2
        = applyUpdates (order.enum.filter fun u => !fails u.1) units) :=
  ⟨⟨demoClasses, [1, 2], fun i => decide (i = 0), by decide, by decide, by decide,
      reorderHandler_snd _ _ _ _⟩,
    ⟨demoUnits, [3, 2], fun i => decide (i = 0), by decide, by decide, by decide,
      reorderHandler_snd _ _ _ _⟩⟩

/-! ## Reorder followed by a list query (C5) -/

theorem listed_in_order {α : Type} (order : List Nat) (hnd : order.Nodup)
    (result : List (Row α))
    (hsorted : result.Pairwise fun a b => a.display_order ≤ b.display_order)
    (hids : (result.map fun r => r.id).Nodup)
    (hpos : ∀ i r, r ∈ result → order[i]? = some r.id → r.display_order = i)
    (hall : ∀ id ∈ order, id ∈ result.map fun r => r.id) :
    (result.map fun r => r.id).filter (fun id => decide (id ∈ order)) = order := by
  let R : Nat → Nat → Prop := fun a b => order.indexOf a < order.indexOf b ∨ a = b
  haveI : IsAntisymm Nat R := ⟨by
    intro a b hab hba
    rcases hab with h1 | h1
    · rcases hba with h2 | h2
      · omega
      · exact h2.symm
    · exact h1⟩
  have hperm : ((result.map fun r => r.id).filter (fun id => decide (id ∈ order))).Perm order := by
    rw [List.perm_ext_iff_of_nodup (hids.filter _) hnd]
    intro a
    simp only [List.mem_filter, decide_eq_true_eq]
    exact ⟨fun h => h.2, fun h => ⟨hall a h, h⟩⟩
  have hs2 : order.Pairwise R := by
    rw [List.pairwise_iff_getElem]
    intro i j hi hj hij
    left
    rw [List.indexOf_getElem hnd i hi, List.indexOf_getElem hnd j hj]
    exact hij
  have hs1 : ((result.map fun r => r.id).filter (fun id => decide (id ∈ order))).Pairwise R := by
    rw [List.pairwise_filter, List.pairwise_map]
    have hne : result.Pairwise fun a b => a.id ≠ b.id := by
      have := hids
      rw [List.Nodup, List.pairwise_map] at this
      exact this
    refine List.Pairwise.imp_of_mem ?_ (hsorted.and hne)
    intro a b ha hb hab hao hbo
    have hao2 : a.id ∈ order := by simpa using hao
    have hbo2 : b.id ∈ order := by simpa using hbo
    have ea := hpos _ a ha (List.getElem?_indexOf hao2)
    have eb := hpos _ b hb (List.getElem?_indexOf hbo2)
    left
    have hle : order.indexOf a.id ≤ order.indexOf b.id := by
      rw [← ea, ← eb]
      exact hab.1
    rcases Nat.lt_or_eq_of_le hle with h | h
    · exact h
    · exfalso
      apply hab.2
      have h1 := List.getElem?_indexOf hao2
      have h2 := List.getElem?_indexOf hbo2
      rw [h] at h1
      rw [h1] at h2
      exact Option.some.inj h2
  exact List.eq_of_perm_of_sorted hperm hs1 hs2

theorem classBefore_le {a b : ClassRow} (h : classBefore a b) :
    a.display_order ≤ b.display_order := by
  rcases h with h | h
  · exact Nat.le_of_lt h
  · exact Nat.le_of_eq h.1

theorem unitBefore_le {a b : UnitRow} (h : unitBefore a b) :
    a.display_order ≤ b.display_order := by
  rcases h with h | h
  · exact Nat.le_of_lt h
  · exact Nat.le_of_eq h.1

theorem reorderRows_map_id {α : Type} (order : List Nat) (rows : List (Row α)) :
    ((reorderRows order rows).map fun r => r.id) = rows.map fun r => r.id := by
  unfold reorderRows
  rw [applyUpdates_eq_map, List.map_map]
  rfl

theorem reorderRows_filter_cols {α : Type} (order : List Nat) (rows : List (Row α))
    (sib : α → Bool) :
    (((reorderRows order rows).filter fun r => sib r.cols).map fun r => r.id)
      = (rows.filter fun r => sib r.cols).map fun r => r.id := by
  unfold reorderRows
  rw [applyUpdates_eq_map, List.filter_map, List.map_map]
  rfl

theorem filter_mem_eq_self (ids order : List Nat) (h : ids.Perm order) :
    ids.filter (fun id => decide (id ∈ order)) = ids := by
  rw [List.filter_eq_self]
  intro a ha
  simpa using h.mem_iff.1 ha

theorem getClasses_isClassList (classes : List ClassRow) :
    ∃ result, getClasses classes = ⟨200, .rows result⟩ ∧ IsClassList classes result :=
  ⟨_, rfl, List.perm_insertionSort _ _, List.sorted_insertionSort _ _⟩

theorem getUnitsOfClass_isUnitList (classId : Nat) (units : List UnitRow) :
    ∃ result, getUnitsOfClass classId units = ⟨200, .rows result⟩ ∧
      IsUnitList classId units result :=
  ⟨_, rfl, List.perm_insertionSort _ _, List.sorted_insertionSort _ _⟩

/-- C5: let `order` be a list of distinct ids of existing classes, submitted to the class
reorder endpoint, and let `cresult` be an answer to the class list query on the table the
call leaves.  Then the listed classes come out in exactly the submitted relative order, and
the whole answer is the submitted sequence when the list holds every class.  The same holds
for a list of distinct ids of units of the class `c` and an answer `uresult` to the query of
`GET /api/units/class/c`. -/
theorem reorder_then_list (order : List Nat) (hnd : order.Nodup)
    (classes cresult : List ClassRow)
    (hckey : (classes.map fun r => r.id).Nodup)
    (hcall : ∀ id ∈ order, id ∈ classes.map fun r => r.id)
    (hclist : IsClassList (reorderClasses noFailure (some order) classes).2 cresult)
    (c : Nat) (units uresult : List UnitRow)
    (hukey : (units.map fun r => r.id).Nodup)
    (huall : ∀ id ∈ order, ∃ u ∈ units, u.id = id ∧ u.cols.class_id = c)
    (hulist : IsUnitList c (reorderUnits noFailure (some order) units).2 uresult) :
    ((cresult.map fun r => r.id).filter (fun id => decide (id ∈ order)) = order ∧
      ((classes.map fun r => r.id).Perm order → (cresult.map fun r => r.id) = order)) ∧
    ((uresult.map fun r => r.id).filter (fun id => decide (id ∈ order)) = order ∧
      (((units.filter fun u => u.cols.class_id = c).map fun r => r.id).Perm order →
        (uresult.map fun r => r.id) = order)) := by
  unfold reorderClasses at hclist
  unfold reorderUnits at hulist
  rw [reorderHandler_noFailure] at hclist hulist
  obtain ⟨hcperm, hcsorted⟩ := hclist
  obtain ⟨huperm, husorted⟩ := hulist
  have hcids : (cresult.map fun r => r.id).Perm (classes.map fun r => r.id) := by
    rw [← reorderRows_map_id order classes]
    exact hcperm.map _
  have huids : (uresult.map fun r => r.id).Perm
      ((units.filter fun u => u.cols.class_id = c).map fun r => r.id) := by
    rw [← reorderRows_filter_cols order units (fun cols => decide (cols.class_id = c))]
    exact huperm.map _
  have hc : (cresult.map fun r => r.id).filter (fun id => decide (id ∈ order)) = order := by
    apply listed_in_order order hnd cresult (hcsorted.imp classBefore_le)
      (hcids.nodup_iff.2 hckey)
    · intro i r hr hi
      exact reorderRows_position order hnd classes i r (hcperm.mem_iff.1 hr) hi
    · intro id hid
      exact hcids.mem_iff.2 (hcall id hid)
  have hu : (uresult.map fun r => r.id).filter (fun id => decide (id ∈ order)) = order := by
    apply listed_in_order order hnd uresult (husorted.imp unitBefore_le)
      (huids.nodup_iff.2 (hukey.sublist ((List.filter_sublist _).map _)))
    · intro i r hr hi
      exact reorderRows_position order hnd units i r
        (List.mem_of_mem_filter (huperm.mem_iff.1 hr)) hi
    · intro id hid
      obtain ⟨u, hu, hid2, hcls⟩ := huall id hid
      apply huids.mem_iff.2
      exact List.mem_map.2 ⟨u, List.mem_filter.2 ⟨hu, by simpa using hcls⟩, hid2⟩
  refine ⟨⟨hc, ?_⟩, ⟨hu, ?_⟩⟩
  · intro hp
    rw [← filter_mem_eq_self _ order (hcids.trans hp)]
    exact hc
  · intro hp
    rw [← filter_mem_eq_self _ order (huids.trans hp)]
    exact hu

/-- C5 at the list `[2, 1]`: two classes, and the two units of class 1, come back in the
order 2, 1 from the list queries over an engine that sorts by insertion. -/
theorem reorder_then_list_witness :
    [2, 1].Nodup ∧
      (((reorderClasses noFailure (some [2, 1]) demoClasses).2.insertionSort classBefore).map
        fun r => r.id) = [2, 1] ∧
      ((((reorderUnits noFailure (some [2, 1]) demoUnits).2.filter
          fun u => u.cols.class_id = 1).insertionSort unitBefore).map fun r => r.id)
        = [2, 1] :=
  have h := reorder_then_list [2, 1] (by decide) demoClasses
    ((reorderClasses noFailure (some [2, 1]) demoClasses).2.insertionSort classBefore)
    (by decide) (by decide)
    ⟨List.perm_insertionSort _ _, List.sorted_insertionSort _ _⟩
    1 demoUnits
    (((reorderUnits noFailure (some [2, 1]) demoUnits).2.filter
      fun u => u.cols.class_id = 1).insertionSort unitBefore)
    (by decide) (by decide)
    ⟨List.perm_insertionSort _ _, List.sorted_insertionSort _ _⟩
  ⟨by decide, h.1.2 (List.Perm.swap 2 1 []), h.2.2 (List.Perm.swap 2 1 [])⟩

/-! ## Creating a unit (C9) -/

theorem jsTrim_nil : jsTrim [] = [] := rfl

theorem le_foldr_max (l : List Nat) (a : Nat) (h : a ∈ l) : a ≤ l.foldr max 0 := by
  induction l with
  | nil => simp at h
  | cons b l ih =>
    rcases List.mem_cons.1 h with rfl | h
    · simp
    · have := ih h
      simp only [List.foldr_cons]
      omega

theorem id_lt_nextId (units : List UnitRow) (u : UnitRow) (h : u ∈ units) :
    u.id < nextId units := by
  have := le_foldr_max (units.map fun u => u.id) u.id (List.mem_map.2 ⟨u, h, rfl⟩)
  unfold nextId
  omega

theorem find_appended (units : List UnitRow) (row : UnitRow) (h : row.id = nextId units) :
    (units ++ [row]).find? (fun u => decide (u.id = row.id)) = some row := by
  rw [List.find?_append]
  have hnone : units.find? (fun u => decide (u.id = row.id)) = none := by
    rw [List.find?_eq_none]
    intro u hu
    have := id_lt_nextId units u hu
    simp only [decide_eq_true_eq]
    omega
  rw [hnone]
  simp

/-- C9: for a class id that parses to an existing class `c` and a title string `t` whose
trimmed form is non-empty and Arabic-only, create-unit answers 409 with code
`DUPLICATE_UNIT_TITLE` and leaves the store as it is when a unit with the triple
`(c, trimmed t, String(term || '1'))` exists, and otherwise answers 201 with the new row and
appends exactly that one row, for class `c` and with the trimmed title, to the units. -/
theorem createUnit_duplicate_or_created (rt : Runtime) (now : Nat) (body : UnitBody)
    (s : Store) (c : Nat) (t : List Char)
    (hclass : parsePositiveInteger rt body.class_id = some c)
    (hexists : ∃ cl ∈ s.classes, cl.id = c)
    (htitle : body.title = .str t)
    (hne : jsTrim t ≠ [])
    (harabic : arabicOnly (jsTrim t) = true) :
    ((∃ u ∈ s.units, unitKey u = (c, jsTrim t, jsString (jsOr body.term (.str ['1'])))) →
      (createUnit rt now body s).1.status = 409 ∧
      (∃ message, (createUnit rt now body s).1.body
        = .error message (some "DUPLICATE_UNIT_TITLE")) ∧
      (createUnit rt now body s).2 = s) ∧
    ((¬ ∃ u ∈ s.units, unitKey u = (c, jsTrim t, jsString (jsOr body.term (.str ['1'])))) →
      ∃ row : UnitRow,
        createUnit rt now body s
          = (⟨201, .row (some row)⟩, { s with units := s.units ++ [row] }) ∧
        row.cols.class_id = c ∧ row.cols.title = jsTrim t ∧
        (∀ u ∈ s.units, u.id ≠ row.id)) := by
  have htruthy : (JsVal.str t).truthy = true := by
    have : t ≠ [] := fun e => hne (by rw [e]; rfl)
    simp [JsVal.truthy, this]
  have hcl : s.classes.any (fun cl => decide (cl.id = c)) = true := by
    obtain ⟨cl, hcl, hid⟩ := hexists
    exact List.any_eq_true.2 ⟨cl, hcl, by simpa using hid⟩
  have hkey : s.units.any (fun u => decide (u.cols.class_id = c ∧ u.cols.title = jsTrim t ∧
      u.cols.term = rt.textOfParam (.str (jsString (jsOr body.term (.str ['1'])))))) = true ↔
      ∃ u ∈ s.units, unitKey u = (c, jsTrim t, jsString (jsOr body.term (.str ['1']))) := by
    rw [List.any_eq_true]
    constructor
    · rintro ⟨u, hu, h⟩
      simp only [decide_eq_true_eq] at h
      exact ⟨u, hu, by simp [unitKey, h.1, h.2.1, h.2.2, Runtime.textOfParam]⟩
    · rintro ⟨u, hu, h⟩
      simp only [unitKey, Prod.mk.injEq] at h
      exact ⟨u, hu, by simp [h.1, h.2.1, h.2.2, Runtime.textOfParam]⟩
  constructor
  · intro hdup
    have hany := hkey.2 hdup
    have hrun : createUnit rt now body s
        = (duplicateUnitTitle (jsOr body.term (.str ['1'])), s) := by
      simp only [createUnit, hclass, htruthy, htitle, hne, harabic, hcl, hany, Bool.not_true,
        Bool.false_eq_true, if_false, if_true]
    rw [hrun]
    exact ⟨rfl, ⟨_, rfl⟩, rfl⟩
  · intro hnodup
    have hany : s.units.any (fun u => decide (u.cols.class_id = c ∧ u.cols.title = jsTrim t ∧
        u.cols.term = rt.textOfParam (.str (jsString (jsOr body.term (.str ['1'])))))) = false := by
      rw [Bool.eq_false_iff]
      exact fun h => hnodup (hkey.1 h)
    refine ⟨{ id := nextId s.units, display_order := 0, created_at := now,
              cols := { class_id := c, title := jsTrim t,
                        category := validCategory body.category,
                        term := rt.textOfParam (jsOr body.term (.str ['1'])) } }, ?_, rfl, rfl, ?_⟩
    · simp only [createUnit, hclass, htruthy, htitle, hne, harabic, hcl, hany, Bool.not_true,
        Bool.false_eq_true, if_false]
      rw [find_appended s.units ⟨nextId s.units, 0, now, _⟩ rfl]
    · intro u hu
      have := id_lt_nextId s.units u hu
      simp only
      omega

/-- C9 at a first unit for class 1: no unit exists, so the unit is created. -/
theorem createUnit_duplicate_or_created_witness :
    parsePositiveInteger embeddedRuntime (unitBodyWithTerm (.str ['2'])).class_id = some 1 ∧
      ∃ row : UnitRow,
        createUnit embeddedRuntime 50 (unitBodyWithTerm (.str ['2'])) oneClassStore
          = (⟨201, .row (some row)⟩,
              { oneClassStore with units := oneClassStore.units ++ [row] }) ∧
        row.cols.class_id = 1 ∧ row.cols.title = jsTrim "أ".toList ∧
        (∀ u ∈ oneClassStore.units, u.id ≠ row.id) :=
  ⟨by decide,
    (createUnit_duplicate_or_created embeddedRuntime 50 (unitBodyWithTerm (.str ['2']))
      oneClassStore 1 "أ".toList (by decide) ⟨⟨1, 0, 10, ⟨"أ".toList⟩⟩, by decide, rfl⟩ rfl
      (by decide) (by decide)).2 (by simp [oneClassStore])⟩

/-! ## Uniqueness of the triple (C10) -/

/-- C10, the code at the failing input.  Over the embedded engine, whose driver binds `true`
as the integer 1, two create requests for class 1 with the same title and `term: true` are
both answered 201 and leave two units with the triple `(1, أ, 1)`.  Over the networked
engine, whose driver sends an object as its JSON text, the same happens with `term` an empty
object.  The store before had no unit at all. -/
theorem createUnit_breaks_uniqueness :
    StoreOk oneClassStore ∧
    (createUnit embeddedRuntime 50 (unitBodyWithTerm (.bool true)) oneClassStore).1.status = 201 ∧
    (createUnit embeddedRuntime 60 (unitBodyWithTerm (.bool true))
      (createUnit embeddedRuntime 50 (unitBodyWithTerm (.bool true)) oneClassStore).2).1.status
        = 201 ∧
    ¬ UniqueTriples (handleUnitRequests embeddedRuntime oneClassStore
      [.create 50 (unitBodyWithTerm (.bool true)),
       .create 60 (unitBodyWithTerm (.bool true))]).units ∧
    ¬ UniqueTriples (handleUnitRequests networkedRuntime oneClassStore
      [.create 50 (unitBodyWithTerm (.obj ['\x7b', '\x7d'])),
       .create 60 (unitBodyWithTerm (.obj ['\x7b', '\x7d']))]).units := by
  refine ⟨⟨by decide, by decide⟩, by decide, by decide, by decide, by decide⟩

theorem createUnit_cases (rt : Runtime) (now : Nat) (body : UnitBody) (s : Store) :
    (createUnit rt now body s).2 = s ∨
    ∃ c t, (createUnit rt now body s).2
        = { s with units := s.units ++ [⟨nextId s.units, 0, now,
            ⟨c, t, validCategory body.category, rt.textOfParam (jsOr body.term (.str ['1']))⟩⟩] } ∧
      ∀ u ∈ s.units, ¬ (u.cols.class_id = c ∧ u.cols.title = t ∧
        u.cols.term = jsString (jsOr body.term (.str ['1']))) := by
  unfold createUnit
  split
  · exact Or.inl rfl
  · rename_i c _
    split
    · exact Or.inl rfl
    · split
      · rename_i t _
        split
        · exact Or.inl rfl
        · split
          · exact Or.inl rfl
          · split
            · exact Or.inl rfl
            · split
              · exact Or.inl rfl
              · rename_i hany
                refine Or.inr ⟨c, jsTrim t, rfl, ?_⟩
                intro u hu hkey
                apply hany
                rw [List.any_eq_true]
                exact ⟨u, hu, by simpa [Runtime.textOfParam] using hkey⟩
      · exact Or.inl rfl

theorem updateUnit_cases (rt : Runtime) (idParam : JsVal) (body : UnitBody) (s : Store) :
    (updateUnit rt idParam body s).2 = s ∨
    ∃ id c t, (updateUnit rt idParam body s).2
        = { s with units := s.units.map fun u =>
            if u.id = id then
              { u with cols := ⟨c, t, validCategory body.category,
                  rt.textOfParam (jsOr body.term (.str ['1']))⟩ }
            else u } ∧
      ∀ u ∈ s.units, ¬ (u.cols.class_id = c ∧ u.cols.title = t ∧
        u.cols.term = rt.textOfParam (jsOr body.term (.str ['1'])) ∧ u.id ≠ id) := by
  unfold updateUnit
  split
  · exact Or.inl rfl
  · rename_i id _
    split
    · exact Or.inl rfl
    · rename_i c _
      split
      · exact Or.inl rfl
      · split
        · rename_i t _
          split
          · exact Or.inl rfl
          · split
            · exact Or.inl rfl
            · split
              · exact Or.inl rfl
              · split
                · exact Or.inl rfl
                · rename_i hany
                  have hno : ∀ u ∈ s.units, ¬ (u.cols.class_id = c ∧ u.cols.title = jsTrim t ∧
                      u.cols.term = rt.textOfParam (jsOr body.term (.str ['1'])) ∧ u.id ≠ id) := by
                    intro u hu hkey
                    apply hany
                    rw [List.any_eq_true]
                    exact ⟨u, hu, by simpa using hkey⟩
                  split
                  · exact Or.inr ⟨id, c, jsTrim t, rfl, hno⟩
                  · exact Or.inr ⟨id, c, jsTrim t, rfl, hno⟩
        · exact Or.inl rfl

theorem createUnit_preserves (rt : Runtime) (now : Nat) (body : UnitBody) (s : Store)
    (hterm : TermBoundAsString rt (.create now body)) (hok : StoreOk s) :
    StoreOk (createUnit rt now body s).2 := by
  rcases createUnit_cases rt now body s with h | ⟨c, t, h, hno⟩
  · rw [h]
    exact hok
  · rw [h]
    obtain ⟨hids, hkeys⟩ := hok
    constructor
    · simp only [List.map_append, List.map_cons, List.map_nil]
      rw [List.nodup_append]
      refine ⟨hids, by simp, ?_⟩
      intro a ha hb
      obtain ⟨u, hu, rfl⟩ := List.mem_map.1 ha
      have := id_lt_nextId s.units u hu
      simp only [List.mem_singleton] at hb
      omega
    · unfold UniqueTriples at hkeys ⊢
      simp only [List.map_append, List.map_cons, List.map_nil]
      rw [List.nodup_append]
      refine ⟨hkeys, by simp, ?_⟩
      intro k hk hb
      obtain ⟨u, hu, rfl⟩ := List.mem_map.1 hk
      simp only [List.mem_singleton, unitKey, Prod.mk.injEq] at hb
      apply hno u hu
      refine ⟨hb.1, hb.2.1, ?_⟩
      rw [hb.2.2]
      exact hterm

theorem updateUnit_preserves (rt : Runtime) (idParam : JsVal) (body : UnitBody) (s : Store)
    (hok : StoreOk s) : StoreOk (updateUnit rt idParam body s).2 := by
  rcases updateUnit_cases rt idParam body s with h | ⟨id, c, t, h, hno⟩
  · rw [h]
    exact hok
  · rw [h]
    obtain ⟨hids, hkeys⟩ := hok
    constructor
    · have : (List.map (fun u : UnitRow => u.id) (s.units.map fun u =>
          if u.id = id then
            { u with cols := ⟨c, t, validCategory body.category,
                rt.textOfParam (jsOr body.term (.str ['1']))⟩ }
          else u)) = s.units.map fun u => u.id := by
        rw [List.map_map]
        apply List.map_congr_left
        intro u _
        by_cases hu : u.id = id <;> simp [hu]
      simp only [this]
      exact hids
    · unfold UniqueTriples at hkeys ⊢
      simp only [List.map_map]
      apply List.Nodup.map_on _ (List.Nodup.of_map _ hids)
      intro x hx y hy hxy
      by_cases hxi : x.id = id <;> by_cases hyi : y.id = id
      · exact List.inj_on_of_nodup_map hids hx hy (hxi.trans hyi.symm)
      · exfalso
        simp only [Function.comp, hxi, hyi, if_true, if_false, unitKey, Prod.mk.injEq] at hxy
        exact hno y hy ⟨hxy.1.symm, hxy.2.1.symm, hxy.2.2.symm, hyi⟩
      · exfalso
        simp only [Function.comp, hxi, hyi, if_true, if_false, unitKey, Prod.mk.injEq] at hxy
        exact hno x hx ⟨hxy.1, hxy.2.1, hxy.2.2, hxi⟩
      · simp only [Function.comp, hxi, hyi, if_false] at hxy
        exact List.inj_on_of_nodup_map hkeys hx hy hxy

theorem handleUnitRequests_preserves (rt : Runtime) (requests : List UnitRequest) :
    ∀ s : Store, (∀ r ∈ requests, TermBoundAsString rt r) → StoreOk s →
      StoreOk (handleUnitRequests rt s requests) := by
  induction requests with
  | nil => intro s _ hok; exact hok
  | cons r rs ih =>
    intro s hreq hok
    have hr := hreq r (List.mem_cons_self _ _)
    have hstep : StoreOk (handleUnitRequest rt s r) := by
      cases r with
      | create now body => exact createUnit_preserves rt now body s hr hok
      | update idParam body => exact updateUnit_preserves rt idParam body s hok
    exact ih _ (fun r2 h2 => hreq r2 (List.mem_cons_of_mem _ h2)) hstep

theorem termBoundAsString_of_string (rt : Runtime) (now : Nat) (body : UnitBody)
    (h : (∃ t, body.term = .str t) ∨ body.term.truthy = false) :
    TermBoundAsString rt (.create now body) := by
  show rt.textOfParam (jsOr body.term (.str ['1'])) = jsString (jsOr body.term (.str ['1']))
  rcases h with ⟨t, ht⟩ | hf
  · rw [ht]
    by_cases hn : t = []
    · simp [jsOr, JsVal.truthy, hn, Runtime.textOfParam, jsString]
    · simp [jsOr, JsVal.truthy, hn, Runtime.textOfParam, jsString]
  · simp [jsOr, hf, Runtime.textOfParam, jsString]

/-! ## Columns of a written unit (C11) -/

/-- C11, the code at the failing input: over a store with class 1, create-unit with
`term: "3"` is answered 201 and writes a unit whose term is `3`; update-unit with
`term: "3"` on a unit created in term `1` is answered 200 and leaves it with term `3`. -/
theorem unit_term_not_enumerated :
    (createUnit embeddedRuntime 50 (unitBodyWithTerm (.str ['3'])) oneClassStore).1.status = 201 ∧
    ((createUnit embeddedRuntime 50 (unitBodyWithTerm (.str ['3'])) oneClassStore).2.units.map
      fun u => u.cols.term) = [['3']] ∧
    (updateUnit embeddedRuntime (.str ['1']) (unitBodyWithTerm (.str ['3']))
      (createUnit embeddedRuntime 50 (unitBodyWithTerm (.str ['1'])) oneClassStore).2).1.status
        = 200 ∧
    ((updateUnit embeddedRuntime (.str ['1']) (unitBodyWithTerm (.str ['3']))
      (createUnit embeddedRuntime 50 (unitBodyWithTerm (.str ['1'])) oneClassStore).2).2.units.map
        fun u => u.cols.term) = [['3']] := by
  decide

theorem validCategory_cases (category : JsVal) :
    (validCategory category = ['P'] ∧ category ≠ .str ['Z']) ∨
      (validCategory category = ['Z'] ∧ category = .str ['Z']) := by
  unfold validCategory
  by_cases h : category = .str ['Z']
  · exact Or.inr ⟨by simp [h], h⟩
  · exact Or.inl ⟨by simp [h], h⟩

theorem createUnit_written (rt : Runtime) (now : Nat) (body : UnitBody) (s : Store) :
    ∀ u ∈ (createUnit rt now body s).2.units, u ∈ s.units ∨
      (u.cols.category = validCategory body.category ∧
        u.cols.term = rt.textOfParam (jsOr body.term (.str ['1']))) := by
  intro u hu
  rcases createUnit_cases rt now body s with h | ⟨c, t, h, _⟩
  · rw [h] at hu
    exact Or.inl hu
  · rw [h] at hu
    rcases List.mem_append.1 hu with h1 | h1
    · exact Or.inl h1
    · simp only [List.mem_singleton] at h1
      subst h1
      exact Or.inr ⟨rfl, rfl⟩

theorem updateUnit_written (rt : Runtime) (idParam : JsVal) (body : UnitBody) (s : Store) :
    ∀ u ∈ (updateUnit rt idParam body s).2.units, u ∈ s.units ∨
      (u.cols.category = validCategory body.category ∧
        u.cols.term = rt.textOfParam (jsOr body.term (.str ['1']))) := by
  intro u hu
  rcases updateUnit_cases rt idParam body s with h | ⟨id, c, t, h, _⟩
  · rw [h] at hu
    exact Or.inl hu
  · rw [h] at hu
    obtain ⟨u0, hu0, rfl⟩ := List.mem_map.1 hu
    by_cases hid : u0.id = id
    · rw [if_pos hid]
      exact Or.inr ⟨rfl, rfl⟩
    · rw [if_neg hid]
      exact Or.inl hu0

theorem term_default_of_missing (rt : Runtime) (term : JsVal) (h : term.truthy = false) :
    rt.textOfParam (jsOr term (.str ['1'])) = ['1'] := by
  simp [jsOr, h, Runtime.textOfParam]

/-! ## The parent of a created row (C12) -/

/-- C12, the code at the failing input: the store has no lesson 999, yet the create-question
handler on `/api/lessons/999/questions` with a well-formed body answers 201 and inserts a
question with `lesson_id = 999`. -/
theorem question_created_without_lesson :
    (∀ l ∈ oneSubtreeSchool.lessons, l.id ≠ 999) ∧
    (createQuestion embeddedRuntime asciiUpperCase 70 (.str "999".toList) demoQuestionBody
      oneSubtreeSchool).1.status = 201 ∧
    ((createQuestion embeddedRuntime asciiUpperCase 70 (.str "999".toList) demoQuestionBody
      oneSubtreeSchool).2.questions.map fun q => q.lesson_id) = [1, 999] := by
  decide

theorem createUnit_parent_absent (rt : Runtime) (now : Nat) (body : UnitBody) (s : Store)
    (c : Nat) (hparse : parsePositiveInteger rt body.class_id = some c)
    (habsent : ∀ cl ∈ s.classes, cl.id ≠ c) :
    (createUnit rt now body s).2 = s ∧
      (∀ t, body.title = .str t → jsTrim t ≠ [] → arabicOnly (jsTrim t) = true →
        (createUnit rt now body s).1
          = ⟨404, .error "الصف الدراسي غير موجود" (some "CLASS_NOT_FOUND")⟩) := by
  have hany : s.classes.any (fun cl => decide (cl.id = c)) = false := by
    rw [Bool.eq_false_iff]
    intro h
    obtain ⟨cl, hcl, hid⟩ := List.any_eq_true.1 h
    exact habsent cl hcl (by simpa using hid)
  constructor
  · unfold createUnit
    rw [hparse]
    simp only [hany]
    split
    · rfl
    · split
      · split
        · rfl
        · split
          · rfl
          · rfl
      · rfl
  · intro t ht hne har
    have htruthy : (JsVal.str t).truthy = true := by
      have : t ≠ [] := fun e => hne (by rw [e]; rfl)
      simp [JsVal.truthy, this]
    simp [createUnit, hparse, ht, htruthy, hne, har, hany]

theorem createLesson_parent_absent (rt : Runtime) (now : Nat) (body : LessonBody) (s : School)
    (u : Nat) (hparse : parsePositiveInteger rt body.unit_id = some u)
    (habsent : ∀ un ∈ s.units, un.id ≠ u) :
    (createLesson rt now body s).2 = s ∧
      (∀ t, body.title = .str t → jsTrim t ≠ [] → arabicOnly (jsTrim t) = true →
        (createLesson rt now body s).1
          = ⟨404, .error "الوحدة الدراسية غير موجودة" (some "UNIT_NOT_FOUND")⟩) := by
  have hany : s.units.any (fun un => decide (un.id = u)) = false := by
    rw [Bool.eq_false_iff]
    intro h
    obtain ⟨un, hun, hid⟩ := List.any_eq_true.1 h
    exact habsent un hun (by simpa using hid)
  constructor
  · unfold createLesson
    rw [hparse]
    simp only [hany]
    split
    · rfl
    · split
      · split
        · rfl
        · split
          · rfl
          · rfl
      · rfl
  · intro t ht hne har
    have htruthy : (JsVal.str t).truthy = true := by
      have : t ≠ [] := fun e => hne (by rw [e]; rfl)
      simp [JsVal.truthy, this]
    simp [createLesson, hparse, ht, htruthy, hne, har, hany]

/-! ## Deleting a class (C14) -/

/-- C14, the code at the failing input: a class with one unit, one lesson, one video, one
image and one question is deleted.  Under the schema declared for the networked dialect the
answer is 200 and the unit and the lesson are gone, but the video, the image and the
question of the deleted lesson are still there; under the schema declared for the embedded
dialect nothing of the subtree is left. -/
theorem deleteClass_leaves_media :
    (deleteClass networkedRuntime true (.str ['1']) oneSubtreeSchool).1.status = 200 ∧
    (deleteClass networkedRuntime true (.str ['1']) oneSubtreeSchool).2
      = { oneSubtreeSchool with classes := [], units := [], lessons := [] } ∧
    (deleteClass embeddedRuntime false (.str ['1']) oneSubtreeSchool).2
      = { classes := [], units := [], lessons := [], videos := [], images := [],
          questions := [] } := by
  decide

theorem deleteClassRows_embedded_eq (id : Nat) (s : School) :
    deleteClassRows (declaredCascades false) id s
      = { classes := s.classes.filter fun c => c.id ≠ id,
          units := s.units.filter fun u => u ∉ s.units.filter fun u =>
            u.cols.class_id ∈ (s.classes.filter fun c => c.id = id).map fun c => c.id,
          lessons := s.lessons.filter fun l => l ∉ s.lessons.filter fun l =>
            l.unit_id ∈ (s.units.filter fun u =>
              u.cols.class_id ∈ (s.classes.filter fun c => c.id = id).map fun c => c.id).map
                fun u => u.id,
          videos := s.videos.filter fun r => r.lesson_id ∉ (s.lessons.filter fun l =>
            l.unit_id ∈ (s.units.filter fun u =>
              u.cols.class_id ∈ (s.classes.filter fun c => c.id = id).map fun c => c.id).map
                fun u => u.id).map fun l => l.id,
          images := s.images.filter fun r => r.lesson_id ∉ (s.lessons.filter fun l =>
            l.unit_id ∈ (s.units.filter fun u =>
              u.cols.class_id ∈ (s.classes.filter fun c => c.id = id).map fun c => c.id).map
                fun u => u.id).map fun l => l.id,
          questions := s.questions.filter fun r => r.lesson_id ∉ (s.lessons.filter fun l =>
            l.unit_id ∈ (s.units.filter fun u =>
              u.cols.class_id ∈ (s.classes.filter fun c => c.id = id).map fun c => c.id).map
                fun u => u.id).map fun l => l.id } := rfl

theorem deleteClassRows_embedded (id : Nat) (s : School)
    (hclass : ∃ c ∈ s.classes, c.id = id) :
    (∀ c ∈ (deleteClassRows (declaredCascades false) id s).classes, c.id ≠ id) ∧
    (∀ u ∈ (deleteClassRows (declaredCascades false) id s).units, u.cols.class_id ≠ id) ∧
    (∀ l ∈ (deleteClassRows (declaredCascades false) id s).lessons,
      ∀ u ∈ s.units, u.cols.class_id = id → l.unit_id ≠ u.id) ∧
    (∀ l ∈ s.lessons, ∀ u ∈ s.units, u.cols.class_id = id → l.unit_id = u.id →
      (∀ r ∈ (deleteClassRows (declaredCascades false) id s).videos, r.lesson_id ≠ l.id) ∧
      (∀ r ∈ (deleteClassRows (declaredCascades false) id s).images, r.lesson_id ≠ l.id) ∧
      (∀ r ∈ (deleteClassRows (declaredCascades false) id s).questions,
        r.lesson_id ≠ l.id)) := by
  obtain ⟨c0, hc0, hc0id⟩ := hclass
  have hgone : id ∈ (s.classes.filter fun c => decide (c.id = id)).map fun c => c.id :=
    List.mem_map.2 ⟨c0, List.mem_filter.2 ⟨hc0, decide_eq_true hc0id⟩, hc0id⟩
  have hunit : ∀ u ∈ s.units, u.cols.class_id = id →
      u ∈ s.units.filter fun u => decide (u.cols.class_id ∈
        (s.classes.filter fun c => decide (c.id = id)).map fun c => c.id) := by
    intro u hu hcl
    exact List.mem_filter.2 ⟨hu, decide_eq_true (by rw [hcl]; exact hgone)⟩
  have hlesson : ∀ l ∈ s.lessons, ∀ u ∈ s.units, u.cols.class_id = id → l.unit_id = u.id →
      l ∈ s.lessons.filter fun l => decide (l.unit_id ∈
        (s.units.filter fun u => decide (u.cols.class_id ∈
          (s.classes.filter fun c => decide (c.id = id)).map fun c => c.id)).map
            fun u => u.id) := by
    intro l hl u hu hcl hlu
    exact List.mem_filter.2 ⟨hl, decide_eq_true (List.mem_map.2 ⟨u, hunit u hu hcl, hlu.symm⟩)⟩
  rw [deleteClassRows_embedded_eq]
  refine ⟨?_, ?_, ?_, ?_⟩
  · intro c hc
    exact of_decide_eq_true (List.mem_filter.1 hc).2
  · intro u hu hcl
    have hu2 := List.mem_filter.1 hu
    exact (of_decide_eq_true hu2.2) (hunit u hu2.1 hcl)
  · intro l hl u hu hcl hlu
    have hl2 := List.mem_filter.1 hl
    exact (of_decide_eq_true hl2.2) (hlesson l hl2.1 u hu hcl hlu)
  · intro l hl u hu hcl hlu
    have hmem := hlesson l hl u hu hcl hlu
    refine ⟨?_, ?_, ?_⟩
    · intro r hr heq
      exact (of_decide_eq_true (List.mem_filter.1 hr).2)
        (List.mem_map.2 ⟨l, hmem, heq.symm⟩)
    · intro r hr heq
      exact (of_decide_eq_true (List.mem_filter.1 hr).2)
        (List.mem_map.2 ⟨l, hmem, heq.symm⟩)
    · intro r hr heq
      exact (of_decide_eq_true (List.mem_filter.1 hr).2)
        (List.mem_map.2 ⟨l, hmem, heq.symm⟩)

/-! ## Rejection by the middleware (C16) -/

/-- C16, the code at the failing input: with a token that `jwt.verify` rejects, the
middleware answers 403 without clearing the cookie, while `GET /api/auth/verify` answers
the same token with 401 and clears it. -/
theorem forbidden_keeps_cookie :
    authenticateToken (fun _ => (none : Option Nat)) (some "expired".toList)
        = .reply ⟨403, some "Invalid or expired token", false⟩ ∧
      verifySession (fun _ => (none : Option Nat)) (some "expired".toList)
        = ⟨401, none, true⟩ := by
  decide

theorem authenticateToken_never_clears {α : Type} (verify : List Char → Option α)
    (cookie : Option (List Char)) (r : AuthReply)
    (h : authenticateToken verify cookie = .reply r) : r.clearsCookie = false := by
  unfold authenticateToken at h
  split at h
  · cases h; rfl
  · split at h
    · cases h; rfl
    · split at h
      · cases h
      · cases h; rfl

/-! ## Start-up in production (C17) -/

/-- C17, counterexample: in production with the 12-character secret `short-secret` the start
of the server neither throws nor exits: it logs the warning and goes on to initialise the
database and bind the port. -/
theorem short_secret_starts :
    jsLength "short-secret".toList < 32 ∧
      startup ⟨some "production".toList, some "short-secret".toList⟩ = .goesOn true := by
  decide

/-- C17 (amended): in production, a `JWT_SECRET` that is missing, empty or equal to the
shipped default stops the process while the modules load, before any port is bound; every
other secret lets the start go on, with a warning exactly when the secret is shorter than 32
characters. -/
theorem startup_in_production (env : Env) (hprod : env.NODE_ENV = some "production".toList) :
    ((env.JWT_SECRET = none ∨ env.JWT_SECRET = some [] ∨ env.JWT_SECRET = some defaultSecret) →
      startup env = .moduleThrows) ∧
    (∀ secret, env.JWT_SECRET = some secret → secret ≠ [] → secret ≠ defaultSecret →
      startup env = .goesOn (decide (jsLength secret < 32))) := by
  constructor
  · intro h
    have hun : secretUnset env = true := by
      rcases h with h | h | h <;> simp [secretUnset, h]
    simp [startup, hprod, hun]
  · intro secret hs hne hnd
    have hun : secretUnset env = false := by
      simp [secretUnset, hs, hne, hnd]
    simp [startup, hprod, hun, hs]

/-- C17 (amended) at a production environment without a secret and at one with a 40-character
secret. -/
theorem startup_in_production_witness :
    startup ⟨some "production".toList, none⟩ = .moduleThrows ∧
      startup ⟨some "production".toList, some (List.replicate 40 'k')⟩ = .goesOn false :=
  ⟨(startup_in_production ⟨some "production".toList, none⟩ rfl).1 (Or.inl rfl),
    (startup_in_production ⟨some "production".toList, some (List.replicate 40 'k')⟩ rfl).2
      (List.replicate 40 'k') rfl (by decide) (by decide)⟩

/-! ## The gate in front of the routes (C15) -/

/-- C15, counterexample: the answer-check route is a POST route of the question routes, no
middleware stands before it, and a request to it without a cookie is answered by the handler
(here 400 for a malformed question id), not with 401. -/
theorem check_route_not_gated :
    checkRoute ∈ apiRoutes ∧ checkRoute.method = .POST ∧
      serve checkRoute (fun _ => (none : Option Nat)) none
          (fun s => (checkAnswer embeddedRuntime asciiUpperCase (.str ['1']) (.str ['x'])
            (.str ['A']) s, s)) oneSubtreeSchool
        = (.inr ⟨400, .error "Invalid lesson or question id" none⟩, oneSubtreeSchool) := by
  decide

/-- C15 (amended): every POST, PUT and DELETE route of the class, unit, lesson, question and
settings routers other than the public answer-check route, and each of the three admin GET
routes, has the middleware before its handler; on such a route a request without an
`authToken` cookie is answered 401 and a request whose token fails verification is answered
403, and in both cases the answer and the unchanged store do not depend on the handler. -/
theorem gated_routes_reject {α σ β : Type} (verify : List Char → Option α)
    (handler : σ → β × σ) (s : σ) :
    (∀ route ∈ apiRoutes, route.method ≠ .GET → route ≠ checkRoute → route.gated = true) ∧
    (∀ path ∈ ["/api/units/", "/api/lessons/", "/api/lessons/:lessonId/questions/admin"],
      (⟨.GET, path, true⟩ : Route) ∈ apiRoutes) ∧
    (∀ route ∈ apiRoutes, route.gated = true →
      serve route verify none handler s
          = (.inl ⟨401, some "Authentication required", false⟩, s) ∧
        ∀ token, token ≠ [] → verify token = none →
          serve route verify (some token) handler s
            = (.inl ⟨403, some "Invalid or expired token", false⟩, s)) := by
  refine ⟨by decide, by decide, ?_⟩
  intro route _ hg
  constructor
  · simp [serve, hg, authenticateToken]
  · intro token hne hv
    simp [serve, hg, authenticateToken, hne, hv]

/-! ## The public question listing (C18) -/

theorem questionsOf_withoutAnswer (lessonId : Nat) (questions : List QuestionRow) :
    (questionsOf lessonId questions).map withoutAnswer
      = questionsOf lessonId (questions.map withoutAnswer) := by
  unfold questionsOf
  rw [List.map_insertionSort (fun a b : QuestionRow => a.display_order ≤ b.display_order)
    (fun a b : QuestionRow => a.display_order ≤ b.display_order) withoutAnswer]
  · rw [List.filter_map]
    rfl
  · intro a _ b _
    rfl

theorem publicQuestion_withoutAnswer (q : QuestionRow) :
    publicQuestion (withoutAnswer q) = publicQuestion q := rfl

theorem public_rows_eq (lessonId : Nat) (questions : List QuestionRow) :
    (questionsOf lessonId questions).map publicQuestion
      = (questionsOf lessonId (questions.map withoutAnswer)).map publicQuestion := by
  rw [← questionsOf_withoutAnswer, List.map_map]
  rfl

/-- C18: the response of the public question listing is the same for two stores whose
questions differ only in `correct_answer`, no object it returns has a `correct_answer`
field, and the admin listing returns the `correct_answer` of every question of the lesson,
in listing order. -/
theorem public_questions_hide_answers (rt : Runtime) (lessonIdParam : JsVal) (s1 s2 : School) :
    (s1.questions.map withoutAnswer = s2.questions.map withoutAnswer →
      getQuestions rt lessonIdParam s1 = getQuestions rt lessonIdParam s2) ∧
    (∀ rows, (getQuestions rt lessonIdParam s1).body = .rows rows →
      ∀ row ∈ rows, row.lookup "correct_answer" = none) ∧
    (∀ lessonId, parsePositiveInteger rt lessonIdParam = some lessonId →
      ∃ rows, getQuestionsAdmin rt lessonIdParam s1 = ⟨200, .rows rows⟩ ∧
        rows.map (fun row => row.lookup "correct_answer")
          = (questionsOf lessonId s1.questions).map
              fun q => some (.text (String.mk q.correct_answer))) := by
  refine ⟨?_, ?_, ?_⟩
  · intro h
    unfold getQuestions
    split
    · rfl
    · rw [public_rows_eq _ s1.questions, public_rows_eq _ s2.questions, h]
  · intro rows hrows row hrow
    unfold getQuestions at hrows
    split at hrows
    · cases hrows
    · simp only [Body.rows.injEq] at hrows
      subst hrows
      obtain ⟨q, _, rfl⟩ := List.mem_map.1 hrow
      rfl
  · intro lessonId hparse
    refine ⟨(questionsOf lessonId s1.questions).map adminQuestion, ?_, ?_⟩
    · simp only [getQuestionsAdmin, hparse]
    · rw [List.map_map]
      rfl

/-! ## Media of an updated lesson (C13) -/

theorem insertVideos_from (rt : Runtime) (now lessonId : Nat) (entries : List VideoEntry) :
    ∀ (n : Nat) (table : List VideoRow), ∃ news,
      (entries.enumFrom n).foldl (insertVideoStep rt now lessonId) table = table ++ news ∧
      (∀ r ∈ news, r.lesson_id = lessonId) ∧
      news.map stripVideoId
        = ((entries.enumFrom n).filter fun p => p.2.video_url.truthy).map
            fun p => videoRowOf rt now lessonId 0 p.1 p.2 := by
  induction entries with
  | nil =>
    intro n table
    exact ⟨[], by simp, by simp, by simp⟩
  | cons e es ih =>
    intro n table
    rw [List.enumFrom_cons, List.foldl_cons]
    by_cases h : e.video_url.truthy = true
    · obtain ⟨news, h1, h2, h3⟩ := ih (n + 1)
        (table ++ [videoRowOf rt now lessonId (freshId (table.map fun r => r.id)) n e])
      refine ⟨videoRowOf rt now lessonId (freshId (table.map fun r => r.id)) n e :: news,
        ?_, ?_, ?_⟩
      · simp only [insertVideoStep, h, if_true]
        rw [h1]
        simp
      · intro r hr
        rcases List.mem_cons.1 hr with rfl | hr
        · rfl
        · exact h2 r hr
      · rw [List.filter_cons_of_pos (by simpa using h), List.map_cons, List.map_cons, h3]
        rfl
    · obtain ⟨news, h1, h2, h3⟩ := ih (n + 1) table
      refine ⟨news, ?_, h2, ?_⟩
      · simp only [insertVideoStep, h, if_false]
        exact h1
      · rw [List.filter_cons_of_neg (by simpa using h)]
        exact h3

theorem insertImages_from (rt : Runtime) (now lessonId : Nat) (entries : List ImageEntry) :
    ∀ (n : Nat) (table : List ImageRow), ∃ news,
      (entries.enumFrom n).foldl (insertImageStep rt now lessonId) table = table ++ news ∧
      (∀ r ∈ news, r.lesson_id = lessonId) ∧
      news.map stripImageId
        = ((entries.enumFrom n).filter fun p => p.2.image_path.truthy).map
            fun p => imageRowOf rt now lessonId 0 p.1 p.2 := by
  induction entries with
  | nil =>
    intro n table
    exact ⟨[], by simp, by simp, by simp⟩
  | cons e es ih =>
    intro n table
    rw [List.enumFrom_cons, List.foldl_cons]
    by_cases h : e.image_path.truthy = true
    · obtain ⟨news, h1, h2, h3⟩ := ih (n + 1)
        (table ++ [imageRowOf rt now lessonId (freshId (table.map fun r => r.id)) n e])
      refine ⟨imageRowOf rt now lessonId (freshId (table.map fun r => r.id)) n e :: news,
        ?_, ?_, ?_⟩
      · simp only [insertImageStep, h, if_true]
        rw [h1]
        simp
      · intro r hr
        rcases List.mem_cons.1 hr with rfl | hr
        · rfl
        · exact h2 r hr
      · rw [List.filter_cons_of_pos (by simpa using h), List.map_cons, List.map_cons, h3]
        rfl
    · obtain ⟨news, h1, h2, h3⟩ := ih (n + 1) table
      refine ⟨news, ?_, h2, ?_⟩
      · simp only [insertImageStep, h, if_false]
        exact h1
      · rw [List.filter_cons_of_neg (by simpa using h)]
        exact h3

theorem replaceVideos_nonempty (rt : Runtime) (now lessonId : Nat) (entries : List VideoEntry)
    (hne : entries ≠ []) (table : List VideoRow) :
    ((replaceVideos rt now lessonId (some entries) table).filter
        fun r => r.lesson_id = lessonId).map stripVideoId
      = (entries.enum.filter fun p => p.2.video_url.truthy).map
          (fun p => videoRowOf rt now lessonId 0 p.1 p.2) ∧
    ((replaceVideos rt now lessonId (some entries) table).filter
        fun r => r.lesson_id ≠ lessonId)
      = table.filter fun r => r.lesson_id ≠ lessonId := by
  have hlen : entries.length > 0 := List.length_pos.2 hne
  obtain ⟨news, h1, h2, h3⟩ := insertVideos_from rt now lessonId entries 0
    (table.filter fun r => r.lesson_id ≠ lessonId)
  have hrep : replaceVideos rt now lessonId (some entries) table
      = (table.filter fun r => r.lesson_id ≠ lessonId) ++ news := by
    simp only [replaceVideos, hlen, if_true, insertVideos, List.enum]
    exact h1
  rw [hrep, List.filter_append, List.filter_append]
  have hnews1 : news.filter (fun r => decide (r.lesson_id = lessonId)) = news := by
    rw [List.filter_eq_self]
    intro r hr
    simpa using h2 r hr
  have hnews2 : news.filter (fun r => decide (r.lesson_id ≠ lessonId)) = [] := by
    rw [List.filter_eq_nil_iff]
    intro r hr
    simpa using h2 r hr
  have hold1 : (table.filter fun r => decide (r.lesson_id ≠ lessonId)).filter
      (fun r => decide (r.lesson_id = lessonId)) = [] := by
    rw [List.filter_eq_nil_iff]
    intro r hr
    have := (List.mem_filter.1 hr).2
    simpa using this
  have hold2 : (table.filter fun r => decide (r.lesson_id ≠ lessonId)).filter
      (fun r => decide (r.lesson_id ≠ lessonId))
      = table.filter fun r => decide (r.lesson_id ≠ lessonId) := by
    rw [List.filter_filter]
    apply List.filter_congr
    intro r _
    simp
  rw [hnews1, hnews2, hold1, hold2]
  exact ⟨by simpa [List.enum] using h3, by simp⟩

theorem replaceImages_nonempty (rt : Runtime) (now lessonId : Nat) (entries : List ImageEntry)
    (hne : entries ≠ []) (table : List ImageRow) :
    ((replaceImages rt now lessonId (some entries) table).filter
        fun r => r.lesson_id = lessonId).map stripImageId
      = (entries.enum.filter fun p => p.2.image_path.truthy).map
          (fun p => imageRowOf rt now lessonId 0 p.1 p.2) ∧
    ((replaceImages rt now lessonId (some entries) table).filter
        fun r => r.lesson_id ≠ lessonId)
      = table.filter fun r => r.lesson_id ≠ lessonId := by
  have hlen : entries.length > 0 := List.length_pos.2 hne
  obtain ⟨news, h1, h2, h3⟩ := insertImages_from rt now lessonId entries 0
    (table.filter fun r => r.lesson_id ≠ lessonId)
  have hrep : replaceImages rt now lessonId (some entries) table
      = (table.filter fun r => r.lesson_id ≠ lessonId) ++ news := by
    simp only [replaceImages, hlen, if_true, insertImages, List.enum]
    exact h1
  rw [hrep, List.filter_append, List.filter_append]
  have hnews1 : news.filter (fun r => decide (r.lesson_id = lessonId)) = news := by
    rw [List.filter_eq_self]
    intro r hr
    simpa using h2 r hr
  have hnews2 : news.filter (fun r => decide (r.lesson_id ≠ lessonId)) = [] := by
    rw [List.filter_eq_nil_iff]
    intro r hr
    simpa using h2 r hr
  have hold1 : (table.filter fun r => decide (r.lesson_id ≠ lessonId)).filter
      (fun r => decide (r.lesson_id = lessonId)) = [] := by
    rw [List.filter_eq_nil_iff]
    intro r hr
    have := (List.mem_filter.1 hr).2
    simpa using this
  have hold2 : (table.filter fun r => decide (r.lesson_id ≠ lessonId)).filter
      (fun r => decide (r.lesson_id ≠ lessonId))
      = table.filter fun r => decide (r.lesson_id ≠ lessonId) := by
    rw [List.filter_filter]
    apply List.filter_congr
    intro r _
    simp
  rw [hnews1, hnews2, hold1, hold2]
  exact ⟨by simpa [List.enum] using h3, by simp⟩

theorem updateLesson_cases (rt : Runtime) (now : Nat) (idParam : JsVal) (body : LessonBody)
    (s : School) :
    (updateLesson rt now idParam body s).1.status ≠ 200 ∨
    ∃ id, parsePositiveInteger rt idParam = some id ∧
      (∃ l ∈ s.lessons, l.id = id) ∧
      (updateLesson rt now idParam body s).2.videos
        = replaceVideos rt now id body.videos s.videos ∧
      (updateLesson rt now idParam body s).2.images
        = replaceImages rt now id body.images s.images := by
  cases hid : parsePositiveInteger rt idParam with
  | none => exact Or.inl (by simp [updateLesson, hid])
  | some id =>
    unfold updateLesson
    rw [hid]
    simp only
    split
    · exact Or.inl (by simp)
    · split
      · exact Or.inl (by simp)
      · split
        · split
          · exact Or.inl (by simp)
          · split
            · exact Or.inl (by simp)
            · split
              · exact Or.inl (by simp)
              · split
                · exact Or.inl (by simp)
                · split
                  · exact Or.inl (by simp)
                  · rename_i h8
                    refine Or.inr ⟨id, rfl, ?_, rfl, rfl⟩
                    have hpos : 0 < (s.lessons.filter fun l => decide (l.id = id)).length :=
                      Nat.pos_of_ne_zero h8
                    obtain ⟨l, hl⟩ := List.exists_mem_of_length_pos hpos
                    exact ⟨l, List.mem_of_mem_filter hl,
                      by simpa using (List.mem_filter.1 hl).2⟩
        · exact Or.inl (by simp)

/-- C13, the code at the failing input: lesson 1 has two videos and two images; an update that
submits empty `videos` and `images` arrays, as the admin page does once the last video and
image block is removed, is answered 200 and leaves both video rows and both image rows in
place, although no entry was submitted. -/
theorem empty_media_not_replaced :
    (updateLesson embeddedRuntime 70 (.str ['1']) (lessonBodyWith (some []) (some []))
      twoVideoSchool).1.status = 200 ∧
    ((updateLesson embeddedRuntime 70 (.str ['1']) (lessonBodyWith (some []) (some []))
      twoVideoSchool).2.videos.filter fun r => r.lesson_id = 1) = twoVideoSchool.videos ∧
    ((updateLesson embeddedRuntime 70 (.str ['1']) (lessonBodyWith (some []) (some []))
      twoVideoSchool).2.images.filter fun r => r.lesson_id = 1) = twoVideoSchool.images ∧
    twoVideoSchool.videos.length = 2 ∧ twoVideoSchool.images.length = 2 := by
  decide

/-- Replacement of the media where the code does it: after a successful update of lesson `id`
over an engine that rejects no statement, when the submitted `videos` array is not empty the
video rows of the lesson are, in table order and up to their generated keys, the rows of the
submitted entries that carry a `video_url`, in submitted order, each with `display_order`
equal to its array position, and the videos of other lessons are untouched; when `videos` is
missing or empty the video table is left as it was.  The same holds for images. -/
theorem lesson_media_replaced (rt : Runtime) (now : Nat) (idParam : JsVal) (body : LessonBody)
    (s : School) (hok : (updateLesson rt now idParam body s).1.status = 200) :
    ∃ id, parsePositiveInteger rt idParam = some id ∧ (∃ l ∈ s.lessons, l.id = id) ∧
      (∀ entries, body.videos = some entries → entries ≠ [] →
        (((updateLesson rt now idParam body s).2.videos.filter
            fun r => r.lesson_id = id).map stripVideoId
          = (entries.enum.filter fun p => p.2.video_url.truthy).map
              (fun p => videoRowOf rt now id 0 p.1 p.2)) ∧
        ((updateLesson rt now idParam body s).2.videos.filter fun r => r.lesson_id ≠ id)
          = s.videos.filter fun r => r.lesson_id ≠ id) ∧
      ((body.videos = none ∨ body.videos = some []) →
        (updateLesson rt now idParam body s).2.videos = s.videos) ∧
      (∀ entries, body.images = some entries → entries ≠ [] →
        (((updateLesson rt now idParam body s).2.images.filter
            fun r => r.lesson_id = id).map stripImageId
          = (entries.enum.filter fun p => p.2.image_path.truthy).map
              (fun p => imageRowOf rt now id 0 p.1 p.2)) ∧
        ((updateLesson rt now idParam body s).2.images.filter fun r => r.lesson_id ≠ id)
          = s.images.filter fun r => r.lesson_id ≠ id) ∧
      ((body.images = none ∨ body.images = some []) →
        (updateLesson rt now idParam body s).2.images = s.images) := by
  rcases updateLesson_cases rt now idParam body s with h | ⟨id, hid, hl, hv, hi⟩
  · exact absurd hok h
  · refine ⟨id, hid, hl, ?_, ?_, ?_, ?_⟩
    · intro entries he hne
      rw [hv, he]
      exact replaceVideos_nonempty rt now id entries hne s.videos
    · intro h
      rw [hv]
      rcases h with h | h <;> simp [replaceVideos, h]
    · intro entries he hne
      rw [hi, he]
      exact replaceImages_nonempty rt now id entries hne s.images
    · intro h
      rw [hi]
      rcases h with h | h <;> simp [replaceImages, h]

/-- Replacement of the media at an update of lesson 1 that submits one video: of the two
videos the lesson had, none is left, and the one row is the submitted entry at position 0. -/
theorem lesson_media_replaced_witness :
    (updateLesson embeddedRuntime 70 (.str ['1'])
      (lessonBodyWith (some [⟨.str "https://n".toList, .undefined, .undefined, .undefined⟩])
        none) twoVideoSchool).1.status = 200 ∧
    ((updateLesson embeddedRuntime 70 (.str ['1'])
      (lessonBodyWith (some [⟨.str "https://n".toList, .undefined, .undefined, .undefined⟩])
        none) twoVideoSchool).2.videos.filter fun r => r.lesson_id = 1).map stripVideoId
      = [⟨0, 1, "https://n".toList, "bottom".toList, "large".toList, none, 0, 70⟩] ∧
    ∃ id, parsePositiveInteger embeddedRuntime (.str ['1']) = some id ∧
      (updateLesson embeddedRuntime 70 (.str ['1'])
        (lessonBodyWith (some [⟨.str "https://n".toList, .undefined, .undefined, .undefined⟩])
          none) twoVideoSchool).2.images = twoVideoSchool.images :=
  ⟨by decide, by decide,
    match lesson_media_replaced embeddedRuntime 70 (.str ['1'])
      (lessonBodyWith (some [⟨.str "https://n".toList, .undefined, .undefined, .undefined⟩])
        none) twoVideoSchool (by decide) with
    | ⟨id, hid, _, _, _, _, himg⟩ => ⟨id, hid, himg (Or.inl rfl)⟩⟩

theorem videosOf_replaced (rt : Runtime) (now lessonId : Nat) (entries : List VideoEntry)
    (hne : entries ≠ []) (table : List VideoRow) :
    (videosOf lessonId (replaceVideos rt now lessonId (some entries) table)).map stripVideoId
      = (entries.enum.filter fun p => p.2.video_url.truthy).map
          (fun p => videoRowOf rt now lessonId 0 p.1 p.2) := by
  have h := (replaceVideos_nonempty rt now lessonId entries hne table).1
  have hsorted : ((replaceVideos rt now lessonId (some entries) table).filter
      fun r => r.lesson_id = lessonId).Sorted (fun a b => a.display_order ≤ b.display_order) := by
    have hx : (((replaceVideos rt now lessonId (some entries) table).filter
        fun r => r.lesson_id = lessonId).map stripVideoId).Pairwise
        (fun a b => a.display_order ≤ b.display_order) := by
      rw [h, List.pairwise_map]
      have henum : entries.enum.Pairwise (fun p q => p.1 ≤ q.1) := by
        have := List.pairwise_lt_range entries.length
        rw [← List.enum_map_fst entries, List.pairwise_map] at this
        exact this.imp (fun hlt => Nat.le_of_lt hlt)
      exact (henum.sublist (List.filter_sublist _)).imp (fun hle => hle)
    rw [List.pairwise_map] at hx
    exact hx
  unfold videosOf
  rw [hsorted.insertionSort_eq]
  exact h

/-! ## Shape of the 400 answers (C19) -/

/-- C19, counterexample: `PUT /api/classes/abc` with a well-formed body is answered 400 with
the body `{ error: 'Invalid class id' }`, which has no `code` field. -/
theorem malformed_id_has_no_code :
    parsePositiveInteger embeddedRuntime (.str "abc".toList) = none ∧
      (updateClass embeddedRuntime (.str "abc".toList) (.str "ج".toList) demoClasses).1
        = ⟨400, .error "Invalid class id" none⟩ := by
  decide

theorem createClass_400 (now : Nat) (name : JsVal) (classes : List ClassRow) :
    (createClass now name classes).1.status = 400 →
      HasErrorAndCode (createClass now name classes).1.body := by
  unfold createClass
  repeat' split
  all_goals first
    | (intro h; simp [classServerError, serverError, duplicateUnitTitle] at h; done)
    | (intro _; exact ⟨_, _, rfl, by decide⟩)

theorem updateClass_400 (rt : Runtime) (idParam name : JsVal) (classes : List ClassRow) :
    (updateClass rt idParam name classes).1.status = 400 →
      (parsePositiveInteger rt idParam = none ∧
        HasErrorOnly (updateClass rt idParam name classes).1.body) ∨
      (parsePositiveInteger rt idParam ≠ none ∧
        HasErrorAndCode (updateClass rt idParam name classes).1.body) := by
  cases hid : parsePositiveInteger rt idParam with
  | none =>
    intro _
    exact Or.inl ⟨rfl, by simp only [updateClass, hid]; exact ⟨_, rfl⟩⟩
  | some id =>
    simp only [updateClass, hid]
    repeat' split
    all_goals first
      | (intro h; simp [classServerError, serverError, duplicateUnitTitle] at h; done)
      | (intro _; exact Or.inr ⟨by simp, _, _, rfl, by decide⟩)

theorem createUnit_400 (rt : Runtime) (now : Nat) (body : UnitBody) (s : Store) :
    (createUnit rt now body s).1.status = 400 →
      HasErrorAndCode (createUnit rt now body s).1.body := by
  unfold createUnit
  repeat' split
  all_goals first
    | (intro h; simp [classServerError, serverError, duplicateUnitTitle] at h; done)
    | (intro _; exact ⟨_, _, rfl, by decide⟩)

theorem updateUnit_400 (rt : Runtime) (idParam : JsVal) (body : UnitBody) (s : Store) :
    (updateUnit rt idParam body s).1.status = 400 →
      (parsePositiveInteger rt idParam = none ∧
        HasErrorOnly (updateUnit rt idParam body s).1.body) ∨
      (parsePositiveInteger rt idParam ≠ none ∧
        HasErrorAndCode (updateUnit rt idParam body s).1.body) := by
  cases hid : parsePositiveInteger rt idParam with
  | none =>
    intro _
    exact Or.inl ⟨rfl, by simp only [updateUnit, hid]; exact ⟨_, rfl⟩⟩
  | some id =>
    simp only [updateUnit, hid]
    repeat' split
    all_goals first
      | (intro h; simp [classServerError, serverError, duplicateUnitTitle] at h; done)
      | (intro _; exact Or.inr ⟨by simp, _, _, rfl, by decide⟩)

theorem createLesson_400 (rt : Runtime) (now : Nat) (body : LessonBody) (s : School) :
    (createLesson rt now body s).1.status = 400 →
      HasErrorAndCode (createLesson rt now body s).1.body := by
  unfold createLesson
  repeat' split
  all_goals first
    | (intro h; simp [classServerError, serverError, duplicateUnitTitle] at h; done)
    | (intro _; exact ⟨_, _, rfl, by decide⟩)

theorem updateLesson_400 (rt : Runtime) (now : Nat) (idParam : JsVal) (body : LessonBody)
    (s : School) :
    (updateLesson rt now idParam body s).1.status = 400 →
      (parsePositiveInteger rt idParam = none ∧
        HasErrorOnly (updateLesson rt now idParam body s).1.body) ∨
      (parsePositiveInteger rt idParam ≠ none ∧
        HasErrorAndCode (updateLesson rt now idParam body s).1.body) := by
  cases hid : parsePositiveInteger rt idParam with
  | none =>
    intro _
    exact Or.inl ⟨rfl, by simp only [updateLesson, hid]; exact ⟨_, rfl⟩⟩
  | some id =>
    simp only [updateLesson, hid]
    repeat' split
    all_goals first
      | (intro h; simp [classServerError, serverError, duplicateUnitTitle] at h; done)
      | (intro _; exact Or.inr ⟨by simp, _, _, rfl, by decide⟩)

theorem createQuestion_400 (rt : Runtime) (upperCase : List Char → List Char) (now : Nat)
    (lessonIdParam : JsVal) (body : QuestionBody) (s : School) :
    (createQuestion rt upperCase now lessonIdParam body s).1.status = 400 →
      HasErrorOnly (createQuestion rt upperCase now lessonIdParam body s).1.body := by
  unfold createQuestion
  repeat' split
  all_goals first
    | (intro h; simp at h; done)
    | (intro _; exact ⟨_, rfl⟩)

/-- C19 (amended): a 400 answer of the create and update handlers of classes, units and
lessons that reports a missing name, title, class id or unit id, or a wrong character set,
has an `error` text and a `code`; the 400 answer of the update handlers to a malformed id in
the path has an `error` text and no `code`, and so have the 400 answers of the reorder
handlers and of the create-question handler. -/
theorem validation_answers (rt : Runtime) (upperCase : List Char → List Char) (now : Nat)
    (idParam name : JsVal) (classes : List ClassRow) (ubody : UnitBody) (s : Store)
    (lbody : LessonBody) (qbody : QuestionBody) (school : School) (fails : Nat → Bool) :
    ((createClass now name classes).1.status = 400 →
      HasErrorAndCode (createClass now name classes).1.body) ∧
    ((createUnit rt now ubody s).1.status = 400 →
      HasErrorAndCode (createUnit rt now ubody s).1.body) ∧
    ((createLesson rt now lbody school).1.status = 400 →
      HasErrorAndCode (createLesson rt now lbody school).1.body) ∧
    ((updateClass rt idParam name classes).1.status = 400 →
      (parsePositiveInteger rt idParam = none ∧
        HasErrorOnly (updateClass rt idParam name classes).1.body) ∨
      (parsePositiveInteger rt idParam ≠ none ∧
        HasErrorAndCode (updateClass rt idParam name classes).1.body)) ∧
    ((updateUnit rt idParam ubody s).1.status = 400 →
      (parsePositiveInteger rt idParam = none ∧
        HasErrorOnly (updateUnit rt idParam ubody s).1.body) ∨
      (parsePositiveInteger rt idParam ≠ none ∧
        HasErrorAndCode (updateUnit rt idParam ubody s).1.body)) ∧
    ((updateLesson rt now idParam lbody school).1.status = 400 →
      (parsePositiveInteger rt idParam = none ∧
        HasErrorOnly (updateLesson rt now idParam lbody school).1.body) ∨
      (parsePositiveInteger rt idParam ≠ none ∧
        HasErrorAndCode (updateLesson rt now idParam lbody school).1.body)) ∧
    (parsePositiveInteger rt idParam = none →
      (updateClass rt idParam name classes).1 = ⟨400, .error "Invalid class id" none⟩ ∧
      (updateUnit rt idParam ubody s).1 = ⟨400, .error "Invalid unit id" none⟩ ∧
      (updateLesson rt now idParam lbody school).1 = ⟨400, .error "Invalid lesson id" none⟩) ∧
    (reorderClasses fails none classes).1 = ⟨400, .error "Invalid order data" none⟩ ∧
    (reorderUnits fails none s.units).1 = ⟨400, .error "Invalid order data" none⟩ ∧
    ((createQuestion rt upperCase now idParam qbody school).1.status = 400 →
      HasErrorOnly (createQuestion rt upperCase now idParam qbody school).1.body) :=
  ⟨createClass_400 now name classes, createUnit_400 rt now ubody s,
    createLesson_400 rt now lbody school, updateClass_400 rt idParam name classes,
    updateUnit_400 rt idParam ubody s, updateLesson_400 rt now idParam lbody school,
    fun h => ⟨by simp only [updateClass, h], by simp only [updateUnit, h],
      by simp only [updateLesson, h]⟩,
    rfl, rfl, createQuestion_400 rt upperCase now idParam qbody school⟩

/-! ## Updating a row that is absent (C20) -/

/-- C20, counterexample: no class has id 99 and the body `{ name: 'أ' }` is well formed, yet
`PUT /api/classes/99` is answered 409, because class 1 carries that name. -/
theorem update_absent_class_conflict :
    (∀ cl ∈ demoClasses, cl.id ≠ 99) ∧
      arabicOnly (jsTrim "أ".toList) = true ∧
      (updateClass embeddedRuntime (.str "99".toList) (.str "أ".toList) demoClasses).1.status
        = 409 ∧
      (updateClass embeddedRuntime (.str "99".toList) (.str "أ".toList) demoClasses).2
        = demoClasses := by
  decide

theorem map_ite_absent {α : Type} (rows : List α) (p : α → Prop) [DecidablePred p]
    (f : α → α) (h : ∀ r ∈ rows, ¬ p r) :
    rows.map (fun r => if p r then f r else r) = rows := by
  conv_rhs => rw [← List.map_id rows]
  apply List.map_congr_left
  intro r hr
  simp [h r hr]

theorem filter_absent_length {α : Type} (rows : List α) (p : α → Bool)
    (h : ∀ r ∈ rows, p r = false) : (rows.filter p).length = 0 := by
  rw [List.length_eq_zero, List.filter_eq_nil_iff]
  intro r hr
  simp [h r hr]

theorem updateClass_absent (rt : Runtime) (idParam : JsVal) (classes : List ClassRow)
    (id : Nat) (t : List Char) (hid : parsePositiveInteger rt idParam = some id)
    (habsent : ∀ cl ∈ classes, cl.id ≠ id) (hne : jsTrim t ≠ [])
    (harabic : arabicOnly (jsTrim t) = true) :
    (updateClass rt idParam (.str t) classes).2 = classes ∧
    ((∃ cl ∈ classes, cl.cols.name = jsTrim t) →
      (updateClass rt idParam (.str t) classes).1.status = 409) ∧
    ((¬ ∃ cl ∈ classes, cl.cols.name = jsTrim t) →
      (updateClass rt idParam (.str t) classes).1.status = 404) := by
  have htruthy : (JsVal.str t).truthy = true := by
    have : t ≠ [] := fun e => hne (by rw [e]; rfl)
    simp [JsVal.truthy, this]
  have hmap : classes.map (fun cl =>
      if cl.id = id then { cl with cols := { name := jsTrim t } } else cl) = classes :=
    map_ite_absent classes (fun cl => cl.id = id) _ habsent
  have hlen : (classes.filter fun cl => decide (cl.id = id)).length = 0 :=
    filter_absent_length classes _ (fun cl hcl => by simpa using habsent cl hcl)
  by_cases hdup : ∃ cl ∈ classes, cl.cols.name = jsTrim t
  · have hany : classes.any (fun cl => decide (cl.cols.name = jsTrim t ∧ cl.id ≠ id)) = true := by
      obtain ⟨cl, hcl, hn⟩ := hdup
      exact List.any_eq_true.2 ⟨cl, hcl, by simpa using ⟨hn, habsent cl hcl⟩⟩
    have hrun : updateClass rt idParam (.str t) classes
        = (⟨409, .error "هذا الاسم موجود بالفعل. يرجى اختيار اسم آخر"
            (some "DUPLICATE_CLASS_NAME")⟩, classes) := by
      simp only [updateClass, hid, htruthy, hne, harabic, hany, Bool.not_true,
        Bool.false_eq_true, if_false, if_true]
    rw [hrun]
    exact ⟨rfl, fun _ => rfl, fun h => absurd hdup h⟩
  · have hany : classes.any (fun cl => decide (cl.cols.name = jsTrim t ∧ cl.id ≠ id)) = false := by
      rw [Bool.eq_false_iff]
      intro h
      obtain ⟨cl, hcl, hc⟩ := List.any_eq_true.1 h
      exact hdup ⟨cl, hcl, (by simpa using hc : _ ∧ _).1⟩
    have hrun : updateClass rt idParam (.str t) classes
        = (⟨404, .error "الصف غير موجود" none⟩, classes) := by
      simp only [updateClass, hid, htruthy, hne, harabic, hany, Bool.not_true,
        Bool.false_eq_true, if_false, hlen, if_true, hmap]
    rw [hrun]
    exact ⟨rfl, fun h => absurd h hdup, fun _ => rfl⟩

theorem updateUnit_absent (rt : Runtime) (idParam : JsVal) (body : UnitBody) (s : Store)
    (id c : Nat) (t : List Char) (hid : parsePositiveInteger rt idParam = some id)
    (habsent : ∀ u ∈ s.units, u.id ≠ id)
    (hclass : parsePositiveInteger rt body.class_id = some c)
    (htitle : body.title = .str t) (hne : jsTrim t ≠ [])
    (harabic : arabicOnly (jsTrim t) = true) :
    (updateUnit rt idParam body s).2 = s ∧
    (((∃ cl ∈ s.classes, cl.id = c) ∧ ∃ u ∈ s.units, u.cols.class_id = c ∧
        u.cols.title = jsTrim t ∧
        u.cols.term = rt.textOfParam (jsOr body.term (.str ['1']))) →
      (updateUnit rt idParam body s).1.status = 409) ∧
    ((¬ ((∃ cl ∈ s.classes, cl.id = c) ∧ ∃ u ∈ s.units, u.cols.class_id = c ∧
        u.cols.title = jsTrim t ∧
        u.cols.term = rt.textOfParam (jsOr body.term (.str ['1'])))) →
      (updateUnit rt idParam body s).1.status = 404) := by
  have htruthy : (JsVal.str t).truthy = true := by
    have : t ≠ [] := fun e => hne (by rw [e]; rfl)
    simp [JsVal.truthy, this]
  have hmap : s.units.map (fun u =>
      if u.id = id then
        { u with cols := { class_id := c, title := jsTrim t,
                           category := validCategory body.category,
                           term := rt.textOfParam (jsOr body.term (.str ['1'])) } }
      else u) = s.units :=
    map_ite_absent s.units (fun u => u.id = id) _ habsent
  have hlen : (s.units.filter fun u => decide (u.id = id)).length = 0 :=
    filter_absent_length s.units _ (fun u hu => by simpa using habsent u hu)
  by_cases hcl : ∃ cl ∈ s.classes, cl.id = c
  · have hclany : s.classes.any (fun cl => decide (cl.id = c)) = true := by
      obtain ⟨cl, h1, h2⟩ := hcl
      exact List.any_eq_true.2 ⟨cl, h1, by simpa using h2⟩
    by_cases hdup : ∃ u ∈ s.units, u.cols.class_id = c ∧ u.cols.title = jsTrim t ∧
        u.cols.term = rt.textOfParam (jsOr body.term (.str ['1']))
    · have hany : s.units.any (fun u => decide (u.cols.class_id = c ∧
          u.cols.title = jsTrim t ∧
          u.cols.term = rt.textOfParam (jsOr body.term (.str ['1'])) ∧ u.id ≠ id)) = true := by
        obtain ⟨u, hu, h1, h2, h3⟩ := hdup
        exact List.any_eq_true.2 ⟨u, hu, by simpa using ⟨h1, h2, h3, habsent u hu⟩⟩
      have hrun : updateUnit rt idParam body s
          = (duplicateUnitTitle (jsOr body.term (.str ['1'])), s) := by
        simp only [updateUnit, hid, hclass, htitle, htruthy, hne, harabic, hclany, hany,
          Bool.not_true, Bool.false_eq_true, if_false, if_true]
      rw [hrun]
      exact ⟨rfl, fun _ => rfl, fun h => absurd ⟨hcl, hdup⟩ h⟩
    · have hany : s.units.any (fun u => decide (u.cols.class_id = c ∧
          u.cols.title = jsTrim t ∧
          u.cols.term = rt.textOfParam (jsOr body.term (.str ['1'])) ∧ u.id ≠ id)) = false := by
        rw [Bool.eq_false_iff]
        intro h
        obtain ⟨u, hu, hc⟩ := List.any_eq_true.1 h
        have hc2 : u.cols.class_id = c ∧ u.cols.title = jsTrim t ∧
            u.cols.term = rt.textOfParam (jsOr body.term (.str ['1'])) ∧ u.id ≠ id := by
          simpa using hc
        exact hdup ⟨u, hu, hc2.1, hc2.2.1, hc2.2.2.1⟩
      have hrun : updateUnit rt idParam body s
          = (⟨404, .error "الوحدة غير موجودة" none⟩, s) := by
        simp only [updateUnit, hid, hclass, htitle, htruthy, hne, harabic, hclany, hany,
          Bool.not_true, Bool.false_eq_true, if_false, hlen, if_true, hmap]
      rw [hrun]
      exact ⟨rfl, fun h => absurd h.2 hdup, fun _ => rfl⟩
  · have hclany : s.classes.any (fun cl => decide (cl.id = c)) = false := by
      rw [Bool.eq_false_iff]
      intro h
      obtain ⟨cl, h1, h2⟩ := List.any_eq_true.1 h
      exact hcl ⟨cl, h1, by simpa using h2⟩
    have hrun : updateUnit rt idParam body s
        = (⟨404, .error "الصف الدراسي غير موجود" (some "CLASS_NOT_FOUND")⟩, s) := by
      simp only [updateUnit, hid, hclass, htitle, htruthy, hne, harabic, hclany,
        Bool.not_true, Bool.not_false, Bool.false_eq_true, if_false, if_true]
    rw [hrun]
    exact ⟨rfl, fun h => absurd h.1 hcl, fun _ => rfl⟩

theorem updateLesson_absent (rt : Runtime) (now : Nat) (idParam : JsVal) (body : LessonBody)
    (s : School) (id u : Nat) (t : List Char)
    (hid : parsePositiveInteger rt idParam = some id)
    (habsent : ∀ l ∈ s.lessons, l.id ≠ id)
    (hunit : parsePositiveInteger rt body.unit_id = some u)
    (htitle : body.title = .str t) (hne : jsTrim t ≠ [])
    (harabic : arabicOnly (jsTrim t) = true) :
    (updateLesson rt now idParam body s).2 = s ∧
    (((∃ un ∈ s.units, un.id = u) ∧ ∃ l ∈ s.lessons, l.unit_id = u ∧ l.title = jsTrim t) →
      (updateLesson rt now idParam body s).1.status = 409) ∧
    ((¬ ((∃ un ∈ s.units, un.id = u) ∧ ∃ l ∈ s.lessons, l.unit_id = u ∧ l.title = jsTrim t)) →
      (updateLesson rt now idParam body s).1.status = 404) := by
  have htruthy : (JsVal.str t).truthy = true := by
    have : t ≠ [] := fun e => hne (by rw [e]; rfl)
    simp [JsVal.truthy, this]
  have hmap : s.lessons.map (fun l =>
      if l.id = id then
        { l with title := jsTrim t, unit_id := u,
                 content := rt.textOfParam (jsOr body.content (.str [])) }
      else l) = s.lessons :=
    map_ite_absent s.lessons (fun l => l.id = id) _ habsent
  have hlen : (s.lessons.filter fun l => decide (l.id = id)).length = 0 :=
    filter_absent_length s.lessons _ (fun l hl => by simpa using habsent l hl)
  by_cases hun : ∃ un ∈ s.units, un.id = u
  · have hunany : s.units.any (fun un => decide (un.id = u)) = true := by
      obtain ⟨un, h1, h2⟩ := hun
      exact List.any_eq_true.2 ⟨un, h1, by simpa using h2⟩
    by_cases hdup : ∃ l ∈ s.lessons, l.unit_id = u ∧ l.title = jsTrim t
    · have hany : s.lessons.any (fun l => decide (l.unit_id = u ∧ l.title = jsTrim t ∧
          l.id ≠ id)) = true := by
        obtain ⟨l, hl, h1, h2⟩ := hdup
        exact List.any_eq_true.2 ⟨l, hl, by simpa using ⟨h1, h2, habsent l hl⟩⟩
      have hrun : updateLesson rt now idParam body s
          = (⟨409, .error "هذا الاسم موجود بالفعل" (some "DUPLICATE_LESSON_TITLE")⟩, s) := by
        simp only [updateLesson, hid, hunit, htitle, htruthy, hne, harabic, hunany, hany,
          Bool.not_true, Bool.false_eq_true, if_false, if_true]
      rw [hrun]
      exact ⟨rfl, fun _ => rfl, fun h => absurd ⟨hun, hdup⟩ h⟩
    · have hany : s.lessons.any (fun l => decide (l.unit_id = u ∧ l.title = jsTrim t ∧
          l.id ≠ id)) = false := by
        rw [Bool.eq_false_iff]
        intro h
        obtain ⟨l, hl, hc⟩ := List.any_eq_true.1 h
        have hc2 : l.unit_id = u ∧ l.title = jsTrim t ∧ l.id ≠ id := by simpa using hc
        exact hdup ⟨l, hl, hc2.1, hc2.2.1⟩
      have hrun : updateLesson rt now idParam body s
          = (⟨404, .error "الدرس غير موجود" none⟩, s) := by
        simp only [updateLesson, hid, hunit, htitle, htruthy, hne, harabic, hunany, hany,
          Bool.not_true, Bool.false_eq_true, if_false, hlen, if_true, hmap]
      rw [hrun]
      exact ⟨rfl, fun h => absurd h.2 hdup, fun _ => rfl⟩
  · have hunany : s.units.any (fun un => decide (un.id = u)) = false := by
      rw [Bool.eq_false_iff]
      intro h
      obtain ⟨un, h1, h2⟩ := List.any_eq_true.1 h
      exact hun ⟨un, h1, by simpa using h2⟩
    have hrun : updateLesson rt now idParam body s
        = (⟨404, .error "الوحدة الدراسية غير موجودة" (some "UNIT_NOT_FOUND")⟩, s) := by
      simp only [updateLesson, hid, hunit, htitle, htruthy, hne, harabic, hunany,
        Bool.not_true, Bool.not_false, Bool.false_eq_true, if_false, if_true]
    rw [hrun]
    exact ⟨rfl, fun h => absurd h.1 hun, fun _ => rfl⟩

/-- C20 (amended): for a well-formed id that matches no row and a well-formed body, the
update handlers of classes, units and lessons change no row, and they answer 404 unless
another row already carries what is submitted, in which case they answer 409: for a class
the name, for a unit of an existing class the title within that class and term, for a
lesson of an existing unit the title within that unit. -/
theorem update_absent_target (rt : Runtime) (now : Nat)
    (cParam : JsVal) (classes : List ClassRow) (cid : Nat) (tc : List Char)
    (hcid : parsePositiveInteger rt cParam = some cid)
    (hcabsent : ∀ cl ∈ classes, cl.id ≠ cid)
    (hcne : jsTrim tc ≠ []) (hcarabic : arabicOnly (jsTrim tc) = true)
    (uParam : JsVal) (ubody : UnitBody) (s : Store) (uid c : Nat) (tu : List Char)
    (huid : parsePositiveInteger rt uParam = some uid)
    (huabsent : ∀ u ∈ s.units, u.id ≠ uid)
    (huclass : parsePositiveInteger rt ubody.class_id = some c)
    (hutitle : ubody.title = .str tu) (hune : jsTrim tu ≠ [])
    (huarabic : arabicOnly (jsTrim tu) = true)
    (lParam : JsVal) (lbody : LessonBody) (school : School) (lid u : Nat) (tl : List Char)
    (hlid : parsePositiveInteger rt lParam = some lid)
    (hlabsent : ∀ l ∈ school.lessons, l.id ≠ lid)
    (hlunit : parsePositiveInteger rt lbody.unit_id = some u)
    (hltitle : lbody.title = .str tl) (hlne : jsTrim tl ≠ [])
    (hlarabic : arabicOnly (jsTrim tl) = true) :
    ((updateClass rt cParam (.str tc) classes).2 = classes ∧
      ((∃ cl ∈ classes, cl.cols.name = jsTrim tc) →
        (updateClass rt cParam (.str tc) classes).1.status = 409) ∧
      ((¬ ∃ cl ∈ classes, cl.cols.name = jsTrim tc) →
        (updateClass rt cParam (.str tc) classes).1.status = 404)) ∧
    ((updateUnit rt uParam ubody s).2 = s ∧
      (((∃ cl ∈ s.classes, cl.id = c) ∧ ∃ un ∈ s.units, un.cols.class_id = c ∧
          un.cols.title = jsTrim tu ∧
          un.cols.term = rt.textOfParam (jsOr ubody.term (.str ['1']))) →
        (updateUnit rt uParam ubody s).1.status = 409) ∧
      ((¬ ((∃ cl ∈ s.classes, cl.id = c) ∧ ∃ un ∈ s.units, un.cols.class_id = c ∧
          un.cols.title = jsTrim tu ∧
          un.cols.term = rt.textOfParam (jsOr ubody.term (.str ['1'])))) →
        (updateUnit rt uParam ubody s).1.status = 404)) ∧
    ((updateLesson rt now lParam lbody school).2 = school ∧
      (((∃ un ∈ school.units, un.id = u) ∧
          ∃ l ∈ school.lessons, l.unit_id = u ∧ l.title = jsTrim tl) →
        (updateLesson rt now lParam lbody school).1.status = 409) ∧
      ((¬ ((∃ un ∈ school.units, un.id = u) ∧
          ∃ l ∈ school.lessons, l.unit_id = u ∧ l.title = jsTrim tl)) →
        (updateLesson rt now lParam lbody school).1.status = 404)) :=
  ⟨updateClass_absent rt cParam classes cid tc hcid hcabsent hcne hcarabic,
    updateUnit_absent rt uParam ubody s uid c tu huid huabsent huclass hutitle hune huarabic,
    updateLesson_absent rt now lParam lbody school lid u tl hlid hlabsent hlunit hltitle hlne
      hlarabic⟩

/-- C20 (amended) at the id 99, which matches no row: a new class name and a new unit title
are answered 404, a lesson title that lesson 1 of the same unit carries is answered 409, and
no table changes. -/
theorem update_absent_target_witness :
    parsePositiveInteger embeddedRuntime (.str "99".toList) = some 99 ∧
    (updateClass embeddedRuntime (.str "99".toList) (.str "ج".toList) demoClasses).2
      = demoClasses ∧
    (updateClass embeddedRuntime (.str "99".toList) (.str "ج".toList) demoClasses).1.status
      = 404 ∧
    (updateUnit embeddedRuntime (.str "99".toList) (unitBodyWithTerm (.str ['1']))
      oneClassStore).2 = oneClassStore ∧
    (updateUnit embeddedRuntime (.str "99".toList) (unitBodyWithTerm (.str ['1']))
      oneClassStore).1.status = 404 ∧
    (updateLesson embeddedRuntime 70 (.str "99".toList) (lessonBodyWith none none)
      oneSubtreeSchool).2 = oneSubtreeSchool ∧
    (updateLesson embeddedRuntime 70 (.str "99".toList) (lessonBodyWith none none)
      oneSubtreeSchool).1.status = 409 :=
  have h := update_absent_target embeddedRuntime 70
    (.str "99".toList) demoClasses 99 "ج".toList (by decide) (by decide) (by decide) (by decide)
    (.str "99".toList) (unitBodyWithTerm (.str ['1'])) oneClassStore 99 1 "أ".toList
    (by decide) (by decide) (by decide) rfl (by decide) (by decide)
    (.str "99".toList) (lessonBodyWith none none) oneSubtreeSchool 99 1 "ج".toList
    (by decide) (by decide) (by decide) rfl (by decide) (by decide)
  ⟨by decide, h.1.1, h.1.2.2 (by decide), h.2.1.1, h.2.1.2.2 (by decide), h.2.2.1,
    h.2.2.2.1 (by decide)⟩

/-! ## The search route (C21) -/

theorem underMount_search (m : Mount) (h : m ∈ mountedRouters) :
    underMount m.path.toList "/api/search".toList = none := by
  simp only [mountedRouters, List.mem_cons, List.mem_singleton, List.not_mem_nil, or_false] at h
  rcases h with rfl | rfl | rfl | rfl | rfl <;> decide

/-- C21, the code at the failing input: a request to `/api/search` is answered by the
fallback of `server.js`, status 404 with the body `{ error: 'Resource not found' }`, whatever
the routers do: none of the five mounted routers is under a path that `/api/search` falls
under, and none of them is the module of the search router. -/
theorem search_answered_by_fallback {ρ : Type}
    (routers : String → List Char → Option (Response ρ)) :
    serveApi routers "/api/search".toList = ⟨404, .error "Resource not found" none⟩ ∧
      ∀ m ∈ mountedRouters, m.router ≠ "./src/routes/searchRoutes" := by
  refine ⟨?_, by decide⟩
  unfold serveApi
  split
  · rename_i response hsome
    rcases List.exists_of_findSome?_eq_some hsome with ⟨m, hm, hfm⟩
    rw [underMount_search m hm] at hfm
    simp at hfm
  · rfl

theorem search_shape (engine : SearchEngine) (q : JsVal) (s : School)
    (h : (search engine q s).status = 200) :
    ∃ r, (search engine q s).body = .row (some r) ∧ r.classes.length ≤ 20 ∧
      r.units.length ≤ 20 ∧ r.lessons.length ≤ 20 ∧
      (∀ raw, jsOr q (.str []) = .str raw → jsLength (jsTrim raw) < 2 → r = ⟨[], [], []⟩) := by
  unfold search at h ⊢
  split at h
  · rename_i raw hq
    rw [hq]
    simp only
    split
    · rename_i hshort
      refine ⟨⟨[], [], []⟩, rfl, by simp, by simp, by simp, ?_⟩
      intro _ _ _
      rfl
    · rename_i hlong
      refine ⟨_, rfl, ?_, ?_, ?_, ?_⟩
      · exact List.length_take_le _ _
      · exact List.length_take_le _ _
      · exact List.length_take_le _ _
      · intro raw2 hraw hlen
        have : raw2 = raw := by
          have := hraw
          injection this with this
          exact this.symm
        subst this
        exact absurd (Or.inr hlen) hlong
  · simp at h

/-! ## Order of the list queries (C22) -/

theorem getAllUnits_isAdminUnitList (s : Store) :
    ∃ result, getAllUnits s = ⟨200, .rows result⟩ ∧ IsAdminUnitList s result :=
  ⟨_, rfl, List.perm_insertionSort _ _, List.sorted_insertionSort _ _⟩

/-- C22, counterexample: in a store with two classes and one unit in each, the two units have
the same `display_order` and unit 1 was created first.  Every answer of the engine to the
query of the admin `GET /api/units` lists unit 2 before unit 1, because the class of unit 2
is ranked first: the rows do not come out by (display_order ASC, created_at ASC). -/
theorem admin_unit_list_not_by_creation :
    (twoClassStore.units.map fun u => (u.id, u.display_order, u.created_at))
        = [(1, 0, 20), (2, 0, 21)] ∧
      (∀ result, IsAdminUnitList twoClassStore result →
        (result.map fun r => r.1.id) = [2, 1] ∧
          ¬ (result.map fun r => r.1).Pairwise unitBefore) ∧
      ∃ result, getAllUnits twoClassStore = ⟨200, .rows result⟩ ∧
        (result.map fun r => r.1.id) = [2, 1] := by
  refine ⟨by decide, ?_, ⟨_, rfl, by decide⟩⟩
  intro result ⟨hperm, hsorted⟩
  have hjoin : joinUnitsClasses twoClassStore.classes twoClassStore.units
      = [(⟨1, 0, 20, ⟨1, "س".toList, "P".toList, "1".toList⟩⟩, ⟨1, 2, 10, ⟨"أ".toList⟩⟩),
         (⟨2, 0, 21, ⟨2, "ص".toList, "P".toList, "1".toList⟩⟩, ⟨2, 1, 11, ⟨"ب".toList⟩⟩)] := by
    decide
  rw [hjoin] at hperm
  have hlen := hperm.length_eq
  have hnodup : result.Nodup := hperm.nodup_iff.2 (by decide)
  match result, hlen, hperm, hsorted, hnodup with
  | [x, y], _, hperm, hsorted, hnodup =>
    have hx : x ∈ [x, y] := by simp
    have hy : y ∈ [x, y] := by simp
    have hx2 := hperm.mem_iff.1 hx
    have hy2 := hperm.mem_iff.1 hy
    simp only [List.mem_cons, List.mem_singleton, List.not_mem_nil, or_false] at hx2 hy2
    have hxy : adminUnitBefore x y := by
      simp only [List.pairwise_cons, List.mem_singleton, forall_eq] at hsorted
      exact hsorted.1
    have hne : x ≠ y := by
      intro h
      simp [h] at hnodup
    rcases hx2 with rfl | rfl <;> rcases hy2 with rfl | rfl
    · exact absurd rfl hne
    · exact absurd hxy (by decide)
    · exact ⟨by decide, by decide⟩
    · exact absurd rfl hne

/-- C22 (amended): for every store, the class list (`GET /api/classes`) and the classes of the
dashboard are the classes sorted by (display_order ASC, created_at DESC); the units of the
dashboard, of `GET /api/units/list/all` and of `GET /api/units/class/:classId` are the units
(of the class) sorted by (display_order ASC, created_at ASC), given by their columns `id,
class_id` in the first two; the admin `GET /api/units` lists the units joined with their
class, sorted by the rank of the class and then the rank of the unit, with no tiebreak on
the creation time. -/
theorem list_queries_ordered (s : Store) (classId : Nat) :
    (∃ cs, getClasses s.classes = ⟨200, .rows cs⟩ ∧ cs.Perm s.classes ∧
        cs.Pairwise classBefore) ∧
      (∃ (cs : List ClassRow) (us : List UnitRow), getDashboardData s = ⟨200, .row (some ⟨cs, us.map unitIdAndClass⟩)⟩ ∧
        cs.Perm s.classes ∧ cs.Pairwise classBefore ∧
        us.Perm s.units ∧ us.Pairwise unitBefore) ∧
      (∃ us : List UnitRow, getUnitsList s.units = ⟨200, .rows (us.map unitIdAndClass)⟩ ∧
        us.Perm s.units ∧ us.Pairwise unitBefore) ∧
      (∃ us, getUnitsOfClass classId s.units = ⟨200, .rows us⟩ ∧
        us.Perm (s.units.filter fun u => u.cols.class_id = classId) ∧
        us.Pairwise unitBefore) ∧
      (∃ rows, getAllUnits s = ⟨200, .rows rows⟩ ∧
        rows.Perm (joinUnitsClasses s.classes s.units) ∧ rows.Pairwise adminUnitBefore) :=
  ⟨⟨_, rfl, List.perm_insertionSort _ _, List.sorted_insertionSort _ _⟩,
   ⟨_, _, rfl, List.perm_insertionSort _ _, List.sorted_insertionSort _ _,
     List.perm_insertionSort _ _, List.sorted_insertionSort _ _⟩,
   ⟨_, rfl, List.perm_insertionSort _ _, List.sorted_insertionSort _ _⟩,
   ⟨_, rfl, List.perm_insertionSort _ _, List.sorted_insertionSort _ _⟩,
   ⟨_, rfl, List.perm_insertionSort _ _, List.sorted_insertionSort _ _⟩⟩

/-! ## Rank of a new question (C23) -/

theorem orderedInsert_before_last (a q : QuestionRow) (l : List QuestionRow)
    (h : a.display_order ≤ q.display_order) :
    (l ++ [q]).orderedInsert (fun a b : QuestionRow => a.display_order ≤ b.display_order) a
      = l.orderedInsert (fun a b : QuestionRow => a.display_order ≤ b.display_order) a
          ++ [q] := by
  induction l with
  | nil => simp [List.orderedInsert, h]
  | cons b l ih =>
    simp only [List.cons_append, List.orderedInsert, List.append_eq]
    split
    · rfl
    · rw [ih]
      rfl

theorem insertionSort_append_last (q : QuestionRow) (l : List QuestionRow)
    (h : ∀ x ∈ l, x.display_order ≤ q.display_order) :
    (l ++ [q]).insertionSort (fun a b : QuestionRow => a.display_order ≤ b.display_order)
      = l.insertionSort (fun a b : QuestionRow => a.display_order ≤ b.display_order)
          ++ [q] := by
  induction l with
  | nil => rfl
  | cons b l ih =>
    simp only [List.cons_append, List.insertionSort, List.append_eq]
    rw [ih fun x hx => h x (List.mem_cons_of_mem _ hx)]
    exact orderedInsert_before_last b q _ (h b (List.mem_cons_self _ _))

theorem foldr_max_attained (l : List Nat) (h : l ≠ []) : l.foldr max 0 ∈ l := by
  induction l with
  | nil => exact absurd rfl h
  | cons a l ih =>
    simp only [List.foldr_cons]
    by_cases hl : l = []
    · subst hl
      simp
    · have := ih hl
      rcases Nat.le_total a (l.foldr max 0) with hle | hle
      · rw [Nat.max_eq_right hle]
        exact List.mem_cons_of_mem _ this
      · rw [Nat.max_eq_left hle]
        exact List.mem_cons_self _ _

theorem createQuestion_created (rt : Runtime) (upperCase : List Char → List Char) (now : Nat)
    (lessonIdParam : JsVal) (body : QuestionBody) (s : School)
    (h : (createQuestion rt upperCase now lessonIdParam body s).1.status = 201) :
    ∃ lessonId q, parsePositiveInteger rt lessonIdParam = some lessonId ∧
      (createQuestion rt upperCase now lessonIdParam body s).2.questions
        = s.questions ++ [q] ∧
      q.lesson_id = lessonId ∧
      q.display_order = ((s.questions.filter fun x => x.lesson_id = lessonId).map
        fun x => x.display_order).foldr max 0 + 1 := by
  unfold createQuestion at h ⊢
  split at h
  · cases h
  · rename_i lessonId hid
    rw [hid]
    simp only
    split at h
    · cases h
    · rename_i hfields
      rw [if_neg hfields]
      split at h
      · rename_i answer hanswer
        split at h
        · cases h
        · rename_i hletter
          rw [if_neg hletter]
          exact ⟨lessonId, _, rfl, rfl, rfl, rfl⟩
      · cases h

/-- C23: when a question is created for a lesson (status 201), the table gains exactly the
new row; its `display_order` is 1 when the lesson had no question, otherwise one more than
the `display_order` of some question of the lesson, and it is strictly greater than that of
every question the lesson had; the listing of the lesson by `display_order` afterwards is
the listing before followed by the new question, which is therefore last. -/
theorem new_question_ranked_last (rt : Runtime) (upperCase : List Char → List Char)
    (now : Nat) (lessonIdParam : JsVal) (body : QuestionBody) (s : School)
    (h : (createQuestion rt upperCase now lessonIdParam body s).1.status = 201) :
    ∃ lessonId q, parsePositiveInteger rt lessonIdParam = some lessonId ∧
      (createQuestion rt upperCase now lessonIdParam body s).2.questions
        = s.questions ++ [q] ∧
      q.lesson_id = lessonId ∧
      ((∀ x ∈ s.questions, x.lesson_id ≠ lessonId) → q.display_order = 1) ∧
      ((∃ x ∈ s.questions, x.lesson_id = lessonId) →
        ∃ x ∈ s.questions, x.lesson_id = lessonId ∧ q.display_order = x.display_order + 1) ∧
      (∀ x ∈ s.questions, x.lesson_id = lessonId → x.display_order < q.display_order) ∧
      questionsOf lessonId (createQuestion rt upperCase now lessonIdParam body s).2.questions
        = questionsOf lessonId s.questions ++ [q] ∧
      (questionsOf lessonId
        (createQuestion rt upperCase now lessonIdParam body s).2.questions).getLast?
          = some q := by
  obtain ⟨lessonId, q, hid, hqs, hlesson, horder⟩ :=
    createQuestion_created rt upperCase now lessonIdParam body s h
  have hgt : ∀ x ∈ s.questions, x.lesson_id = lessonId →
      x.display_order < q.display_order := by
    intro x hx hxl
    have := le_foldr_max ((s.questions.filter fun x => x.lesson_id = lessonId).map
      fun x => x.display_order) x.display_order
        (List.mem_map.2 ⟨x, List.mem_filter.2 ⟨hx, by simpa using hxl⟩, rfl⟩)
    omega
  have hlist : questionsOf lessonId (s.questions ++ [q])
      = questionsOf lessonId s.questions ++ [q] := by
    unfold questionsOf
    rw [List.filter_append]
    have : [q].filter (fun x => decide (x.lesson_id = lessonId)) = [q] := by
      simp [hlesson]
    rw [this]
    apply insertionSort_append_last
    intro x hx
    rw [List.mem_filter] at hx
    exact Nat.le_of_lt (hgt x hx.1 (by simpa using hx.2))
  refine ⟨lessonId, q, hid, hqs, hlesson, ?_, ?_, hgt, ?_, ?_⟩
  · intro hnone
    have : (s.questions.filter fun x => x.lesson_id = lessonId) = [] := by
      rw [List.filter_eq_nil_iff]
      intro x hx
      simpa using hnone x hx
    rw [horder, this]
    rfl
  · rintro ⟨x, hx, hxl⟩
    have hne : ((s.questions.filter fun x => x.lesson_id = lessonId).map
        fun x => x.display_order) ≠ [] := by
      intro hnil
      have hmem : x.display_order ∈ ((s.questions.filter fun x => x.lesson_id = lessonId).map
          fun x => x.display_order) :=
        List.mem_map.2 ⟨x, List.mem_filter.2 ⟨hx, by simpa using hxl⟩, rfl⟩
      rw [hnil] at hmem
      simp at hmem
    obtain ⟨y, hy, hyd⟩ := List.mem_map.1 (foldr_max_attained _ hne)
    rw [List.mem_filter] at hy
    exact ⟨y, hy.1, by simpa using hy.2, by rw [horder, hyd]⟩
  · rw [hqs]
    exact hlist
  · rw [hqs, hlist]
    simp

/-- C23 at a question created for lesson 1 of a school that holds one question of
that lesson. -/
theorem new_question_ranked_last_witness :
    (createQuestion embeddedRuntime asciiUpperCase 5 (.str ['1']) demoQuestionBody
        oneSubtreeSchool).1.status = 201 ∧
      ∃ lessonId q, parsePositiveInteger embeddedRuntime (.str ['1']) = some lessonId ∧
        (createQuestion embeddedRuntime asciiUpperCase 5 (.str ['1']) demoQuestionBody
          oneSubtreeSchool).2.questions = oneSubtreeSchool.questions ++ [q] ∧
        q.lesson_id = lessonId ∧
        ((∀ x ∈ oneSubtreeSchool.questions, x.lesson_id ≠ lessonId) → q.display_order = 1) ∧
        ((∃ x ∈ oneSubtreeSchool.questions, x.lesson_id = lessonId) →
          ∃ x ∈ oneSubtreeSchool.questions,
            x.lesson_id = lessonId ∧ q.display_order = x.display_order + 1) ∧
        (∀ x ∈ oneSubtreeSchool.questions, x.lesson_id = lessonId →
          x.display_order < q.display_order) ∧
        questionsOf lessonId (createQuestion embeddedRuntime asciiUpperCase 5 (.str ['1'])
          demoQuestionBody oneSubtreeSchool).2.questions
            = questionsOf lessonId oneSubtreeSchool.questions ++ [q] ∧
        (questionsOf lessonId (createQuestion embeddedRuntime asciiUpperCase 5 (.str ['1'])
          demoQuestionBody oneSubtreeSchool).2.questions).getLast? = some q :=
  ⟨by decide, new_question_ranked_last embeddedRuntime asciiUpperCase 5 (.str ['1'])
    demoQuestionBody oneSubtreeSchool (by decide)⟩

/-! ## The identity row (C24) -/

theorem putIdentity_valid (now : Nat) (body : IdentityBody) (rows : List IdentityRow)
    (h : ValidIdentity body) :
    putIdentity now body rows =
      match rows.head? with
      | none => (⟨200, .row (some (identityOf body))⟩,
          insertIdentity now (identityOf body) rows)
      | some existing => (⟨200, .row (some (identityOf body))⟩,
          updateIdentity now (identityOf body) existing.id rows) := by
  obtain ⟨a, b, c, d, rfl, ha, hb, hc, hd, la, lb, lc, ld⟩ := h
  unfold putIdentity
  simp only [normalize]
  rw [if_neg (by simp only [not_or]; exact ⟨ha, hb, hc, hd⟩),
    if_neg (by simp only [not_or, not_lt]; exact ⟨la, lb, lc, ld⟩)]
  rfl

theorem updateIdentity_ids (now : Nat) (v : Identity) (id : Nat) (rows : List IdentityRow) :
    (updateIdentity now v id rows).map (fun r => r.id) = rows.map fun r => r.id := by
  unfold updateIdentity
  rw [List.map_map]
  apply List.map_congr_left
  intro r _
  simp only [Function.comp]
  split <;> rfl

theorem updateIdentity_other (now : Nat) (v : Identity) (id : Nat) (rows : List IdentityRow)
    (r : IdentityRow) (hr : r ∈ rows) (hid : r.id ≠ id) : r ∈ updateIdentity now v id rows := by
  unfold updateIdentity
  rw [List.mem_map]
  exact ⟨r, hr, by rw [if_neg hid]⟩

/-- C24: for every table of identity rows and every valid body, `PUT /api/settings/identity`
answers 200 with the four trimmed strings.  On an empty table it inserts one row that holds
them; otherwise it updates in place the row with the id of the first row (the same ids in
the same positions afterwards, the first row holds the submitted strings, rows with another
id are untouched).  The number of rows afterwards is max(1, number before), so one row stays
one row.  The initialisation at start-up leaves a non-empty table as it is and puts the
default row into an empty one. -/
theorem identity_stays_singleton (now : Nat) (body : IdentityBody) (rows : List IdentityRow)
    (h : ValidIdentity body) :
    (putIdentity now body rows).1 = ⟨200, .row (some (identityOf body))⟩ ∧
      (rows = [] → ∃ r, (putIdentity now body rows).2 = [r] ∧
        r.identity = identityOf body) ∧
      (∀ first rest, rows = first :: rest →
        (putIdentity now body rows).2.map (fun r => r.id) = rows.map (fun r => r.id) ∧
        (∃ r, (putIdentity now body rows).2.head? = some r ∧ r.id = first.id ∧
          r.created_at = first.created_at ∧ r.identity = identityOf body) ∧
        ∀ r ∈ rows, r.id ≠ first.id → r ∈ (putIdentity now body rows).2) ∧
      (putIdentity now body rows).2.length = max 1 rows.length ∧
      (rows.length = 1 → (putIdentity now body rows).2.length = 1) ∧
      (initIdentity now rows).length = max 1 rows.length ∧
      (rows ≠ [] → initIdentity now rows = rows) ∧
      (rows = [] → ∃ r, initIdentity now rows = [r] ∧ r.identity = defaultIdentity) := by
  have hput := putIdentity_valid now body rows h
  have hlen : (putIdentity now body rows).2.length = max 1 rows.length := by
    rw [hput]
    cases rows with
    | nil => rfl
    | cons first rest =>
      simp only [List.head?_cons, updateIdentity, List.length_map, List.length_cons]
      omega
  refine ⟨?_, ?_, ?_, hlen, ?_, ?_, ?_, ?_⟩
  · rw [hput]
    cases rows <;> rfl
  · rintro rfl
    rw [hput]
    exact ⟨_, rfl, rfl⟩
  · rintro first rest rfl
    rw [hput]
    simp only [List.head?_cons]
    refine ⟨updateIdentity_ids _ _ _ _, ?_, fun r hr hid => updateIdentity_other _ _ _ _ r hr hid⟩
    simp only [updateIdentity, List.map_cons, List.head?_cons, if_true]
    exact ⟨_, rfl, rfl, rfl, rfl⟩
  · intro h1
    rw [hlen, h1]
    rfl
  · cases rows with
    | nil => rfl
    | cons first rest =>
      simp only [initIdentity, List.head?_cons, List.length_cons]
      omega
  · intro hne
    cases rows with
    | nil => exact absurd rfl hne
    | cons first rest => rfl
  · rintro rfl
    exact ⟨_, rfl, rfl⟩

/-- C24 at an update of a table that holds one row: the row is rewritten in place and stays
the only one. -/
theorem identity_stays_singleton_witness :
    ValidIdentity (identityBodyOf " a " "b" "c" "d") ∧
      (putIdentity 9 (identityBodyOf " a " "b" "c" "d")
        [⟨1, ['w'], ['x'], ['y'], ['z'], 3, 3⟩]).2
          = [⟨1, ['a'], ['b'], ['c'], ['d'], 3, 9⟩] ∧
      (putIdentity 9 (identityBodyOf " a " "b" "c" "d")
        [⟨1, ['w'], ['x'], ['y'], ['z'], 3, 3⟩]).2.length = max 1 1 :=
  ⟨⟨_, _, _, _, rfl, by decide, by decide, by decide, by decide, by decide, by decide,
      by decide, by decide⟩,
    by decide,
    (identity_stays_singleton 9 (identityBodyOf " a " "b" "c" "d")
      [⟨1, ['w'], ['x'], ['y'], ['z'], 3, 3⟩]
      ⟨_, _, _, _, rfl, by decide, by decide, by decide, by decide, by decide, by decide,
        by decide, by decide⟩).2.2.2.1⟩

/-! ## Errors of the engine (C25) -/

/-- C25: under the networked dialect, when the pool's `query` raises the error `e` on the
statement that `run`, `get` or `all` hands to it, the method is rejected with `e` itself;
under the embedded dialect, when the driver's `run`, `get` or `all` hands the error `e` to
the callback, the method is rejected with `e` itself.  In no such case does the method
resolve, and the only other rejection, `Database not connected`, needs no engine. -/
theorem engine_error_propagates {π ε : Type} (sql : List Char) (params : List π) (e : ε) :
    (∀ query : List Char → List π → Except ε PgResult,
      query (runStatement sql) params = .error e →
        Database.run (.postgres ⟨some query⟩) sql params = .error (.engine e)) ∧
    (∀ query : List Char → List π → Except ε PgResult,
      query (getStatement sql) params = .error e →
        Database.get (.postgres ⟨some query⟩) sql params = .error (.engine e)) ∧
    (∀ query : List Char → List π → Except ε PgResult,
      query (allStatement sql) params = .error e →
        Database.all (.postgres ⟨some query⟩) sql params = .error (.engine e)) ∧
    (∀ driver : SqliteDriver π ε, driver.run sql params = .error e →
        Database.run (.sqlite ⟨some driver⟩) sql params = .error (.engine e)) ∧
    (∀ driver : SqliteDriver π ε, driver.get sql params = .error e →
        Database.get (.sqlite ⟨some driver⟩) sql params = .error (.engine e)) ∧
    (∀ driver : SqliteDriver π ε, driver.all sql params = .error e →
        Database.all (.sqlite ⟨some driver⟩) sql params = .error (.engine e)) := by
  refine ⟨?_, ?_, ?_, ?_, ?_, ?_⟩
  · intro query h
    simp only [Database.run, PgDatabase.run, h]
  · intro query h
    simp only [Database.get, PgDatabase.get, h]
  · intro query h
    simp only [Database.all, PgDatabase.all, h]
  · intro driver h
    simp only [Database.run, SqliteDatabase.run, h]
  · intro driver h
    simp only [Database.get, SqliteDatabase.get, h]
  · intro driver h
    simp only [Database.all, SqliteDatabase.all, h]

/-! ## The global error handler (C26) -/

/-- C26: in production the body of the error handler is the same for every two errors, the
generic text with no `stack` property, so the whole response depends on `status` and
`statusCode` only; outside production the body holds `err.message`, and `err.stack` exactly
when that is truthy.  The status is `err.status || err.statusCode || 500` in both cases. -/
theorem production_error_body_generic (e1 e2 : JsError) :
    (errorHandler true e1).2 = (errorHandler true e2).2 ∧
      (errorHandler true e1).2 = ⟨.str genericError, none⟩ ∧
      (e1.status = e2.status → e1.statusCode = e2.statusCode →
        errorHandler true e1 = errorHandler true e2) ∧
      (errorHandler false e1).2.error = e1.message ∧
      (errorHandler false e1).2.stack = (if e1.stack.truthy then some e1.stack else none) ∧
      (e1.stack = .undefined → (errorHandler false e1).2.stack = none) ∧
      ∀ isProd, (errorHandler isProd e1).1 = jsOr (jsOr e1.status e1.statusCode) (.num 500) := by
  refine ⟨rfl, rfl, ?_, rfl, ?_, ?_, fun _ => rfl⟩
  · intro h1 h2
    simp [errorHandler, h1, h2]
  · simp [errorHandler]
  · intro h
    simp [errorHandler, h, JsVal.truthy]

/-! ## Positive integers (C27) -/

/-- C27: `parsePositiveInteger` answers `{ valid: true, value: n }` exactly when the input is
not `undefined`, `null` or the empty string and `Number` makes the integer `n ≥ 1` of it; it
answers `{ valid: false }` exactly when the input is one of the three or `Number` makes no
integer `≥ 1` of it, as for zero, a negative number, and, under the reading of decimal
digits, for the texts `1.5`, `abc`, `0` and `-4`; the text `7` is valid with value 7. -/
theorem parsePositiveInteger_valid_iff (rt : Runtime) (value : JsVal) :
    (∀ n : Nat, parsePositiveInteger rt value = some n ↔
      (value ≠ .undefined ∧ value ≠ .null ∧ value ≠ .str [] ∧
        rt.toInteger value = some (n : Int) ∧ 1 ≤ n)) ∧
    (parsePositiveInteger rt value = none ↔
      (value = .undefined ∨ value = .null ∨ value = .str [] ∨
        ∀ z, rt.toInteger value = some z → z < 1)) ∧
    parsePositiveInteger rt (.num 0) = none ∧
    (∀ k : Nat, parsePositiveInteger rt (.num (-(k : Int))) = none) ∧
    parsePositiveInteger embeddedRuntime (.str "1.5".toList) = none ∧
    parsePositiveInteger embeddedRuntime (.str "abc".toList) = none ∧
    parsePositiveInteger embeddedRuntime (.str "0".toList) = none ∧
    parsePositiveInteger embeddedRuntime (.str "-4".toList) = none ∧
    parsePositiveInteger embeddedRuntime (.str "7".toList) = some 7 := by
  refine ⟨?_, ?_, ?_, ?_, by decide, by decide, by decide, by decide, by decide⟩
  · intro n
    unfold parsePositiveInteger
    by_cases h : value = .undefined ∨ value = .null ∨ value = .str []
    · rw [if_pos h]
      constructor
      · intro h2
        cases h2
      · rintro ⟨h1, h2, h3, _⟩
        rcases h with h | h | h
        · exact absurd h h1
        · exact absurd h h2
        · exact absurd h h3
    · rw [if_neg h]
      simp only [not_or] at h
      cases hz : rt.toInteger value with
      | none =>
        simp only
        constructor
        · intro h2
          cases h2
        · rintro ⟨_, _, _, h4, _⟩
          cases h4
      | some z =>
        simp only
        by_cases hlt : z < 1
        · rw [if_pos hlt]
          constructor
          · intro h2
            cases h2
          · rintro ⟨_, _, _, h4, h5⟩
            injection h4 with h4
            omega
        · rw [if_neg hlt]
          constructor
          · intro h2
            injection h2 with h2
            refine ⟨h.1, h.2.1, h.2.2, ?_, ?_⟩
            · congr 1
              omega
            · omega
          · rintro ⟨_, _, _, h4, _⟩
            injection h4 with h4
            congr 1
            omega
  · unfold parsePositiveInteger
    by_cases h : value = .undefined ∨ value = .null ∨ value = .str []
    · rw [if_pos h]
      constructor
      · intro _
        rcases h with h | h | h
        · exact Or.inl h
        · exact Or.inr (Or.inl h)
        · exact Or.inr (Or.inr (Or.inl h))
      · intro _
        rfl
    · rw [if_neg h]
      simp only [not_or] at h
      cases hz : rt.toInteger value with
      | none =>
        simp only
        constructor
        · intro _
          refine Or.inr (Or.inr (Or.inr ?_))
          intro z hz2
          cases hz2
        · intro _
          trivial
      | some z =>
        simp only
        by_cases hlt : z < 1
        · rw [if_pos hlt]
          constructor
          · intro _
            refine Or.inr (Or.inr (Or.inr ?_))
            intro z2 hz2
            injection hz2 with hz2
            omega
          · intro _
            rfl
        · rw [if_neg hlt]
          constructor
          · intro h2
            cases h2
          · rintro (h1 | h1 | h1 | h1)
            · exact absurd h1 h.1
            · exact absurd h1 h.2.1
            · exact absurd h1 h.2.2
            · exact absurd (h1 z rfl) hlt
  · rfl
  · intro k
    unfold parsePositiveInteger
    rw [if_neg (by simp)]
    simp only [Runtime.toInteger]
    rw [if_pos (by omega)]

/-! ## Login (C28) -/

theorem nonempty_of_jsTrim {s : List Char} (h : jsTrim s ≠ []) : s ≠ [] := by
  rintro rfl
  exact h rfl

theorem login_unknown (lib : AuthLib) (admins : List AdminRow) (username : List Char)
    (password : JsVal) (hpw : password.truthy = true) (hname : jsTrim username ≠ [])
    (hnone : admins.find? (fun a => a.username = jsTrim username) = none) :
    login lib (.str username) password admins
      = ⟨⟨401, .error "Invalid credentials" none⟩, none⟩ := by
  have hne := nonempty_of_jsTrim hname
  have ht : (JsVal.str username).truthy = true := by simp [JsVal.truthy, hne]
  unfold login
  rw [if_neg (by rw [ht, hpw]; decide)]
  simp only [jsString]
  rw [if_neg hname, hnone]

theorem login_known (lib : AuthLib) (admins : List AdminRow) (username : List Char)
    (password : JsVal) (admin : AdminRow) (hpw : password.truthy = true)
    (hname : jsTrim username ≠ [])
    (hsome : admins.find? (fun a => a.username = jsTrim username) = some admin) :
    (lib.compare password admin.password_hash = none →
        login lib (.str username) password admins
          = ⟨⟨500, .error "Server error" none⟩, none⟩) ∧
      (lib.compare password admin.password_hash = some false →
        login lib (.str username) password admins
          = ⟨⟨401, .error "Invalid credentials" none⟩, none⟩) ∧
      (lib.compare password admin.password_hash = some true →
        login lib (.str username) password admins
          = ⟨⟨200, .row (some ⟨admin.id, admin.username⟩)⟩,
              some (lib.sign admin.id admin.username)⟩) := by
  have hne := nonempty_of_jsTrim hname
  have ht : (JsVal.str username).truthy = true := by simp [JsVal.truthy, hne]
  unfold login
  rw [if_neg (by rw [ht, hpw]; decide)]
  simp only [jsString]
  rw [if_neg hname, hsome]
  refine ⟨fun h => ?_, fun h => ?_, fun h => ?_⟩ <;> simp only [h]

theorem login_wrong_password_same_reply (lib : AuthLib) (admins : List AdminRow)
    (known unknown : List Char) (password : JsVal) (admin : AdminRow)
    (hpw : password.truthy = true) (hk : jsTrim known ≠ []) (hu : jsTrim unknown ≠ [])
    (hsome : admins.find? (fun a => a.username = jsTrim known) = some admin)
    (hnone : admins.find? (fun a => a.username = jsTrim unknown) = none)
    (hwrong : lib.compare password admin.password_hash = some false) :
    login lib (.str known) password admins = login lib (.str unknown) password admins := by
  rw [login_unknown lib admins unknown password hpw hu hnone,
    (login_known lib admins known password admin hpw hk hsome).2.1 hwrong]

/-- C28, the code at the failing input: when `bcrypt.compare` is rejected for the submitted
password, a login attempt with an unknown username is answered 401 `Invalid credentials` and
an attempt with the username of an admin is answered 500 `Server error`, neither with a
cookie: the two responses differ, so the status tells whether the username exists. -/
theorem login_status_reveals_username (lib : AuthLib) (admins : List AdminRow)
    (known unknown : List Char) (password : JsVal) (admin : AdminRow)
    (hpw : password.truthy = true) (hk : jsTrim known ≠ []) (hu : jsTrim unknown ≠ [])
    (hsome : admins.find? (fun a => a.username = jsTrim known) = some admin)
    (hnone : admins.find? (fun a => a.username = jsTrim unknown) = none)
    (hrejected : lib.compare password admin.password_hash = none) :
    login lib (.str unknown) password admins
        = ⟨⟨401, .error "Invalid credentials" none⟩, none⟩ ∧
      login lib (.str known) password admins = ⟨⟨500, .error "Server error" none⟩, none⟩ ∧
      login lib (.str known) password admins ≠ login lib (.str unknown) password admins := by
  have h1 := login_unknown lib admins unknown password hpw hu hnone
  have h2 : login lib (.str known) password admins
      = ⟨⟨500, .error "Server error" none⟩, none⟩ :=
    (login_known lib admins known password admin hpw hk hsome).1 hrejected
  refine ⟨h1, h2, ?_⟩
  rw [h1, h2]
  decide

/-- C28 at the body `{ username, password: 123 }` for the admin `admin` and for the
unknown name `ghost`, with a comparison that is rejected for data that is not a string. -/
theorem login_status_reveals_username_witness :
    login demoAuthLib (.str "ghost".toList) (.num 123) oneAdmin
        = ⟨⟨401, .error "Invalid credentials" none⟩, none⟩ ∧
      login demoAuthLib (.str "admin".toList) (.num 123) oneAdmin
        = ⟨⟨500, .error "Server error" none⟩, none⟩ ∧
      login demoAuthLib (.str "admin".toList) (.num 123) oneAdmin
        ≠ login demoAuthLib (.str "ghost".toList) (.num 123) oneAdmin :=
  login_status_reveals_username demoAuthLib oneAdmin "admin".toList "ghost".toList (.num 123)
    ⟨1, "admin".toList, "secret".toList⟩ (by decide) (by decide) (by decide) (by decide)
    (by decide) (by decide)

/-! ## The answer check (C29) -/

/-- C29, counterexample: question 1 exists with the correct answer `A` and the answer `a` is
submitted.  Under the lesson id `1` in the path the endpoint answers `correct = true`; under
the lesson id `0` it answers 400 `Invalid lesson or question id` and gives no verdict. -/
theorem check_needs_wellformed_lesson :
    checkAnswer embeddedRuntime asciiUpperCase (.str "1".toList) (.str "1".toList)
        (.str "a".toList) oneSubtreeSchool = ⟨200, .row (some ⟨true, "A".toList⟩)⟩ ∧
      checkAnswer embeddedRuntime asciiUpperCase (.str "0".toList) (.str "1".toList)
        (.str "a".toList) oneSubtreeSchool
          = ⟨400, .error "Invalid lesson or question id" none⟩ := by
  constructor <;> decide

/-- C29 (amended): when the lesson id and the question id of the path are positive integers,
the question exists and the answer is not blank, the endpoint answers 200 with `correct =
true` if and only if the answer, trimmed and upper-cased, equals the stored `correct_answer`
upper-cased, together with that stored answer; the response is the same under every other
lesson id that is a positive integer, whether or not the question belongs to that lesson; a
lesson id that is not a positive integer is answered 400 `Invalid lesson or question id`. -/
theorem check_verdict (rt : Runtime) (upperCase : List Char → List Char)
    (lessonIdParam questionIdParam answer : JsVal) (s : School) (lessonId questionId : Nat)
    (question : QuestionRow)
    (hl : parsePositiveInteger rt lessonIdParam = some lessonId)
    (hq : parsePositiveInteger rt questionIdParam = some questionId)
    (hfind : s.questions.find? (fun q => q.id = questionId) = some question)
    (hanswer : answer ≠ .undefined ∧ answer ≠ .null ∧ jsTrim (jsString answer) ≠ []) :
    (∃ correct, checkAnswer rt upperCase lessonIdParam questionIdParam answer s
        = ⟨200, .row (some ⟨correct, question.correct_answer⟩)⟩ ∧
      (correct = true ↔
        upperCase (jsTrim (jsString answer)) = upperCase question.correct_answer)) ∧
      (∀ other otherId, parsePositiveInteger rt other = some otherId →
        checkAnswer rt upperCase other questionIdParam answer s
          = checkAnswer rt upperCase lessonIdParam questionIdParam answer s) ∧
      ∀ other, parsePositiveInteger rt other = none →
        checkAnswer rt upperCase other questionIdParam answer s
          = ⟨400, .error "Invalid lesson or question id" none⟩ := by
  have hno : ¬ (answer = .undefined ∨ answer = .null ∨ jsTrim (jsString answer) = []) := by
    simp only [not_or]
    exact hanswer
  have key : ∀ p l, parsePositiveInteger rt p = some l →
      checkAnswer rt upperCase p questionIdParam answer s
        = ⟨200, .row (some ⟨decide (upperCase (jsTrim (jsString answer))
            = upperCase question.correct_answer), question.correct_answer⟩)⟩ := by
    intro p l hp
    unfold checkAnswer
    rw [hp, hq]
    simp only
    rw [if_neg hno, hfind]
  refine ⟨⟨_, key _ _ hl, by simp⟩, ?_, ?_⟩
  · intro other otherId ho
    rw [key _ _ ho, key _ _ hl]
  · intro other ho
    unfold checkAnswer
    rw [ho]

/-- C29 (amended) at the answer ` a ` to question 1 of the school, under the lesson id 5 to
which the question does not belong. -/
theorem check_verdict_witness :
    (∃ correct, checkAnswer embeddedRuntime asciiUpperCase (.str "5".toList)
        (.str "1".toList) (.str " a ".toList) oneSubtreeSchool
          = ⟨200, .row (some ⟨correct, "A".toList⟩)⟩ ∧
      (correct = true ↔
        asciiUpperCase (jsTrim (jsString (.str " a ".toList))) = asciiUpperCase "A".toList)) ∧
      (∀ other otherId, parsePositiveInteger embeddedRuntime other = some otherId →
        checkAnswer embeddedRuntime asciiUpperCase other (.str "1".toList)
            (.str " a ".toList) oneSubtreeSchool
          = checkAnswer embeddedRuntime asciiUpperCase (.str "5".toList) (.str "1".toList)
            (.str " a ".toList) oneSubtreeSchool) ∧
      ∀ other, parsePositiveInteger embeddedRuntime other = none →
        checkAnswer embeddedRuntime asciiUpperCase other (.str "1".toList)
            (.str " a ".toList) oneSubtreeSchool
          = ⟨400, .error "Invalid lesson or question id" none⟩ :=
  check_verdict embeddedRuntime asciiUpperCase (.str "5".toList) (.str "1".toList)
    (.str " a ".toList) oneSubtreeSchool 5 1
    ⟨1, 1, "س".toList, "أ".toList, "ب".toList, "ج".toList, "د".toList, "A".toList, 1, 60⟩
    (by decide) (by decide) (by decide) (by decide)

/-! ## Escaping (C30) -/

theorem replaceChar_cons (c : Char) (entity : List Char) (x : Char) (s : List Char) :
    replaceChar c entity (x :: s)
      = (if x = c then entity else [x]) ++ replaceChar c entity s := rfl

theorem replaceChar_append (c : Char) (entity : List Char) (s t : List Char) :
    replaceChar c entity (s ++ t) = replaceChar c entity s ++ replaceChar c entity t := by
  unfold replaceChar
  exact List.flatMap_append _ _ _

theorem entityOf_cases (c : Char) :
    (c = '&' ∧ entityOf c = ['&', 'a', 'm', 'p', ';']) ∨
    (c = '<' ∧ entityOf c = ['&', 'l', 't', ';']) ∨
    (c = '>' ∧ entityOf c = ['&', 'g', 't', ';']) ∨
    (c = doubleQuote ∧ entityOf c = ['&', 'q', 'u', 'o', 't', ';']) ∨
    (c = apostrophe ∧ entityOf c = ['&', '#', '0', '3', '9', ';']) ∨
    (c ≠ '&' ∧ c ≠ '<' ∧ c ≠ '>' ∧ c ≠ doubleQuote ∧ c ≠ apostrophe ∧ entityOf c = [c]) := by
  by_cases h1 : c = '&'
  · subst h1
    exact Or.inl ⟨rfl, by decide⟩
  by_cases h2 : c = '<'
  · subst h2
    exact Or.inr (Or.inl ⟨rfl, by decide⟩)
  by_cases h3 : c = '>'
  · subst h3
    exact Or.inr (Or.inr (Or.inl ⟨rfl, by decide⟩))
  by_cases h4 : c = doubleQuote
  · subst h4
    exact Or.inr (Or.inr (Or.inr (Or.inl ⟨rfl, by decide⟩)))
  by_cases h5 : c = apostrophe
  · subst h5
    exact Or.inr (Or.inr (Or.inr (Or.inr (Or.inl ⟨rfl, by decide⟩))))
  refine Or.inr (Or.inr (Or.inr (Or.inr (Or.inr ⟨h1, h2, h3, h4, h5, ?_⟩))))
  unfold entityOf
  rw [if_neg h1, if_neg h2, if_neg h3, if_neg h4, if_neg h5]

theorem fivePasses_cons (c : Char) (s : List Char) :
    replaceChar apostrophe "&#039;".toList
      (replaceChar doubleQuote "&quot;".toList
        (replaceChar '>' "&gt;".toList
          (replaceChar '<' "&lt;".toList
            (replaceChar '&' "&amp;".toList (c :: s)))))
      = entityOf c ++
        replaceChar apostrophe "&#039;".toList
          (replaceChar doubleQuote "&quot;".toList
            (replaceChar '>' "&gt;".toList
              (replaceChar '<' "&lt;".toList
                (replaceChar '&' "&amp;".toList s)))) := by
  rw [replaceChar_cons, replaceChar_append, replaceChar_append, replaceChar_append,
    replaceChar_append]
  congr 1
  rcases entityOf_cases c with ⟨rfl, h⟩ | ⟨rfl, h⟩ | ⟨rfl, h⟩ | ⟨rfl, h⟩ | ⟨rfl, h⟩ |
    ⟨h1, h2, h3, h4, h5, h⟩
  · rw [h]; decide
  · rw [h]; decide
  · rw [h]; decide
  · rw [h]; decide
  · rw [h]; decide
  · rw [h, if_neg h1]
    simp only [replaceChar, List.flatMap_cons, List.flatMap_nil, List.append_nil, if_neg h2,
      if_neg h3, if_neg h4, if_neg h5]

theorem escapeHtml_eq_flatMap (s : List Char) : escapeHtml s = s.flatMap entityOf := by
  unfold escapeHtml
  by_cases h : s = []
  · rw [if_pos h, h]
    rfl
  · rw [if_neg h]
    clear h
    induction s with
    | nil => rfl
    | cons c s ih => rw [fivePasses_cons, ih, List.flatMap_cons]

theorem escapeHtml_cons (c : Char) (s : List Char) :
    escapeHtml (c :: s) = entityOf c ++ escapeHtml s := by
  rw [escapeHtml_eq_flatMap, escapeHtml_eq_flatMap, List.flatMap_cons]

theorem entityOf_safe (c x : Char) (hx : x ∈ entityOf c) :
    x ≠ '<' ∧ x ≠ '>' ∧ x ≠ doubleQuote ∧ x ≠ apostrophe := by
  rcases entityOf_cases c with ⟨_, h⟩ | ⟨_, h⟩ | ⟨_, h⟩ | ⟨_, h⟩ | ⟨_, h⟩ |
    ⟨_, h2, h3, h4, h5, h⟩
  all_goals rw [h] at hx
  · simp only [List.mem_cons, List.mem_singleton, List.not_mem_nil, or_false] at hx
    rcases hx with rfl | rfl | rfl | rfl | rfl <;> decide
  · simp only [List.mem_cons, List.mem_singleton, List.not_mem_nil, or_false] at hx
    rcases hx with rfl | rfl | rfl | rfl <;> decide
  · simp only [List.mem_cons, List.mem_singleton, List.not_mem_nil, or_false] at hx
    rcases hx with rfl | rfl | rfl | rfl <;> decide
  · simp only [List.mem_cons, List.mem_singleton, List.not_mem_nil, or_false] at hx
    rcases hx with rfl | rfl | rfl | rfl | rfl | rfl <;> decide
  · simp only [List.mem_cons, List.mem_singleton, List.not_mem_nil, or_false] at hx
    rcases hx with rfl | rfl | rfl | rfl | rfl | rfl <;> decide
  · simp only [List.mem_singleton] at hx
    subst hx
    exact ⟨h2, h3, h4, h5⟩

theorem ampersands_cons (c : Char) (out : List Char) (h : AmpersandsStartEntities out)
    (hc : c = '&' → ∃ e ∈ entities, e.1 <+: c :: out) :
    AmpersandsStartEntities (c :: out) := by
  intro i hi
  cases i with
  | zero =>
    simp only [List.getElem?_cons_zero, Option.some.injEq] at hi
    simpa using hc hi
  | succ j =>
    simp only [List.getElem?_cons_succ] at hi
    simpa using h j hi

theorem ampersands_entityOf (c : Char) (out : List Char) (h : AmpersandsStartEntities out) :
    AmpersandsStartEntities (entityOf c ++ out) := by
  rcases entityOf_cases c with ⟨_, he⟩ | ⟨_, he⟩ | ⟨_, he⟩ | ⟨_, he⟩ | ⟨_, he⟩ |
    ⟨h1, _, _, _, _, he⟩
  · rw [he]
    refine ampersands_cons _ _ (ampersands_cons _ _ (ampersands_cons _ _ (ampersands_cons _ _
      (ampersands_cons _ _ h ?_) ?_) ?_) ?_) ?_
    · intro hc; exact absurd hc (by decide)
    · intro hc; exact absurd hc (by decide)
    · intro hc; exact absurd hc (by decide)
    · intro hc; exact absurd hc (by decide)
    · intro _
      exact ⟨("&amp;".toList, '&'), by decide, ⟨out, rfl⟩⟩
  · rw [he]
    refine ampersands_cons _ _ (ampersands_cons _ _ (ampersands_cons _ _ (ampersands_cons _ _
      h ?_) ?_) ?_) ?_
    · intro hc; exact absurd hc (by decide)
    · intro hc; exact absurd hc (by decide)
    · intro hc; exact absurd hc (by decide)
    · intro _
      exact ⟨("&lt;".toList, '<'), by decide, ⟨out, rfl⟩⟩
  · rw [he]
    refine ampersands_cons _ _ (ampersands_cons _ _ (ampersands_cons _ _ (ampersands_cons _ _
      h ?_) ?_) ?_) ?_
    · intro hc; exact absurd hc (by decide)
    · intro hc; exact absurd hc (by decide)
    · intro hc; exact absurd hc (by decide)
    · intro _
      exact ⟨("&gt;".toList, '>'), by decide, ⟨out, rfl⟩⟩
  · rw [he]
    refine ampersands_cons _ _ (ampersands_cons _ _ (ampersands_cons _ _ (ampersands_cons _ _
      (ampersands_cons _ _ (ampersands_cons _ _ h ?_) ?_) ?_) ?_) ?_) ?_
    · intro hc; exact absurd hc (by decide)
    · intro hc; exact absurd hc (by decide)
    · intro hc; exact absurd hc (by decide)
    · intro hc; exact absurd hc (by decide)
    · intro hc; exact absurd hc (by decide)
    · intro _
      exact ⟨("&quot;".toList, doubleQuote), by decide, ⟨out, rfl⟩⟩
  · rw [he]
    refine ampersands_cons _ _ (ampersands_cons _ _ (ampersands_cons _ _ (ampersands_cons _ _
      (ampersands_cons _ _ (ampersands_cons _ _ h ?_) ?_) ?_) ?_) ?_) ?_
    · intro hc; exact absurd hc (by decide)
    · intro hc; exact absurd hc (by decide)
    · intro hc; exact absurd hc (by decide)
    · intro hc; exact absurd hc (by decide)
    · intro hc; exact absurd hc (by decide)
    · intro _
      exact ⟨("&#039;".toList, apostrophe), by decide, ⟨out, rfl⟩⟩
  · rw [he]
    exact ampersands_cons _ _ h fun hc => absurd hc h1

theorem escapeHtml_ampersands (s : List Char) : AmpersandsStartEntities (escapeHtml s) := by
  induction s with
  | nil =>
    intro i hi
    simp [escapeHtml] at hi
  | cons c s ih =>
    rw [escapeHtml_cons]
    exact ampersands_entityOf c _ ih

theorem entities_eq :
    entities = [(['&', 'a', 'm', 'p', ';'], '&'), (['&', 'l', 't', ';'], '<'),
      (['&', 'g', 't', ';'], '>'), (['&', 'q', 'u', 'o', 't', ';'], doubleQuote),
      (['&', '#', '0', '3', '9', ';'], apostrophe)] := by decide

theorem entityAt_of_ne (c : Char) (rest : List Char) (h : c ≠ '&') :
    entityAt (c :: rest) = none := by
  have hb : ('&' == c) = false := by
    rw [beq_eq_false_iff_ne]
    exact fun h2 => h h2.symm
  unfold entityAt
  rw [entities_eq]
  simp [List.findSome?, List.isPrefixOf, hb]

theorem entityAt_entity (out : List Char) :
    entityAt ('&' :: 'a' :: 'm' :: 'p' :: ';' :: out) = some ('&', out) ∧
      entityAt ('&' :: 'l' :: 't' :: ';' :: out) = some ('<', out) ∧
      entityAt ('&' :: 'g' :: 't' :: ';' :: out) = some ('>', out) ∧
      entityAt ('&' :: 'q' :: 'u' :: 'o' :: 't' :: ';' :: out) = some (doubleQuote, out) ∧
      entityAt ('&' :: '#' :: '0' :: '3' :: '9' :: ';' :: out) = some (apostrophe, out) := by
  unfold entityAt
  rw [entities_eq]
  refine ⟨?_, ?_, ?_, ?_, ?_⟩ <;> simp [List.findSome?, List.isPrefixOf]

theorem unescapeHtmlFuel_entityOf (c : Char) (out : List Char) (fuel : Nat) :
    unescapeHtmlFuel (fuel + 1) (entityOf c ++ out) = c :: unescapeHtmlFuel fuel out := by
  have hat := entityAt_entity out
  rcases entityOf_cases c with ⟨rfl, he⟩ | ⟨rfl, he⟩ | ⟨rfl, he⟩ | ⟨rfl, he⟩ | ⟨rfl, he⟩ |
    ⟨h1, _, _, _, _, he⟩
  · rw [he]
    show unescapeHtmlFuel (fuel + 1) ('&' :: 'a' :: 'm' :: 'p' :: ';' :: out) = _
    rw [unescapeHtmlFuel, hat.1]
  · rw [he]
    show unescapeHtmlFuel (fuel + 1) ('&' :: 'l' :: 't' :: ';' :: out) = _
    rw [unescapeHtmlFuel, hat.2.1]
  · rw [he]
    show unescapeHtmlFuel (fuel + 1) ('&' :: 'g' :: 't' :: ';' :: out) = _
    rw [unescapeHtmlFuel, hat.2.2.1]
  · rw [he]
    show unescapeHtmlFuel (fuel + 1) ('&' :: 'q' :: 'u' :: 'o' :: 't' :: ';' :: out) = _
    rw [unescapeHtmlFuel, hat.2.2.2.1]
  · rw [he]
    show unescapeHtmlFuel (fuel + 1) ('&' :: '#' :: '0' :: '3' :: '9' :: ';' :: out) = _
    rw [unescapeHtmlFuel, hat.2.2.2.2]
  · rw [he]
    show unescapeHtmlFuel (fuel + 1) (c :: out) = c :: unescapeHtmlFuel fuel out
    rw [unescapeHtmlFuel, entityAt_of_ne c out h1]

theorem entityOf_length_pos (c : Char) : 1 ≤ (entityOf c).length := by
  rcases entityOf_cases c with ⟨_, he⟩ | ⟨_, he⟩ | ⟨_, he⟩ | ⟨_, he⟩ | ⟨_, he⟩ |
    ⟨_, _, _, _, _, he⟩ <;> rw [he] <;> simp

theorem unescapeHtmlFuel_escapeHtml (s : List Char) :
    ∀ fuel, (escapeHtml s).length ≤ fuel → unescapeHtmlFuel fuel (escapeHtml s) = s := by
  induction s with
  | nil =>
    intro fuel _
    cases fuel <;> rfl
  | cons c s ih =>
    intro fuel hfuel
    rw [escapeHtml_cons] at hfuel ⊢
    rw [List.length_append] at hfuel
    have hpos := entityOf_length_pos c
    cases fuel with
    | zero => omega
    | succ fuel =>
      rw [unescapeHtmlFuel_entityOf, ih fuel (by omega)]

/-- C30: for every string `s`, `escapeHtml(s)` holds none of the characters `<`, `>`, the
double quote and the apostrophe; every `&` in it starts one of the five entities; replacing
the five entities back by their characters, in one pass from left to right, gives `s`; and
the empty string is answered by the empty string. -/
theorem escapeHtml_safe_and_invertible (s : List Char) :
    (∀ x ∈ escapeHtml s, x ≠ '<' ∧ x ≠ '>' ∧ x ≠ doubleQuote ∧ x ≠ apostrophe) ∧
      (∀ i, (escapeHtml s)[i]? = some '&' →
        ∃ e ∈ entities, e.1 <+: (escapeHtml s).drop i) ∧
      unescapeHtml (escapeHtml s) = s ∧
      escapeHtml [] = [] := by
  refine ⟨?_, escapeHtml_ampersands s, ?_, rfl⟩
  · intro x hx
    rw [escapeHtml_eq_flatMap, List.mem_flatMap] at hx
    obtain ⟨c, _, hxc⟩ := hx
    exact entityOf_safe c x hxc
  · exact unescapeHtmlFuel_escapeHtml s _ (Nat.le_refl _)

end SchoolCms
